import Mathlib

/-!
The sketch relay-lights: three relays, twenty light patterns, one push-button

A shallow embedding of `src/main.cpp` (an Arduino sketch) and the properties
proved about it.

Conventions of the embedding.

* `unsigned long` is 32 bits wide on the target: clock values are naturals and
  every unsigned subtraction is taken modulo `2 ^ 32` (`usub`).
* `int` variables are integers. `%` on `int` is C's truncating remainder
  (`Int.tmod`). The sketch never leaves the 16-bit range on the values it can
  reach, so no wrap of `int` is modelled.
* Every call of `millis()` is an input of the function that makes it: the clock
  is an external collaborator, and `delay()` only shows in the values later
  calls of `millis()` return. `random()` draws are inputs in the same way.
* The global variables (and the lines printed on `Serial`) form `Globals`;
  the function-local `static` variables of each pattern function form one
  structure per function, with the names they have in the source. A pattern
  function is a function of the relay pins and of its own statics, the only
  state it can name.
-/

namespace RelayLights

/-! ## Machine-level helpers -/

/-- Logic level of a digital pin. -/
inductive Level where
  | LOW
  | HIGH
  deriving DecidableEq, Repr

open Level

/-- Number of values of an `unsigned long`. -/
def ulongRange : Nat := 2 ^ 32

/-- Unsigned 32-bit subtraction `a - b`, as computed on `unsigned long`. -/
def usub (a b : Nat) : Nat :=
  (a % ulongRange + (ulongRange - b % ulongRange)) % ulongRange

/-- Conversion of an `int` operand to `unsigned long`, as done by the usual
arithmetic conversions when it is compared with an `unsigned long`. -/
def toULong (x : Int) : Nat := (x % (ulongRange : Int)).toNat

/-- Three cells, for the arrays of length 3 of `fireflyEffect`. -/
structure Arr3 (α : Type) where
  e0 : α
  e1 : α
  e2 : α
  deriving DecidableEq, Repr

/-- Read cell `i` of a three-cell array (`i` is 0, 1 or 2 in the source). -/
def Arr3.get {α : Type} (a : Arr3 α) (i : Nat) : α :=
  match i with
  | 0 => a.e0
  | 1 => a.e1
  | _ => a.e2

/-- Write cell `i` of a three-cell array. -/
def Arr3.set {α : Type} (a : Arr3 α) (i : Nat) (v : α) : Arr3 α :=
  match i with
  | 0 => { a with e0 := v }
  | 1 => { a with e1 := v }
  | _ => { a with e2 := v }

/-- Read `tbl[i]` for an `int` index; `none` when the index is outside the array. -/
def lookup {α : Type} (tbl : List α) (i : Int) : Option α :=
  if 0 ≤ i then tbl.get? i.toNat else none

/-! ## Constants of the sketch -/

/-- Pin of relay 1. -/
def relay1 : Nat := 9
/-- Pin of relay 2. -/
def relay2 : Nat := 10
/-- Pin of relay 3. -/
def relay3 : Nat := 11
/-- Pin of the push-button. -/
def buttonPin : Nat := 12

/-- Each pattern runs for 20 seconds. -/
def patternDuration : Int := 20000

/-- Debounce time in milliseconds (a global that is never assigned). -/
def debounceDelay : Nat := 50

/-! ## State -/

/-- Levels last written to the three relay pins. -/
structure Relays where
  out1 : Level
  out2 : Level
  out3 : Level
  deriving DecidableEq, Repr

/-- A line printed on `Serial`; the number is the one printed after the text. -/
inductive SerialLine where
  | started
  | switching (n : Int)
  | buttonPressed (n : Int)
  deriving DecidableEq, Repr

/-- Statics of `sequentialOnOff`. -/
structure SequentialOnOffStatics where
  lastChange : Nat
  sequence : Int
  deriving DecidableEq, Repr

/-- Statics of `alternating12_3`, of `alternating1_23` and of `strobe`. -/
structure ToggleStatics where
  lastChange : Nat
  state : Bool
  deriving DecidableEq, Repr

/-- Statics of `chase`. -/
structure ChaseStatics where
  lastChange : Nat
  position : Int
  deriving DecidableEq, Repr

/-- Statics of `randomBlink`. -/
structure RandomBlinkStatics where
  lastChange : Nat
  deriving DecidableEq, Repr

/-- Statics of `heartbeat`. -/
structure HeartbeatStatics where
  lastChange : Nat
  beatStep : Int
  currentDelay : Int
  deriving DecidableEq, Repr

/-- Statics of `binaryCount`. -/
structure BinaryCountStatics where
  lastChange : Nat
  counter : Int
  deriving DecidableEq, Repr

/-- Statics of `fadeSimulation`. -/
structure FadeStatics where
  lastChange : Nat
  fadeStep : Int
  fadeDirection : Bool
  deriving DecidableEq, Repr

/-- Statics of `wavePattern`. -/
structure WaveStatics where
  lastChange : Nat
  waveStep : Int
  deriving DecidableEq, Repr

/-- Statics of `morseCodeSOS` that change (the tables are constants). -/
structure SosStatics where
  lastChange : Nat
  sosStep : Int
  deriving DecidableEq, Repr

/-- Statics of `cascade`. -/
structure CascadeStatics where
  lastChange : Nat
  step : Int
  deriving DecidableEq, Repr

/-- Statics of `fireflyEffect`. -/
structure FireflyStatics where
  lastChange : Arr3 Nat
  durations : Arr3 Nat
  states : Arr3 Bool
  deriving DecidableEq, Repr

/-- Statics of `alternatingPairs`. -/
structure AlternatingPairsStatics where
  lastChange : Nat
  pairStep : Int
  deriving DecidableEq, Repr

/-- Statics of `thunderEffect` that change (the tables are constants). -/
structure ThunderStatics where
  lastChange : Nat
  thunderStep : Int
  deriving DecidableEq, Repr

/-- Statics of `sequentialPairs`. -/
structure SequentialPairsStatics where
  lastChange : Nat
  seqStep : Int
  deriving DecidableEq, Repr

/-- The global variables of the sketch, with the lines printed on `Serial`
so far. -/
structure Globals where
  patternStartTime : Nat
  currentPattern : Int
  buttonState : Level
  lastButtonState : Level
  lastDebounceTime : Nat
  serial : List SerialLine
  deriving DecidableEq, Repr

/-- The whole mutable state of the sketch: globals, output pins and the
statics of every pattern function. -/
structure State where
  globals : Globals
  relays : Relays
  sequentialOnOffS : SequentialOnOffStatics
  alternating12_3S : ToggleStatics
  chaseS : ChaseStatics
  randomBlinkS : RandomBlinkStatics
  heartbeatS : HeartbeatStatics
  binaryCountS : BinaryCountStatics
  fadeSimulationS : FadeStatics
  alternating1_23S : ToggleStatics
  wavePatternS : WaveStatics
  morseCodeSOSS : SosStatics
  strobeS : ToggleStatics
  cascadeS : CascadeStatics
  fireflyEffectS : FireflyStatics
  alternatingPairsS : AlternatingPairsStatics
  thunderEffectS : ThunderStatics
  sequentialPairsS : SequentialPairsStatics
  deriving DecidableEq, Repr

/-- The function `digitalWrite(pin, v)`: only the three relay pins are ever written. -/
def digitalWrite (pin : Nat) (v : Level) (r : Relays) : Relays :=
  if pin = relay1 then { r with out1 := v }
  else if pin = relay2 then { r with out2 := v }
  else if pin = relay3 then { r with out3 := v }
  else r

/-- The globals after their initialisers and `setup()`, whose `millis()`
returned `t0`. -/
def initGlobals (t0 : Nat) : Globals :=
  { patternStartTime := t0
    currentPattern := 0
    buttonState := LOW
    lastButtonState := LOW
    lastDebounceTime := 0
    serial := [SerialLine.started] }

/-- State after the static initialisers and `setup()`, whose `millis()`
returned `t0`. The static `currentDelay` of `heartbeat` is initialised from the
argument of its first call; the only call is `heartbeat(60)`. -/
def initState (t0 : Nat) : State :=
  { globals := initGlobals t0
    relays := { out1 := HIGH, out2 := HIGH, out3 := HIGH }
    sequentialOnOffS := { lastChange := 0, sequence := 0 }
    alternating12_3S := { lastChange := 0, state := false }
    chaseS := { lastChange := 0, position := 0 }
    randomBlinkS := { lastChange := 0 }
    heartbeatS := { lastChange := 0, beatStep := 0, currentDelay := 60 }
    binaryCountS := { lastChange := 0, counter := 0 }
    fadeSimulationS := { lastChange := 0, fadeStep := 0, fadeDirection := true }
    alternating1_23S := { lastChange := 0, state := false }
    wavePatternS := { lastChange := 0, waveStep := 0 }
    morseCodeSOSS := { lastChange := 0, sosStep := 0 }
    strobeS := { lastChange := 0, state := false }
    cascadeS := { lastChange := 0, step := 0 }
    fireflyEffectS :=
      { lastChange := { e0 := 0, e1 := 0, e2 := 0 }
        durations := { e0 := 0, e1 := 0, e2 := 0 }
        states := { e0 := false, e1 := false, e2 := false } }
    alternatingPairsS := { lastChange := 0, pairStep := 0 }
    thunderEffectS := { lastChange := 0, thunderStep := 0 }
    sequentialPairsS := { lastChange := 0, seqStep := 0 } }

/-! ## The push-button -/

/-- The function `checkButtonForPatternChange()`. `reading` is what `digitalRead(buttonPin)`
returns; `tReset`, `tCheck` and `tPress` are what `millis()` returns where the
debounce timer is reset, where the elapsed time is tested and where
`patternStartTime` is set (each is used only if that statement runs). The
`delay(200)` after a press only moves the clock. -/
def checkButtonForPatternChange (reading : Level) (tReset tCheck tPress : Nat)
    (g : Globals) : Globals :=
  let g := if reading ≠ g.lastButtonState then { g with lastDebounceTime := tReset } else g
  let g :=
    if usub tCheck g.lastDebounceTime > debounceDelay then
      if reading ≠ g.buttonState then
        let g := { g with buttonState := reading }
        if g.buttonState = LOW then
          let g := { g with currentPattern := (g.currentPattern + 1).tmod 20 }
          let g := { g with patternStartTime := tPress }
          { g with serial := g.serial ++ [SerialLine.buttonPressed (g.currentPattern + 1)] }
        else g
      else g
    else g
  { g with lastButtonState := reading }

/-! ## Rotation -/

/-- The first half of `loop()`: the button check and the automatic switch.
`tLoop` and `tSwitch` are what `millis()` returns in the timeout test and in
the assignment to `patternStartTime`. -/
def rotation (reading : Level) (tReset tCheck tPress tLoop tSwitch : Nat)
    (g : Globals) : Globals :=
  let g := checkButtonForPatternChange reading tReset tCheck tPress g
  if usub tLoop g.patternStartTime ≥ toULong patternDuration then
    let g := { g with currentPattern := (g.currentPattern + 1).tmod 20 }
    let g := { g with patternStartTime := tSwitch }
    { g with serial := g.serial ++ [SerialLine.switching (g.currentPattern + 1)] }
  else g

/-! ## The pattern functions

Each takes `now`, the value of `millis()` in its test, and `now2`, the value
of `millis()` stored in `lastChange` when the test succeeds, then the relay
pins `r` and its own statics `st`; it returns both as it leaves them. -/

/-- The function `allOn()`; its `delay(50)` only moves the clock. -/
def allOn (r : Relays) : Relays :=
  let r := digitalWrite relay1 LOW r
  let r := digitalWrite relay2 LOW r
  digitalWrite relay3 LOW r

/-- The function `allOff()`; its `delay(50)` only moves the clock. -/
def allOff (r : Relays) : Relays :=
  let r := digitalWrite relay1 HIGH r
  let r := digitalWrite relay2 HIGH r
  digitalWrite relay3 HIGH r

/-- The function `sequentialOnOff(speed)`. -/
def sequentialOnOff (speed : Int) (now now2 : Nat) (r : Relays)
    (st : SequentialOnOffStatics) : Relays × SequentialOnOffStatics :=
  if usub now st.lastChange ≥ toULong speed then
    let st := { st with lastChange := now2 }
    let r := digitalWrite relay1 HIGH r
    let r := digitalWrite relay2 HIGH r
    let r := digitalWrite relay3 HIGH r
    let r :=
      match st.sequence with
      | 0 => digitalWrite relay1 LOW r
      | 1 => digitalWrite relay2 LOW r
      | 2 => digitalWrite relay3 LOW r
      | _ => r
    let st := { st with sequence := (st.sequence + 1).tmod 3 }
    (r, st)
  else (r, st)

/-- The function `alternating12_3(speed)`. -/
def alternating12_3 (speed : Int) (now now2 : Nat) (r : Relays)
    (st : ToggleStatics) : Relays × ToggleStatics :=
  if usub now st.lastChange ≥ toULong speed then
    let st := { st with lastChange := now2 }
    let st := { st with state := !st.state }
    if st.state then
      let r := digitalWrite relay1 LOW r
      let r := digitalWrite relay2 LOW r
      let r := digitalWrite relay3 HIGH r
      (r, st)
    else
      let r := digitalWrite relay1 HIGH r
      let r := digitalWrite relay2 HIGH r
      let r := digitalWrite relay3 LOW r
      (r, st)
  else (r, st)

/-- The function `chase(speed)`; patterns 4 and 5 both call it and share its statics. -/
def chase (speed : Int) (now now2 : Nat) (r : Relays)
    (st : ChaseStatics) : Relays × ChaseStatics :=
  if usub now st.lastChange ≥ toULong speed then
    let st := { st with lastChange := now2 }
    let r := digitalWrite relay1 HIGH r
    let r := digitalWrite relay2 HIGH r
    let r := digitalWrite relay3 HIGH r
    let r :=
      match st.position with
      | 0 => digitalWrite relay1 LOW r
      | 1 => digitalWrite relay2 LOW r
      | 2 => digitalWrite relay3 LOW r
      | _ => r
    let st := { st with position := (st.position + 1).tmod 3 }
    (r, st)
  else (r, st)

/-- The function `randomBlink(speed)`; `r1`, `r2`, `r3` are the three draws of `random(2)`. -/
def randomBlink (speed : Int) (now now2 : Nat) (r1 r2 r3 : Int) (r : Relays)
    (st : RandomBlinkStatics) : Relays × RandomBlinkStatics :=
  if usub now st.lastChange ≥ toULong speed then
    let st := { st with lastChange := now2 }
    let r := digitalWrite relay1 (if r1 ≠ 0 then LOW else HIGH) r
    let r := digitalWrite relay2 (if r2 ≠ 0 then LOW else HIGH) r
    let r := digitalWrite relay3 (if r3 ≠ 0 then LOW else HIGH) r
    (r, st)
  else (r, st)

/-- The function `heartbeat(baseSpeed)`; `/` on `int` truncates (`Int.tdiv`). -/
def heartbeat (baseSpeed : Int) (now now2 : Nat) (r : Relays)
    (st : HeartbeatStatics) : Relays × HeartbeatStatics :=
  if usub now st.lastChange ≥ toULong st.currentDelay then
    let st := { st with lastChange := now2 }
    let (r, st) :=
      match st.beatStep with
      | 0 =>
        let r := digitalWrite relay1 LOW r
        let r := digitalWrite relay2 LOW r
        let r := digitalWrite relay3 LOW r
        (r, { st with currentDelay := baseSpeed })
      | 1 =>
        let r := digitalWrite relay1 HIGH r
        let r := digitalWrite relay2 HIGH r
        let r := digitalWrite relay3 HIGH r
        (r, { st with currentDelay := baseSpeed.tdiv 2 })
      | 2 =>
        let r := digitalWrite relay1 LOW r
        let r := digitalWrite relay2 LOW r
        let r := digitalWrite relay3 LOW r
        (r, { st with currentDelay := baseSpeed })
      | 3 =>
        let r := digitalWrite relay1 HIGH r
        let r := digitalWrite relay2 HIGH r
        let r := digitalWrite relay3 HIGH r
        (r, { st with currentDelay := baseSpeed * 4 })
      | _ => (r, st)
    let st := { st with beatStep := (st.beatStep + 1).tmod 4 }
    (r, st)
  else (r, st)

/-- The function `binaryCount(speed)`; `&` is the bitwise and of `int`. -/
def binaryCount (speed : Int) (now now2 : Nat) (r : Relays)
    (st : BinaryCountStatics) : Relays × BinaryCountStatics :=
  if usub now st.lastChange ≥ toULong speed then
    let st := { st with lastChange := now2 }
    let r := digitalWrite relay1 (if Int.land st.counter 0x01 ≠ 0 then LOW else HIGH) r
    let r := digitalWrite relay2 (if Int.land st.counter 0x02 ≠ 0 then LOW else HIGH) r
    let r := digitalWrite relay3 (if Int.land st.counter 0x04 ≠ 0 then LOW else HIGH) r
    let st := { st with counter := (st.counter + 1).tmod 8 }
    (r, st)
  else (r, st)

/-- The function `fadeSimulation(speed)`. -/
def fadeSimulation (speed : Int) (now now2 : Nat) (r : Relays)
    (st : FadeStatics) : Relays × FadeStatics :=
  if usub now st.lastChange ≥ toULong speed then
    let st := { st with lastChange := now2 }
    let d : Level := if st.fadeDirection then LOW else HIGH
    let r :=
      match st.fadeStep with
      | 0 =>
        let r := digitalWrite relay1 d r
        let r := digitalWrite relay2 HIGH r
        digitalWrite relay3 HIGH r
      | 1 =>
        let r := digitalWrite relay1 d r
        let r := digitalWrite relay2 d r
        digitalWrite relay3 HIGH r
      | 2 =>
        let r := digitalWrite relay1 d r
        let r := digitalWrite relay2 d r
        digitalWrite relay3 d r
      | _ => r
    if st.fadeDirection then
      let st := { st with fadeStep := st.fadeStep + 1 }
      if st.fadeStep ≥ 3 then
        let st := { st with fadeDirection := false }
        let st := { st with fadeStep := 2 }
        (r, st)
      else (r, st)
    else
      let st := { st with fadeStep := st.fadeStep - 1 }
      if st.fadeStep < 0 then
        let st := { st with fadeDirection := true }
        let st := { st with fadeStep := 0 }
        (r, st)
      else (r, st)
  else (r, st)

/-- The function `alternating1_23(speed)`. -/
def alternating1_23 (speed : Int) (now now2 : Nat) (r : Relays)
    (st : ToggleStatics) : Relays × ToggleStatics :=
  if usub now st.lastChange ≥ toULong speed then
    let st := { st with lastChange := now2 }
    let st := { st with state := !st.state }
    if st.state then
      let r := digitalWrite relay1 LOW r
      let r := digitalWrite relay2 HIGH r
      let r := digitalWrite relay3 HIGH r
      (r, st)
    else
      let r := digitalWrite relay1 HIGH r
      let r := digitalWrite relay2 LOW r
      let r := digitalWrite relay3 LOW r
      (r, st)
  else (r, st)

/-- Three `digitalWrite` calls in a row, on relay 1, relay 2 and relay 3. -/
def write3 (a b c : Level) (r : Relays) : Relays :=
  let r := digitalWrite relay1 a r
  let r := digitalWrite relay2 b r
  digitalWrite relay3 c r

/-- The function `wavePattern(speed)`. -/
def wavePattern (speed : Int) (now now2 : Nat) (r : Relays)
    (st : WaveStatics) : Relays × WaveStatics :=
  if usub now st.lastChange ≥ toULong speed then
    let st := { st with lastChange := now2 }
    let r :=
      match st.waveStep with
      | 0 => write3 LOW HIGH HIGH r
      | 1 => write3 LOW LOW HIGH r
      | 2 => write3 HIGH LOW HIGH r
      | 3 => write3 HIGH LOW LOW r
      | 4 => write3 HIGH HIGH LOW r
      | 5 => write3 LOW HIGH LOW r
      | _ => r
    let st := { st with waveStep := (st.waveStep + 1).tmod 6 }
    (r, st)
  else (r, st)

/-- The static `dotDuration` of `morseCodeSOS`. -/
def dotDuration : Int := 200
/-- The static `dashDuration` of `morseCodeSOS`. -/
def dashDuration : Int := dotDuration * 3
/-- The static `elementGap` of `morseCodeSOS`. -/
def elementGap : Int := dotDuration
/-- The static `letterGap` of `morseCodeSOS`. -/
def letterGap : Int := dotDuration * 3
/-- The static `wordGap` of `morseCodeSOS`. -/
def wordGap : Int := dotDuration * 7

/-- The table `durations` of `morseCodeSOS`. -/
def sosDurations : List Int :=
  [dotDuration, elementGap, dotDuration, elementGap, dotDuration, letterGap,
   dashDuration, elementGap, dashDuration, elementGap, dashDuration, letterGap,
   dotDuration, elementGap, dotDuration, elementGap, dotDuration, wordGap]

/-- The table `states` of `morseCodeSOS`. -/
def sosStates : List Bool :=
  [true, false, true, false, true, false,
   true, false, true, false, true, false,
   true, false, true, false, true, false]

/-- The function `morseCodeSOS()`; `none` when `sosStep` is outside the tables. -/
def morseCodeSOS (now now2 : Nat) (r : Relays)
    (st : SosStatics) : Option (Relays × SosStatics) :=
  match lookup sosDurations st.sosStep, lookup sosStates st.sosStep with
  | some d, some lit =>
    if usub now st.lastChange ≥ toULong d then
      let st := { st with lastChange := now2 }
      let r := if lit then allOn r else allOff r
      let st := { st with sosStep := (st.sosStep + 1).tmod 18 }
      some (r, st)
    else some (r, st)
  | _, _ => none

/-- The function `strobe(speed)`; patterns 13 and 14 both call it and share its statics. -/
def strobe (speed : Int) (now now2 : Nat) (r : Relays)
    (st : ToggleStatics) : Relays × ToggleStatics :=
  if usub now st.lastChange ≥ toULong speed then
    let st := { st with lastChange := now2 }
    let st := { st with state := !st.state }
    if st.state then (allOn r, st) else (allOff r, st)
  else (r, st)

/-- The function `cascade(speed)`. -/
def cascade (speed : Int) (now now2 : Nat) (r : Relays)
    (st : CascadeStatics) : Relays × CascadeStatics :=
  if usub now st.lastChange ≥ toULong speed then
    let st := { st with lastChange := now2 }
    let r :=
      match st.step with
      | 0 => write3 LOW HIGH HIGH r
      | 1 => write3 LOW LOW HIGH r
      | 2 => write3 LOW LOW LOW r
      | 3 => write3 HIGH LOW LOW r
      | 4 => write3 HIGH HIGH LOW r
      | 5 => write3 HIGH HIGH HIGH r
      | _ => r
    let st := { st with step := (st.step + 1).tmod 6 }
    (r, st)
  else (r, st)

/-- One turn of the `for` loop of `fireflyEffect`, for relay `i`: `now` and
`now2` as elsewhere, `rOn` the draw of `random(100, 300)` and `rOff` the draw
of `random(1000, 3000)` (only the one on the branch taken is used). -/
def fireflyIter (i : Nat) (now now2 : Nat) (rOn rOff : Nat)
    (st : FireflyStatics) : FireflyStatics :=
  if usub now (st.lastChange.get i) ≥ st.durations.get i then
    let st := { st with lastChange := st.lastChange.set i now2 }
    let st := { st with states := st.states.set i (!st.states.get i) }
    if st.states.get i then
      { st with durations := st.durations.set i rOn }
    else
      { st with durations := st.durations.set i rOff }
  else st

/-- The function `fireflyEffect()`; the arrays give the clock values and draws of the three
turns of its loop. -/
def fireflyEffect (now now2 rOn rOff : Arr3 Nat) (r : Relays)
    (st : FireflyStatics) : Relays × FireflyStatics :=
  let st := fireflyIter 0 (now.get 0) (now2.get 0) (rOn.get 0) (rOff.get 0) st
  let st := fireflyIter 1 (now.get 1) (now2.get 1) (rOn.get 1) (rOff.get 1) st
  let st := fireflyIter 2 (now.get 2) (now2.get 2) (rOn.get 2) (rOff.get 2) st
  let r := digitalWrite relay1 (if st.states.get 0 then LOW else HIGH) r
  let r := digitalWrite relay2 (if st.states.get 1 then LOW else HIGH) r
  let r := digitalWrite relay3 (if st.states.get 2 then LOW else HIGH) r
  (r, st)

/-- The function `alternatingPairs(speed)`. -/
def alternatingPairs (speed : Int) (now now2 : Nat) (r : Relays)
    (st : AlternatingPairsStatics) : Relays × AlternatingPairsStatics :=
  if usub now st.lastChange ≥ toULong speed then
    let st := { st with lastChange := now2 }
    let r :=
      match st.pairStep with
      | 0 => write3 LOW LOW HIGH r
      | 1 => write3 LOW HIGH LOW r
      | 2 => write3 HIGH LOW LOW r
      | _ => r
    let st := { st with pairStep := (st.pairStep + 1).tmod 3 }
    (r, st)
  else (r, st)

/-- The table `thunderSequence` of `thunderEffect`. -/
def thunderSequence : List Int := [1, 0, 1, 0, 0, 0, 1, 0, 1, 1, 0, 0, 0]

/-- The table `thunderTiming` of `thunderEffect`. -/
def thunderTiming : List Int := [50, 40, 100, 40, 300, 100, 50, 30, 70, 40, 200, 1000, 2000]

/-- The function `thunderEffect()`; `none` when `thunderStep` is outside the tables. -/
def thunderEffect (now now2 : Nat) (r : Relays)
    (st : ThunderStatics) : Option (Relays × ThunderStatics) :=
  match lookup thunderTiming st.thunderStep, lookup thunderSequence st.thunderStep with
  | some d, some v =>
    if usub now st.lastChange ≥ toULong d then
      let st := { st with lastChange := now2 }
      let r := if v = 1 then allOn r else allOff r
      let st := { st with thunderStep := (st.thunderStep + 1).tmod 13 }
      some (r, st)
    else some (r, st)
  | _, _ => none

/-- The function `sequentialPairs(speed)`. -/
def sequentialPairs (speed : Int) (now now2 : Nat) (r : Relays)
    (st : SequentialPairsStatics) : Relays × SequentialPairsStatics :=
  if usub now st.lastChange ≥ toULong speed then
    let st := { st with lastChange := now2 }
    let r :=
      match st.seqStep with
      | 0 => write3 LOW LOW HIGH r
      | 1 => write3 HIGH LOW LOW r
      | 2 => write3 LOW HIGH LOW r
      | _ => r
    let st := { st with seqStep := (st.seqStep + 1).tmod 3 }
    (r, st)
  else (r, st)

/-! ## The main loop -/

/-- What one pattern step reads from outside: the two clock values of an
interval-gated pattern, the draws of `randomBlink`, and the clock values and
draws of the three turns of `fireflyEffect`. -/
structure PatternInput where
  now : Nat
  now2 : Nat
  r1 : Int
  r2 : Int
  r3 : Int
  ffNow : Arr3 Nat
  ffNow2 : Arr3 Nat
  ffOn : Arr3 Nat
  ffOff : Arr3 Nat
  deriving DecidableEq, Repr

/-- The `switch (currentPattern)` of `loop()`. It has no `default`: an index
outside `0..19` runs nothing. Each case stores back the relay pins and the
statics of the function it calls. -/
def runPattern (p : PatternInput) (s : State) : Option State :=
  match s.globals.currentPattern with
  | 0 => some { s with relays := allOn s.relays }
  | 1 => some { s with relays := allOff s.relays }
  | 2 =>
    let x := sequentialOnOff 500 p.now p.now2 s.relays s.sequentialOnOffS
    some { s with relays := x.1, sequentialOnOffS := x.2 }
  | 3 =>
    let x := alternating12_3 800 p.now p.now2 s.relays s.alternating12_3S
    some { s with relays := x.1, alternating12_3S := x.2 }
  | 4 =>
    let x := chase 1000 p.now p.now2 s.relays s.chaseS
    some { s with relays := x.1, chaseS := x.2 }
  | 5 =>
    let x := chase 250 p.now p.now2 s.relays s.chaseS
    some { s with relays := x.1, chaseS := x.2 }
  | 6 =>
    let x := randomBlink 300 p.now p.now2 p.r1 p.r2 p.r3 s.relays s.randomBlinkS
    some { s with relays := x.1, randomBlinkS := x.2 }
  | 7 =>
    let x := heartbeat 60 p.now p.now2 s.relays s.heartbeatS
    some { s with relays := x.1, heartbeatS := x.2 }
  | 8 =>
    let x := binaryCount 500 p.now p.now2 s.relays s.binaryCountS
    some { s with relays := x.1, binaryCountS := x.2 }
  | 9 =>
    let x := fadeSimulation 100 p.now p.now2 s.relays s.fadeSimulationS
    some { s with relays := x.1, fadeSimulationS := x.2 }
  | 10 =>
    let x := alternating1_23 700 p.now p.now2 s.relays s.alternating1_23S
    some { s with relays := x.1, alternating1_23S := x.2 }
  | 11 =>
    let x := wavePattern 300 p.now p.now2 s.relays s.wavePatternS
    some { s with relays := x.1, wavePatternS := x.2 }
  | 12 =>
    (morseCodeSOS p.now p.now2 s.relays s.morseCodeSOSS).map
      (fun x => { s with relays := x.1, morseCodeSOSS := x.2 })
  | 13 =>
    let x := strobe 400 p.now p.now2 s.relays s.strobeS
    some { s with relays := x.1, strobeS := x.2 }
  | 14 =>
    let x := strobe 100 p.now p.now2 s.relays s.strobeS
    some { s with relays := x.1, strobeS := x.2 }
  | 15 =>
    let x := cascade 300 p.now p.now2 s.relays s.cascadeS
    some { s with relays := x.1, cascadeS := x.2 }
  | 16 =>
    let x := fireflyEffect p.ffNow p.ffNow2 p.ffOn p.ffOff s.relays s.fireflyEffectS
    some { s with relays := x.1, fireflyEffectS := x.2 }
  | 17 =>
    let x := alternatingPairs 600 p.now p.now2 s.relays s.alternatingPairsS
    some { s with relays := x.1, alternatingPairsS := x.2 }
  | 18 =>
    (thunderEffect p.now p.now2 s.relays s.thunderEffectS).map
      (fun x => { s with relays := x.1, thunderEffectS := x.2 })
  | 19 =>
    let x := sequentialPairs 500 p.now p.now2 s.relays s.sequentialPairsS
    some { s with relays := x.1, sequentialPairsS := x.2 }
  | _ => some s

/-- Everything one iteration of `loop()` reads from outside. -/
structure TickInput where
  reading : Level
  tReset : Nat
  tCheck : Nat
  tPress : Nat
  tLoop : Nat
  tSwitch : Nat
  pat : PatternInput
  deriving DecidableEq, Repr

/-- The rotation part of one iteration of `loop()`, on the inputs of the tick. -/
def rotate (i : TickInput) (g : Globals) : Globals :=
  rotation i.reading i.tReset i.tCheck i.tPress i.tLoop i.tSwitch g

/-- One iteration of `loop()`. -/
def loop (i : TickInput) (s : State) : Option State :=
  runPattern i.pat { s with globals := rotate i s.globals }

/-- Run `loop()` over a list of inputs, oldest first. -/
def runLoop : List TickInput → State → Option State
  | [], s => some s
  | i :: is, s => (loop i s).bind (runLoop is)


/-! ## Observations used in the statements -/

/-- A `Button pressed!` line. -/
def SerialLine.isPress : SerialLine → Bool
  | SerialLine.buttonPressed _ => true
  | _ => false

/-- Number of confirmed presses so far: the `Button pressed!` lines printed. -/
def pressCount (g : Globals) : Nat := g.serial.countP SerialLine.isPress

/-- The button check confirms a press on these inputs: it prints one more
`Button pressed!` line. -/
def confirmsPress (reading : Level) (tReset tCheck tPress : Nat) (g : Globals) : Prop :=
  pressCount (checkButtonForPatternChange reading tReset tCheck tPress g) = pressCount g + 1

/-- The value of `lastDebounceTime` that the elapsed-time test of the button
check reads: `tReset` when the reading differs from the previous one. -/
def debounceStart (reading : Level) (tReset : Nat) (g : Globals) : Nat :=
  if reading ≠ g.lastButtonState then tReset else g.lastDebounceTime

/-- A tick is a trigger tick: the button check confirms a press, or the
elapsed time since `patternStartTime` has reached 20000 ms. -/
def isTrigger (i : TickInput) (g : Globals) : Prop :=
  confirmsPress i.reading i.tReset i.tCheck i.tPress g ∨ usub i.tLoop g.patternStartTime ≥ 20000

/-- The clock advances by less than 20000 ms between the press handler and the
timeout test of the same tick. -/
def pressThenTestQuick (i : TickInput) (g : Globals) : Prop :=
  confirmsPress i.reading i.tReset i.tCheck i.tPress g → usub i.tLoop i.tPress < 20000

/-- Every step counter is inside the range its table or `switch` covers. -/
structure StepsInRange (s : State) : Prop where
  sequence : 0 ≤ s.sequentialOnOffS.sequence ∧ s.sequentialOnOffS.sequence < 3
  position : 0 ≤ s.chaseS.position ∧ s.chaseS.position < 3
  beatStep : 0 ≤ s.heartbeatS.beatStep ∧ s.heartbeatS.beatStep < 4
  counter : 0 ≤ s.binaryCountS.counter ∧ s.binaryCountS.counter < 8
  fadeStep : 0 ≤ s.fadeSimulationS.fadeStep ∧ s.fadeSimulationS.fadeStep ≤ 2
  waveStep : 0 ≤ s.wavePatternS.waveStep ∧ s.wavePatternS.waveStep < 6
  sosStep : 0 ≤ s.morseCodeSOSS.sosStep ∧ s.morseCodeSOSS.sosStep < 18
  step : 0 ≤ s.cascadeS.step ∧ s.cascadeS.step < 6
  pairStep : 0 ≤ s.alternatingPairsS.pairStep ∧ s.alternatingPairsS.pairStep < 3
  thunderStep : 0 ≤ s.thunderEffectS.thunderStep ∧ s.thunderEffectS.thunderStep < 13
  seqStep : 0 ≤ s.sequentialPairsS.seqStep ∧ s.sequentialPairsS.seqStep < 3

/-- The rotation part of a run of ticks. -/
def runRotate : List TickInput → Globals → Globals
  | [], g => g
  | i :: is, g => runRotate is (rotate i g)

/-- States the sketch can be in at the start of an iteration of `loop()`. -/
inductive Reachable : State → Prop where
  | init (t0 : Nat) : Reachable (initState t0)
  | step (i : TickInput) (s s' : State) : Reachable s → loop i s = some s' → Reachable s'

instance (reading : Level) (tReset tCheck tPress : Nat) (g : Globals) :
    Decidable (confirmsPress reading tReset tCheck tPress g) := by
  unfold confirmsPress; infer_instance

instance (i : TickInput) (g : Globals) : Decidable (isTrigger i g) := by
  unfold isTrigger; infer_instance

instance (i : TickInput) (g : Globals) : Decidable (pressThenTestQuick i g) := by
  unfold pressThenTestQuick; infer_instance

/-- Number of trigger ticks in a run of ticks that starts with globals `g`. -/
def triggerCount : List TickInput → Globals → Nat
  | [], _ => 0
  | i :: is, g => (if isTrigger i g then 1 else 0) + triggerCount is (rotate i g)

/-- In every tick of the run the clock advances by less than 20000 ms between
the press handler and the timeout test. -/
def quickTicks : List TickInput → Globals → Prop
  | [], _ => True
  | i :: is, g => pressThenTestQuick i g ∧ quickTicks is (rotate i g)

/-- A tick that confirms a press while the 20 s timeout has also elapsed. -/
def pressAndTimeoutTick : TickInput :=
  { reading := LOW, tReset := 30000, tCheck := 30000, tPress := 30000, tLoop := 30200,
    tSwitch := 30200
    pat := { now := 30200, now2 := 30200, r1 := 0, r2 := 0, r3 := 0
             ffNow := ⟨30200, 30200, 30200⟩, ffNow2 := ⟨30200, 30200, 30200⟩
             ffOn := ⟨100, 100, 100⟩, ffOff := ⟨1000, 1000, 1000⟩ } }

/-- Globals with the button released and stable, pattern 19 running since 0 ms. -/
def releasedGlobals : Globals :=
  { patternStartTime := 0, currentPattern := 19, buttonState := HIGH, lastButtonState := LOW,
    lastDebounceTime := 100, serial := [] }

/-- Globals whose `patternStartTime` lies 100 ms before the clock wraps. -/
def nearWrapGlobals : Globals :=
  { patternStartTime := 2 ^ 32 - 100, currentPattern := 7, buttonState := LOW,
    lastButtonState := LOW, lastDebounceTime := 0, serial := [] }

/-- A tick with the button untouched, taken `d` ms after `nearWrapGlobals`
started its pattern (the clock has wrapped when `d ≥ 100`). -/
def afterWrapTick (d : Nat) : TickInput :=
  { reading := LOW, tReset := (2 ^ 32 - 100 + d) % 2 ^ 32, tCheck := (2 ^ 32 - 100 + d) % 2 ^ 32
    tPress := (2 ^ 32 - 100 + d) % 2 ^ 32
    tLoop := (2 ^ 32 - 100 + d) % 2 ^ 32, tSwitch := (2 ^ 32 - 100 + d) % 2 ^ 32
    pat := { now := 0, now2 := 0, r1 := 0, r2 := 0, r3 := 0
             ffNow := ⟨0, 0, 0⟩, ffNow2 := ⟨0, 0, 0⟩, ffOn := ⟨100, 100, 100⟩
             ffOff := ⟨1000, 1000, 1000⟩ } }

/-- What one call of `checkButtonForPatternChange()` reads from outside. -/
structure ButtonRead where
  reading : Level
  tReset : Nat
  tCheck : Nat
  tPress : Nat
  deriving DecidableEq, Repr

/-- One call of `checkButtonForPatternChange()` on its inputs. -/
def checkButton (b : ButtonRead) (g : Globals) : Globals :=
  checkButtonForPatternChange b.reading b.tReset b.tCheck b.tPress g

/-- Consecutive calls of `checkButtonForPatternChange()`, oldest first. -/
def runButton : List ButtonRead → Globals → Globals
  | [], g => g
  | b :: bs, g => runButton bs (checkButton b g)

/-- The globals after each of the consecutive calls, oldest first. -/
def buttonTrace : List ButtonRead → Globals → List Globals
  | [], _ => []
  | b :: bs, g => checkButton b g :: buttonTrace bs (checkButton b g)

/-- A raw sample of the button: the level read and the time `t` of the tick in
milliseconds since power-up (not wrapped). -/
structure Sample where
  reading : Level
  t : Nat
  deriving DecidableEq, Repr

/-- The inputs of the button check in the tick of a sample: `millis()` returns
the time of the tick, wrapped to 32 bits, at each of its calls. -/
def Sample.read (x : Sample) : ButtonRead :=
  { reading := x.reading, tReset := x.t % 2 ^ 32, tCheck := x.t % 2 ^ 32, tPress := x.t % 2 ^ 32 }

/-- The clock is monotonic: sample times never decrease along the list. -/
def timesAscend (xs : List Sample) : Prop := List.Chain' (fun a b => a.t ≤ b.t) xs

/-- Every maximal run of equal consecutive readings in `first … last, xs` spans
at most `w` ms, where `first` and `last` are the first and the latest sample of
the run being read: a run ends where the reading changes or the list ends, and
then the time of its last sample minus the time of its first is at most `w`. -/
def runsSpanAtMost (w : Nat) (first last : Sample) : List Sample → Prop
  | [] => last.t - first.t ≤ w
  | x :: xs =>
    if x.reading = first.reading then runsSpanAtMost w first x xs
    else last.t - first.t ≤ w ∧ runsSpanAtMost w x x xs

/-- Every maximal run of equal consecutive readings of `xs` spans at most `w` ms. -/
def shortRuns (w : Nat) : List Sample → Prop
  | [] => True
  | x :: xs => runsSpanAtMost w x x xs

/-- Debounce state after the initialisers: stable LOW, timer at 0. -/
def chatterStart : Globals :=
  { patternStartTime := 0, currentPattern := 0, buttonState := LOW, lastButtonState := LOW,
    lastDebounceTime := 0, serial := [] }

/-- Chatter: the reading flips between HIGH and LOW, no level lasting more
than 50 ms. -/
def chatter : List Sample :=
  [⟨HIGH, 1000⟩, ⟨HIGH, 1030⟩, ⟨HIGH, 1050⟩, ⟨LOW, 1060⟩, ⟨HIGH, 1100⟩, ⟨HIGH, 1150⟩, ⟨LOW, 1151⟩]

/-- Every sample of the list reads LOW (the button is held down). -/
def lowRun (xs : List Sample) : Prop := ∀ x ∈ xs, x.reading = LOW

/-- Time of the last sample of the list minus time of its first sample. -/
def spanOf (xs : List Sample) : Nat :=
  match xs.head?, xs.getLast? with
  | some f, some l => l.t - f.t
  | _, _ => 0

/-- A stable released button: stable state HIGH, previous reading HIGH. -/
def releasedStable : Globals :=
  { patternStartTime := 0, currentPattern := 3, buttonState := HIGH, lastButtonState := HIGH,
    lastDebounceTime := 0, serial := [] }

/-- The button held down over two samples exactly 50 ms apart. -/
def press50 : List Sample := [⟨LOW, 1000⟩, ⟨LOW, 1050⟩]

/-- The button held down over samples 51 ms apart from first to last. -/
def press51 : List Sample := [⟨LOW, 1000⟩, ⟨LOW, 1020⟩, ⟨LOW, 1051⟩]

/-- A step function `step now now2 r st` does nothing inside its interval
window: when the unsigned elapsed time since `lastChange` is below the current
interval, the relay pins and the statics come back as they were. -/
def NoFlicker {σ : Type} (step : Nat → Nat → Relays → σ → Relays × σ)
    (lastChange : σ → Nat) (interval : σ → Nat) : Prop :=
  ∀ (now now2 : Nat) (r : Relays) (st : σ),
    usub now (lastChange st) < interval st → step now now2 r st = (r, st)

/-- Calling a step function twice at the same clock value `t` gives what one
call gives, when the current interval is positive. -/
def SameTwice {σ : Type} (step : Nat → Nat → Relays → σ → Relays × σ)
    (interval : σ → Nat) : Prop :=
  ∀ (t : Nat) (r : Relays) (st : σ), 0 < interval st →
    step t t (step t t r st).1 (step t t r st).2 = step t t r st

/-- The property `NoFlicker` for a table-driven step function, whose interval is the table
entry `interval st` of the current step. -/
def NoFlickerTable {σ : Type} (step : Nat → Nat → Relays → σ → Option (Relays × σ))
    (lastChange : σ → Nat) (interval : σ → Option Int) : Prop :=
  ∀ (now now2 : Nat) (r : Relays) (st : σ) (d : Int), interval st = some d →
    usub now (lastChange st) < toULong d → step now now2 r st = some (r, st)

/-- The property `SameTwice` for a table-driven step function: where the current step has a
table entry, the call returns, and a second call at the same clock value
returns the same. -/
def SameTwiceTable {σ : Type} (step : Nat → Nat → Relays → σ → Option (Relays × σ))
    (interval : σ → Option Int) : Prop :=
  ∀ (t : Nat) (r : Relays) (st : σ) (d : Int), interval st = some d →
    ∃ x, step t t r st = some x ∧ step t t x.1 x.2 = some x

/-- Relay pins with only relay 2 on. -/
def onlyRelay2 : Relays := { out1 := HIGH, out2 := LOW, out3 := HIGH }

/-- The step of the current pattern fires on these inputs: always for All On,
All Off and Firefly, and for the others when the test of the function the
`switch` calls succeeds (its interval has elapsed). -/
def patternDue (p : PatternInput) (s : State) : Prop :=
  match s.globals.currentPattern with
  | 0 => True
  | 1 => True
  | 2 => usub p.now s.sequentialOnOffS.lastChange ≥ toULong 500
  | 3 => usub p.now s.alternating12_3S.lastChange ≥ toULong 800
  | 4 => usub p.now s.chaseS.lastChange ≥ toULong 1000
  | 5 => usub p.now s.chaseS.lastChange ≥ toULong 250
  | 6 => usub p.now s.randomBlinkS.lastChange ≥ toULong 300
  | 7 => usub p.now s.heartbeatS.lastChange ≥ toULong s.heartbeatS.currentDelay
  | 8 => usub p.now s.binaryCountS.lastChange ≥ toULong 500
  | 9 => usub p.now s.fadeSimulationS.lastChange ≥ toULong 100
  | 10 => usub p.now s.alternating1_23S.lastChange ≥ toULong 700
  | 11 => usub p.now s.wavePatternS.lastChange ≥ toULong 300
  | 12 => ∃ d, lookup sosDurations s.morseCodeSOSS.sosStep = some d ∧
      usub p.now s.morseCodeSOSS.lastChange ≥ toULong d
  | 13 => usub p.now s.strobeS.lastChange ≥ toULong 400
  | 14 => usub p.now s.strobeS.lastChange ≥ toULong 100
  | 15 => usub p.now s.cascadeS.lastChange ≥ toULong 300
  | 16 => True
  | 17 => usub p.now s.alternatingPairsS.lastChange ≥ toULong 600
  | 18 => ∃ d, lookup thunderTiming s.thunderEffectS.thunderStep = some d ∧
      usub p.now s.thunderEffectS.lastChange ≥ toULong d
  | 19 => usub p.now s.sequentialPairsS.lastChange ≥ toULong 500
  | _ => False

/-- Inputs of a pattern step taken at clock value `t`, with fixed draws. -/
def patternAt (t : Nat) : PatternInput :=
  { now := t, now2 := t, r1 := 1, r2 := 0, r3 := 1
    ffNow := ⟨t, t, t⟩, ffNow2 := ⟨t, t, t⟩, ffOn := ⟨150, 200, 250⟩
    ffOff := ⟨1500, 2000, 2500⟩ }

/-- The state after `setup()` at 0 ms, moved to pattern `c`. -/
def atPattern (c : Int) : State :=
  { initState 0 with globals := { initGlobals 0 with currentPattern := c } }

/-- Indices (0, 1, 2) of the relays that are on: an output at LOW drives its
relay. -/
def relaysOn (r : Relays) : List Nat :=
  (if r.out1 = LOW then [0] else []) ++ (if r.out2 = LOW then [1] else []) ++
    (if r.out3 = LOW then [2] else [])

/-- Relay outputs after each of the calls `sequentialOnOff(500)` made at the
clock values `ts`, oldest first. -/
def sampleSequentialOnOff : List Nat → Relays → SequentialOnOffStatics → List Relays
  | [], _, _ => []
  | t :: ts, r, st =>
    (sequentialOnOff 500 t t r st).1 ::
      sampleSequentialOnOff ts (sequentialOnOff 500 t t r st).1 (sequentialOnOff 500 t t r st).2

/-- The number the three relays show in binary: relay 1 is bit 0, relay 2 is
bit 1, relay 3 is bit 2, a relay that is on (output LOW) counting as 1. -/
def shownValue (r : Relays) : Nat :=
  (if r.out1 = LOW then 1 else 0) + (if r.out2 = LOW then 2 else 0) +
    (if r.out3 = LOW then 4 else 0)

/-- Relay outputs after each of the calls `binaryCount(speed)` made with the
clock values `ts` (the pair is `now`, `now2`), oldest first. -/
def sampleBinaryCount (speed : Int) : List (Nat × Nat) → Relays → BinaryCountStatics → List Relays
  | [], _, _ => []
  | t :: ts, r, st =>
    (binaryCount speed t.1 t.2 r st).1 ::
      sampleBinaryCount speed ts (binaryCount speed t.1 t.2 r st).1
        (binaryCount speed t.1 t.2 r st).2

/-- Every call of `binaryCount(speed)` made with the clock values `ts` fires. -/
def binaryCountFires (speed : Int) : List (Nat × Nat) → BinaryCountStatics → Prop
  | [], _ => True
  | t :: ts, st =>
    usub t.1 st.lastChange ≥ toULong speed ∧
      binaryCountFires speed ts (binaryCount speed t.1 t.2 onlyRelay2 st).2

/-- Relay outputs with the three relays on (outputs LOW). -/
def allRelaysOn : Relays := { out1 := LOW, out2 := LOW, out3 := LOW }

/-- Relay outputs with the three relays off (outputs HIGH). -/
def allRelaysOff : Relays := { out1 := HIGH, out2 := HIGH, out3 := HIGH }

/-- The gating intervals of `n` consecutive steps of `morseCodeSOS` that start
at step `i`: the entries of `durations` at `i`, `i + 1`, … taken modulo 18, as
`sosStep` runs through them. -/
def sosGates : Nat → Int → List (Option Int)
  | 0, _ => []
  | n + 1, i => lookup sosDurations i :: sosGates n ((i + 1).tmod 18)

/-- Sum of a list of table entries, `none` if one of them is missing. -/
def sumEntries : List (Option Int) → Option Int
  | [] => some 0
  | none :: _ => none
  | some d :: ds => (sumEntries ds).map (fun x => d + x)

/-- The statics one step function owns, whichever function it is. -/
inductive StepStatics where
  | nothing
  | sequentialOnOff (x : SequentialOnOffStatics)
  | alternating12_3 (x : ToggleStatics)
  | chase (x : ChaseStatics)
  | randomBlink (x : RandomBlinkStatics)
  | heartbeat (x : HeartbeatStatics)
  | binaryCount (x : BinaryCountStatics)
  | fadeSimulation (x : FadeStatics)
  | alternating1_23 (x : ToggleStatics)
  | wavePattern (x : WaveStatics)
  | morseCodeSOS (x : SosStatics)
  | strobe (x : ToggleStatics)
  | cascade (x : CascadeStatics)
  | fireflyEffect (x : FireflyStatics)
  | alternatingPairs (x : AlternatingPairsStatics)
  | thunderEffect (x : ThunderStatics)
  | sequentialPairs (x : SequentialPairsStatics)
  deriving DecidableEq, Repr

/-- The timer, step counter and flags that the step of pattern `c` reads: the
statics of the function that case `c` of the `switch` in `loop()` calls
(`allOn` and `allOff` have none). -/
def staticsOf (c : Int) (s : State) : StepStatics :=
  match c with
  | 2 => StepStatics.sequentialOnOff s.sequentialOnOffS
  | 3 => StepStatics.alternating12_3 s.alternating12_3S
  | 4 => StepStatics.chase s.chaseS
  | 5 => StepStatics.chase s.chaseS
  | 6 => StepStatics.randomBlink s.randomBlinkS
  | 7 => StepStatics.heartbeat s.heartbeatS
  | 8 => StepStatics.binaryCount s.binaryCountS
  | 9 => StepStatics.fadeSimulation s.fadeSimulationS
  | 10 => StepStatics.alternating1_23 s.alternating1_23S
  | 11 => StepStatics.wavePattern s.wavePatternS
  | 12 => StepStatics.morseCodeSOS s.morseCodeSOSS
  | 13 => StepStatics.strobe s.strobeS
  | 14 => StepStatics.strobe s.strobeS
  | 15 => StepStatics.cascade s.cascadeS
  | 16 => StepStatics.fireflyEffect s.fireflyEffectS
  | 17 => StepStatics.alternatingPairs s.alternatingPairsS
  | 18 => StepStatics.thunderEffect s.thunderEffectS
  | 19 => StepStatics.sequentialPairs s.sequentialPairsS
  | _ => StepStatics.nothing

/-- Patterns `i` and `j` call the same step function: they are the same
pattern, or Slow Chase (4) and Fast Chase (5), which both call `chase`, or Slow
Strobe (13) and Fast Strobe (14), which both call `strobe`. -/
def sameStepFunction (i j : Int) : Prop :=
  i = j ∨ (i = 4 ∧ j = 5) ∨ (i = 5 ∧ j = 4) ∨ (i = 13 ∧ j = 14) ∨ (i = 14 ∧ j = 13)

instance (i j : Int) : Decidable (sameStepFunction i j) := by
  unfold sameStepFunction; infer_instance

/-- The state after the rotation part of an iteration of `loop()` (the button
check and the timeout test), before the pattern `switch`. -/
def afterRotation (i : TickInput) (s : State) : State :=
  { s with globals := rotate i s.globals }

/-- In no tick of the run does the `switch` call the step function of pattern
`j`: the current pattern after the rotation part is never `j` nor a pattern
that calls the same function. -/
def neverCalls (j : Int) : List TickInput → Globals → Prop
  | [], _ => True
  | i :: is, g =>
    ¬ sameStepFunction (rotate i g).currentPattern j ∧ neverCalls j is (rotate i g)

/-- A tick at `20000 * k` ms with the button untouched: with the previous
switch 20 s earlier the timeout test succeeds, and the step of the new pattern
runs at the same clock value. -/
def timeoutTick (k : Nat) : TickInput :=
  { reading := LOW, tReset := 20000 * k, tCheck := 20000 * k, tPress := 20000 * k
    tLoop := 20000 * k, tSwitch := 20000 * k, pat := patternAt (20000 * k) }

/-- The ticks `timeoutTick 1`, …, `timeoutTick n`. -/
def timeoutTicks (n : Nat) : List TickInput := (List.range n).map (fun k => timeoutTick (k + 1))

/-- Relay outputs after each of the calls `morseCodeSOS()` made at the clock
values `ts`, oldest first; `none` if a call reads outside its tables. -/
def sampleMorseCodeSOS : List Nat → Relays → SosStatics → Option (List Relays)
  | [], _, _ => some []
  | t :: ts, r, st =>
    (morseCodeSOS t t r st).bind
      (fun x => (sampleMorseCodeSOS ts x.1 x.2).map (fun rest => x.1 :: rest))

/-- For each step `i` of `morseCodeSOS`, 0 to 17, the interval the code tests
before the write that follows the write of step `i`: the entry of `durations`
at the step then current, `(i + 1) mod 18`. -/
def sosHoldTimes : List (Option Int) :=
  (List.range 18).map (fun i => lookup sosDurations (((i : Int) + 1).tmod 18))

/-- For each of the calls `fadeSimulation(100)` made at the clock values `ts`,
oldest first, the value of `fadeStep` before the call and the relay outputs
after it. -/
def sampleFadeSimulation : List Nat → Relays → FadeStatics → List (Int × Relays)
  | [], _, _ => []
  | t :: ts, r, st =>
    (st.fadeStep, (fadeSimulation 100 t t r st).1) ::
      sampleFadeSimulation ts (fadeSimulation 100 t t r st).1 (fadeSimulation 100 t t r st).2

/-- The hold time in ms after each of the four phases of the heartbeat with
base 60: a beat, the short gap, the second beat, the long pause. -/
def beatHold : List Int := [60, 30, 60, 240]

/-- The relay state each of the four phases of the heartbeat writes. -/
def beatRelays : List Relays := [allRelaysOn, allRelaysOff, allRelaysOn, allRelaysOff]

/-- Indices (0, 1, 2) of the relays that are off (output HIGH). -/
def relaysOff (r : Relays) : List Nat :=
  (if r.out1 = HIGH then [0] else []) ++ (if r.out2 = HIGH then [1] else []) ++
    (if r.out3 = HIGH then [2] else [])

/-- The relay outputs `alternatingPairs` writes in its phases 0, 1, 2. -/
def alternatingPairsTable : List Relays :=
  [{ out1 := LOW, out2 := LOW, out3 := HIGH }, { out1 := LOW, out2 := HIGH, out3 := LOW },
   { out1 := HIGH, out2 := LOW, out3 := LOW }]

/-- The relay outputs `sequentialPairs` writes in its phases 0, 1, 2. -/
def sequentialPairsTable : List Relays :=
  [{ out1 := LOW, out2 := LOW, out3 := HIGH }, { out1 := HIGH, out2 := LOW, out3 := LOW },
   { out1 := LOW, out2 := HIGH, out3 := LOW }]

/-- Three consecutive calls of a step function all fire, each leaves exactly
two relays on, and each relay is the one off in exactly one of them: the step
`step now now2 r st` fires when `fires now st` holds, and `inRange` says that
the phase counter is inside its `switch`. -/
def TwoOnRotating {σ : Type} (step : Nat → Nat → Relays → σ → Relays × σ)
    (fires : Nat → σ → Prop) (inRange : σ → Prop) : Prop :=
  ∀ (t1 u1 t2 u2 t3 u3 : Nat) (r : Relays) (st : σ), inRange st →
    fires t1 st → fires t2 (step t1 u1 r st).2 →
    fires t3 (step t2 u2 (step t1 u1 r st).1 (step t1 u1 r st).2).2 →
      (relaysOn (step t1 u1 r st).1).length = 2 ∧
      (relaysOn (step t2 u2 (step t1 u1 r st).1 (step t1 u1 r st).2).1).length = 2 ∧
      (relaysOn (step t3 u3 (step t2 u2 (step t1 u1 r st).1 (step t1 u1 r st).2).1
        (step t2 u2 (step t1 u1 r st).1 (step t1 u1 r st).2).2).1).length = 2 ∧
      (relaysOff (step t1 u1 r st).1 ++
        relaysOff (step t2 u2 (step t1 u1 r st).1 (step t1 u1 r st).2).1 ++
        relaysOff (step t3 u3 (step t2 u2 (step t1 u1 r st).1 (step t1 u1 r st).2).1
          (step t2 u2 (step t1 u1 r st).1 (step t1 u1 r st).2).2).1).Perm [0, 1, 2]

/-- The on-pairs (relay indices 0, 1, 2) that `alternatingPairs` writes when it
fires in phase 0, 1, 2. -/
def alternatingPairsWrites : List (List Nat) :=
  [0, 1, 2].map (fun k =>
    relaysOn (alternatingPairs 600 600 600 allRelaysOff { lastChange := 0, pairStep := k }).1)

/-- The on-pairs (relay indices 0, 1, 2) that `sequentialPairs` writes when it
fires in phase 0, 1, 2. -/
def sequentialPairsWrites : List (List Nat) :=
  [0, 1, 2].map (fun k =>
    relaysOn (sequentialPairs 500 500 500 allRelaysOff { lastChange := 0, seqStep := k }).1)

/-- The level `fireflyEffect` writes for a cell of `states`: LOW (on) for
`true`, HIGH (off) for `false`. -/
def levelOf (b : Bool) : Level := if b then LOW else HIGH

/-- None of the three intervals of `fireflyEffect` has elapsed at the clock
values `now`: for no relay `i` has the elapsed time since `lastChange[i]`
reached `durations[i]`. -/
def fireflyQuiet (now : Arr3 Nat) (st : FireflyStatics) : Prop :=
  ∀ i : Nat, i < 3 → usub (now.get i) (st.lastChange.get i) < st.durations.get i

/-- Statics of `fireflyEffect` with the three lights off and 1000 ms to go. -/
def fireflyDark : FireflyStatics :=
  { lastChange := ⟨0, 0, 0⟩, durations := ⟨1000, 1000, 1000⟩, states := ⟨false, false, false⟩ }

/-- Poll `morseCodeSOS()` once per millisecond, starting `e` ms after
`lastChange`, until the call advances `sosStep`; the result is the elapsed
time at which the step fired, with the relay outputs and statics it left.
`fuel` bounds the number of calls. -/
def sosEarliestFire : Nat → Nat → Relays → SosStatics → Option (Nat × Relays × SosStatics)
  | 0, _, _, _ => none
  | fuel + 1, e, r, st =>
    match morseCodeSOS ((st.lastChange + e) % 2 ^ 32) ((st.lastChange + e) % 2 ^ 32) r st with
    | none => none
    | some x =>
      if x.2.sosStep ≠ st.sosStep then some (e, x.1, x.2)
      else sosEarliestFire fuel (e + 1) r st

/-- Run `k` consecutive steps of `morseCodeSOS()`, each by polling once per
millisecond from its predecessor until it fires (at most 2000 calls per step):
the total time the `k` steps take, with the relay outputs and statics left. -/
def sosCycleTime : Nat → Relays → SosStatics → Option (Nat × Relays × SosStatics)
  | 0, r, st => some (0, r, st)
  | k + 1, r, st =>
    match sosEarliestFire 2000 0 r st with
    | none => none
    | some x =>
      match sosCycleTime k x.2.1 x.2.2 with
      | none => none
      | some y => some (x.1 + y.1, y.2.1, y.2.2)

/-- Sum of the entries of `durations` at `k` consecutive steps from step `i`
(an entry outside the table counts 0). -/
def sosGateSum : Nat → Int → Nat
  | 0, _ => 0
  | k + 1, i =>
    (match lookup sosDurations i with
      | some d => toULong d
      | none => 0) + sosGateSum k ((i + 1).tmod 18)

/-- The step `k` steps after step `i` of `morseCodeSOS`. -/
def sosStepAfter : Nat → Int → Int
  | 0, i => i
  | k + 1, i => sosStepAfter k ((i + 1).tmod 18)

/-! ## Helper lemmas and the properties -/

theorem usub_lt (a b : Nat) : usub a b < 2 ^ 32 := by
  unfold usub ulongRange; omega

theorem usub_add_mod (s d : Nat) (hd : d < 2 ^ 32) : usub ((s + d) % 2 ^ 32) s = d := by
  unfold usub ulongRange; omega

theorem usub_mod_mod (a b : Nat) (hba : b ≤ a) (hd : a - b < 2 ^ 32) :
    usub (a % 2 ^ 32) (b % 2 ^ 32) = a - b := by
  unfold usub ulongRange; omega

theorem usub_self (a : Nat) : usub a a = 0 := by
  unfold usub ulongRange; omega

theorem toULong_patternDuration : toULong patternDuration = 20000 := by decide

theorem tmod_succ (c n : Int) (hc : 0 ≤ c) (hn : 0 < n) :
    (c + 1).tmod n = (c + 1) % n ∧ 0 ≤ (c + 1).tmod n ∧ (c + 1).tmod n < n := by
  have h : (c + 1).tmod n = (c + 1) % n := Int.tmod_eq_emod (by omega) (by omega)
  refine ⟨h, ?_, ?_⟩
  · rw [h]; exact Int.emod_nonneg _ (by omega)
  · rw [h]; exact Int.emod_lt_of_pos _ hn

theorem checkButton_eq (reading : Level) (tReset tCheck tPress : Nat) (g : Globals) :
    checkButtonForPatternChange reading tReset tCheck tPress g =
      if usub tCheck (debounceStart reading tReset g) > debounceDelay ∧ reading ≠ g.buttonState then
        if reading = LOW then
          { patternStartTime := tPress
            currentPattern := (g.currentPattern + 1).tmod 20
            buttonState := LOW
            lastButtonState := reading
            lastDebounceTime := debounceStart reading tReset g
            serial := g.serial ++ [SerialLine.buttonPressed ((g.currentPattern + 1).tmod 20 + 1)] }
        else
          { g with buttonState := reading, lastButtonState := reading,
                   lastDebounceTime := debounceStart reading tReset g }
      else
        { g with lastButtonState := reading, lastDebounceTime := debounceStart reading tReset g } := by
  unfold checkButtonForPatternChange debounceStart
  by_cases h1 : reading ≠ g.lastButtonState <;> by_cases h2 : reading ≠ g.buttonState <;>
    by_cases h4 : reading = LOW <;>
    simp only [h1, h2, h4, if_true, if_false, and_true, and_false, ne_eq, not_true_eq_false, not_false_eq_true] <;>
    split_ifs <;> simp_all

theorem pressCount_checkButton (reading : Level) (tReset tCheck tPress : Nat) (g : Globals) :
    pressCount (checkButtonForPatternChange reading tReset tCheck tPress g) =
      pressCount g +
        (if usub tCheck (debounceStart reading tReset g) > debounceDelay ∧
            reading ≠ g.buttonState ∧ reading = LOW then 1 else 0) := by
  rw [checkButton_eq]
  by_cases h1 : usub tCheck (debounceStart reading tReset g) > debounceDelay ∧ reading ≠ g.buttonState
  · by_cases h2 : reading = LOW
    · have h3 : usub tCheck (debounceStart reading tReset g) > debounceDelay ∧
          reading ≠ g.buttonState ∧ reading = LOW := ⟨h1.1, h1.2, h2⟩
      rw [if_pos h1, if_pos h2, if_pos h3]
      simp [pressCount, List.countP_append, SerialLine.isPress]
    · have h3 : ¬ (usub tCheck (debounceStart reading tReset g) > debounceDelay ∧
          reading ≠ g.buttonState ∧ reading = LOW) := fun h => h2 h.2.2
      rw [if_pos h1, if_neg h2, if_neg h3]
      simp [pressCount]
  · have h3 : ¬ (usub tCheck (debounceStart reading tReset g) > debounceDelay ∧
        reading ≠ g.buttonState ∧ reading = LOW) := fun h => h1 ⟨h.1, h.2.1⟩
    rw [if_neg h1, if_neg h3]
    simp [pressCount]

theorem confirmsPress_iff (reading : Level) (tReset tCheck tPress : Nat) (g : Globals) :
    confirmsPress reading tReset tCheck tPress g ↔
      (usub tCheck (debounceStart reading tReset g) > debounceDelay ∧
        reading ≠ g.buttonState ∧ reading = LOW) := by
  unfold confirmsPress
  rw [pressCount_checkButton]
  by_cases h : usub tCheck (debounceStart reading tReset g) > debounceDelay ∧
      reading ≠ g.buttonState ∧ reading = LOW
  · rw [if_pos h]; exact iff_of_true rfl h
  · rw [if_neg h]; exact iff_of_false (by omega) h

theorem checkButton_press (reading : Level) (tReset tCheck tPress : Nat) (g : Globals)
    (h : confirmsPress reading tReset tCheck tPress g) :
    checkButtonForPatternChange reading tReset tCheck tPress g =
      { patternStartTime := tPress
        currentPattern := (g.currentPattern + 1).tmod 20
        buttonState := LOW
        lastButtonState := reading
        lastDebounceTime := debounceStart reading tReset g
        serial := g.serial ++ [SerialLine.buttonPressed ((g.currentPattern + 1).tmod 20 + 1)] } := by
  rw [confirmsPress_iff] at h
  rw [checkButton_eq, if_pos ⟨h.1, h.2.1⟩, if_pos h.2.2]

theorem checkButton_noPress (reading : Level) (tReset tCheck tPress : Nat) (g : Globals)
    (h : ¬ confirmsPress reading tReset tCheck tPress g) :
    (checkButtonForPatternChange reading tReset tCheck tPress g).currentPattern = g.currentPattern ∧
    (checkButtonForPatternChange reading tReset tCheck tPress g).patternStartTime = g.patternStartTime ∧
    (checkButtonForPatternChange reading tReset tCheck tPress g).serial = g.serial := by
  rw [confirmsPress_iff] at h
  rw [checkButton_eq]
  split_ifs with h1 h2
  · exact absurd ⟨h1.1, h1.2, h2⟩ h
  · exact ⟨rfl, rfl, rfl⟩
  · exact ⟨rfl, rfl, rfl⟩

/-- The rotation, written over the result of the button check. -/
theorem rotation_eq (reading : Level) (tReset tCheck tPress tLoop tSwitch : Nat) (g : Globals) :
    rotation reading tReset tCheck tPress tLoop tSwitch g =
      if usub tLoop (checkButtonForPatternChange reading tReset tCheck tPress g).patternStartTime
          ≥ 20000 then
        { checkButtonForPatternChange reading tReset tCheck tPress g with
          currentPattern :=
            ((checkButtonForPatternChange reading tReset tCheck tPress g).currentPattern + 1).tmod 20
          patternStartTime := tSwitch
          serial := (checkButtonForPatternChange reading tReset tCheck tPress g).serial ++
            [SerialLine.switching
              (((checkButtonForPatternChange reading tReset tCheck tPress g).currentPattern + 1).tmod 20
                + 1)] }
      else checkButtonForPatternChange reading tReset tCheck tPress g := by
  unfold rotation
  rw [toULong_patternDuration]

theorem rotate_trigger (i : TickInput) (g : Globals) (hq : pressThenTestQuick i g)
    (ht : isTrigger i g) :
    (rotate i g).currentPattern = (g.currentPattern + 1).tmod 20 := by
  unfold rotate
  rw [rotation_eq]
  by_cases hp : confirmsPress i.reading i.tReset i.tCheck i.tPress g
  · have hlt := hq hp
    rw [checkButton_press _ _ _ _ _ hp]
    simp only []
    rw [if_neg (by omega)]
  · obtain ⟨h1, h2, -⟩ := checkButton_noPress _ _ _ _ _ hp
    have ht2 : usub i.tLoop g.patternStartTime ≥ 20000 := ht.resolve_left hp
    rw [h2, if_pos ht2]
    simp only [h1]

theorem rotate_noTrigger (i : TickInput) (g : Globals) (ht : ¬ isTrigger i g) :
    (rotate i g).currentPattern = g.currentPattern ∧
    (rotate i g).patternStartTime = g.patternStartTime := by
  unfold rotate
  rw [rotation_eq]
  have hp : ¬ confirmsPress i.reading i.tReset i.tCheck i.tPress g := fun h => ht (Or.inl h)
  obtain ⟨h1, h2, -⟩ := checkButton_noPress _ _ _ _ _ hp
  have ht2 : ¬ usub i.tLoop g.patternStartTime ≥ 20000 := fun h => ht (Or.inr h)
  rw [h2, if_neg ht2]
  exact ⟨h1, h2⟩

theorem stepsInRange_init (t0 : Nat) : StepsInRange (initState t0) := by
  constructor <;> simp [initState]

theorem tmod_succ_range (c n : Int) (hn : 0 < n) (hc : 0 ≤ c ∧ c < n) :
    0 ≤ (c + 1).tmod n ∧ (c + 1).tmod n < n :=
  (tmod_succ c n hc.1 hn).2

theorem sequentialOnOff_range (sp : Int) (n n2 : Nat) (r : Relays) (st : SequentialOnOffStatics)
    (h : 0 ≤ st.sequence ∧ st.sequence < 3) :
    0 ≤ (sequentialOnOff sp n n2 r st).2.sequence ∧ (sequentialOnOff sp n n2 r st).2.sequence < 3 := by
  unfold sequentialOnOff
  split_ifs
  · exact tmod_succ_range _ 3 (by decide) h
  · exact h

theorem chase_range (sp : Int) (n n2 : Nat) (r : Relays) (st : ChaseStatics)
    (h : 0 ≤ st.position ∧ st.position < 3) :
    0 ≤ (chase sp n n2 r st).2.position ∧ (chase sp n n2 r st).2.position < 3 := by
  unfold chase
  split_ifs
  · exact tmod_succ_range _ 3 (by decide) h
  · exact h

theorem heartbeat_beatStep (b : Int) (n n2 : Nat) (r : Relays) (st : HeartbeatStatics) :
    (heartbeat b n n2 r st).2.beatStep =
      if usub n st.lastChange ≥ toULong st.currentDelay then (st.beatStep + 1).tmod 4
      else st.beatStep := by
  unfold heartbeat
  split_ifs
  · simp only []
    split <;> rfl
  · rfl

theorem heartbeat_range (b : Int) (n n2 : Nat) (r : Relays) (st : HeartbeatStatics)
    (h : 0 ≤ st.beatStep ∧ st.beatStep < 4) :
    0 ≤ (heartbeat b n n2 r st).2.beatStep ∧ (heartbeat b n n2 r st).2.beatStep < 4 := by
  rw [heartbeat_beatStep]
  split_ifs
  · exact tmod_succ_range _ 4 (by decide) h
  · exact h

theorem binaryCount_range (sp : Int) (n n2 : Nat) (r : Relays) (st : BinaryCountStatics)
    (h : 0 ≤ st.counter ∧ st.counter < 8) :
    0 ≤ (binaryCount sp n n2 r st).2.counter ∧ (binaryCount sp n n2 r st).2.counter < 8 := by
  unfold binaryCount
  split_ifs
  · exact tmod_succ_range _ 8 (by decide) h
  · exact h

theorem fadeSimulation_range (sp : Int) (n n2 : Nat) (r : Relays) (st : FadeStatics)
    (h : 0 ≤ st.fadeStep ∧ st.fadeStep ≤ 2) :
    0 ≤ (fadeSimulation sp n n2 r st).2.fadeStep ∧ (fadeSimulation sp n n2 r st).2.fadeStep ≤ 2 := by
  unfold fadeSimulation
  by_cases hf : usub n st.lastChange ≥ toULong sp
  · rw [if_pos hf]
    by_cases hd : st.fadeDirection = true
    · simp only [hd, if_true]
      split_ifs <;> simp only [] <;> omega
    · simp only [hd, if_false]
      split_ifs <;> simp only [] <;> omega
  · rw [if_neg hf]; exact h

theorem wavePattern_range (sp : Int) (n n2 : Nat) (r : Relays) (st : WaveStatics)
    (h : 0 ≤ st.waveStep ∧ st.waveStep < 6) :
    0 ≤ (wavePattern sp n n2 r st).2.waveStep ∧ (wavePattern sp n n2 r st).2.waveStep < 6 := by
  unfold wavePattern
  split_ifs
  · exact tmod_succ_range _ 6 (by decide) h
  · exact h

theorem cascade_range (sp : Int) (n n2 : Nat) (r : Relays) (st : CascadeStatics)
    (h : 0 ≤ st.step ∧ st.step < 6) :
    0 ≤ (cascade sp n n2 r st).2.step ∧ (cascade sp n n2 r st).2.step < 6 := by
  unfold cascade
  split_ifs
  · exact tmod_succ_range _ 6 (by decide) h
  · exact h

theorem alternatingPairs_range (sp : Int) (n n2 : Nat) (r : Relays) (st : AlternatingPairsStatics)
    (h : 0 ≤ st.pairStep ∧ st.pairStep < 3) :
    0 ≤ (alternatingPairs sp n n2 r st).2.pairStep ∧
      (alternatingPairs sp n n2 r st).2.pairStep < 3 := by
  unfold alternatingPairs
  split_ifs
  · exact tmod_succ_range _ 3 (by decide) h
  · exact h

theorem sequentialPairs_range (sp : Int) (n n2 : Nat) (r : Relays) (st : SequentialPairsStatics)
    (h : 0 ≤ st.seqStep ∧ st.seqStep < 3) :
    0 ≤ (sequentialPairs sp n n2 r st).2.seqStep ∧
      (sequentialPairs sp n n2 r st).2.seqStep < 3 := by
  unfold sequentialPairs
  split_ifs
  · exact tmod_succ_range _ 3 (by decide) h
  · exact h

theorem lookup_some {α : Type} (tbl : List α) (i : Int) (h : 0 ≤ i ∧ i < tbl.length) :
    ∃ v, lookup tbl i = some v := by
  unfold lookup
  rw [if_pos h.1]
  have hlt : i.toNat < tbl.length := by omega
  exact ⟨tbl.get ⟨i.toNat, hlt⟩, List.get?_eq_get hlt⟩

/-- The SOS step, written over the two table entries it reads. -/
theorem morseCodeSOS_eq (n n2 : Nat) (r : Relays) (st : SosStatics) (d : Int) (lit : Bool)
    (hd : lookup sosDurations st.sosStep = some d) (hl : lookup sosStates st.sosStep = some lit) :
    morseCodeSOS n n2 r st =
      if usub n st.lastChange ≥ toULong d then
        some (if lit then allOn r else allOff r,
              { lastChange := n2, sosStep := (st.sosStep + 1).tmod 18 })
      else some (r, st) := by
  unfold morseCodeSOS
  rw [hd, hl]

theorem thunderEffect_eq (n n2 : Nat) (r : Relays) (st : ThunderStatics) (d v : Int)
    (hd : lookup thunderTiming st.thunderStep = some d)
    (hl : lookup thunderSequence st.thunderStep = some v) :
    thunderEffect n n2 r st =
      if usub n st.lastChange ≥ toULong d then
        some (if v = 1 then allOn r else allOff r,
              { lastChange := n2, thunderStep := (st.thunderStep + 1).tmod 13 })
      else some (r, st) := by
  unfold thunderEffect
  rw [hd, hl]

theorem morseCodeSOS_total (n n2 : Nat) (r : Relays) (st : SosStatics)
    (h : 0 ≤ st.sosStep ∧ st.sosStep < 18) :
    ∃ x, morseCodeSOS n n2 r st = some x ∧ 0 ≤ x.2.sosStep ∧ x.2.sosStep < 18 := by
  obtain ⟨d, hd⟩ := lookup_some sosDurations st.sosStep h
  obtain ⟨l, hl⟩ := lookup_some sosStates st.sosStep h
  rw [morseCodeSOS_eq n n2 r st d l hd hl]
  by_cases hf : usub n st.lastChange ≥ toULong d
  · rw [if_pos hf]; exact ⟨_, rfl, tmod_succ_range _ 18 (by decide) h⟩
  · rw [if_neg hf]; exact ⟨_, rfl, h⟩

theorem thunderEffect_total (n n2 : Nat) (r : Relays) (st : ThunderStatics)
    (h : 0 ≤ st.thunderStep ∧ st.thunderStep < 13) :
    ∃ x, thunderEffect n n2 r st = some x ∧ 0 ≤ x.2.thunderStep ∧ x.2.thunderStep < 13 := by
  obtain ⟨d, hd⟩ := lookup_some thunderTiming st.thunderStep h
  obtain ⟨l, hl⟩ := lookup_some thunderSequence st.thunderStep h
  rw [thunderEffect_eq n n2 r st d l hd hl]
  by_cases hf : usub n st.lastChange ≥ toULong d
  · rw [if_pos hf]; exact ⟨_, rfl, tmod_succ_range _ 13 (by decide) h⟩
  · rw [if_neg hf]; exact ⟨_, rfl, h⟩

theorem runPattern_globals (p : PatternInput) (s s' : State) (h : runPattern p s = some s') :
    s'.globals = s.globals := by
  unfold runPattern at h
  split at h <;> simp only [Option.some.injEq, Option.map_eq_some'] at h <;>
    first
    | (subst h; rfl)
    | (obtain ⟨x, -, rfl⟩ := h; rfl)

theorem runPattern_total (p : PatternInput) (s : State) (h : StepsInRange s) :
    ∃ s', runPattern p s = some s' ∧ StepsInRange s' := by
  unfold runPattern
  split
  case h_13 =>
    obtain ⟨x, hx, hr⟩ := morseCodeSOS_total p.now p.now2 s.relays s.morseCodeSOSS h.sosStep
    rw [hx]
    exact ⟨_, rfl, ⟨h.1, h.2, h.3, h.4, h.5, h.6, hr, h.8, h.9, h.10, h.11⟩⟩
  case h_19 =>
    obtain ⟨x, hx, hr⟩ := thunderEffect_total p.now p.now2 s.relays s.thunderEffectS h.thunderStep
    rw [hx]
    exact ⟨_, rfl, ⟨h.1, h.2, h.3, h.4, h.5, h.6, h.7, h.8, h.9, hr, h.11⟩⟩
  case h_1 => exact ⟨_, rfl, ⟨h.1, h.2, h.3, h.4, h.5, h.6, h.7, h.8, h.9, h.10, h.11⟩⟩
  case h_2 => exact ⟨_, rfl, ⟨h.1, h.2, h.3, h.4, h.5, h.6, h.7, h.8, h.9, h.10, h.11⟩⟩
  case h_3 => exact ⟨_, rfl, ⟨sequentialOnOff_range _ _ _ _ _ h.1, h.2, h.3, h.4, h.5, h.6, h.7, h.8, h.9, h.10, h.11⟩⟩
  case h_4 => exact ⟨_, rfl, ⟨h.1, h.2, h.3, h.4, h.5, h.6, h.7, h.8, h.9, h.10, h.11⟩⟩
  case h_5 => exact ⟨_, rfl, ⟨h.1, chase_range _ _ _ _ _ h.2, h.3, h.4, h.5, h.6, h.7, h.8, h.9, h.10, h.11⟩⟩
  case h_6 => exact ⟨_, rfl, ⟨h.1, chase_range _ _ _ _ _ h.2, h.3, h.4, h.5, h.6, h.7, h.8, h.9, h.10, h.11⟩⟩
  case h_7 => exact ⟨_, rfl, ⟨h.1, h.2, h.3, h.4, h.5, h.6, h.7, h.8, h.9, h.10, h.11⟩⟩
  case h_8 => exact ⟨_, rfl, ⟨h.1, h.2, heartbeat_range _ _ _ _ _ h.3, h.4, h.5, h.6, h.7, h.8, h.9, h.10, h.11⟩⟩
  case h_9 => exact ⟨_, rfl, ⟨h.1, h.2, h.3, binaryCount_range _ _ _ _ _ h.4, h.5, h.6, h.7, h.8, h.9, h.10, h.11⟩⟩
  case h_10 => exact ⟨_, rfl, ⟨h.1, h.2, h.3, h.4, fadeSimulation_range _ _ _ _ _ h.5, h.6, h.7, h.8, h.9, h.10, h.11⟩⟩
  case h_11 => exact ⟨_, rfl, ⟨h.1, h.2, h.3, h.4, h.5, h.6, h.7, h.8, h.9, h.10, h.11⟩⟩
  case h_12 => exact ⟨_, rfl, ⟨h.1, h.2, h.3, h.4, h.5, wavePattern_range _ _ _ _ _ h.6, h.7, h.8, h.9, h.10, h.11⟩⟩
  case h_14 => exact ⟨_, rfl, ⟨h.1, h.2, h.3, h.4, h.5, h.6, h.7, h.8, h.9, h.10, h.11⟩⟩
  case h_15 => exact ⟨_, rfl, ⟨h.1, h.2, h.3, h.4, h.5, h.6, h.7, h.8, h.9, h.10, h.11⟩⟩
  case h_16 => exact ⟨_, rfl, ⟨h.1, h.2, h.3, h.4, h.5, h.6, h.7, cascade_range _ _ _ _ _ h.8, h.9, h.10, h.11⟩⟩
  case h_17 => exact ⟨_, rfl, ⟨h.1, h.2, h.3, h.4, h.5, h.6, h.7, h.8, h.9, h.10, h.11⟩⟩
  case h_18 => exact ⟨_, rfl, ⟨h.1, h.2, h.3, h.4, h.5, h.6, h.7, h.8, alternatingPairs_range _ _ _ _ _ h.9, h.10, h.11⟩⟩
  case h_20 => exact ⟨_, rfl, ⟨h.1, h.2, h.3, h.4, h.5, h.6, h.7, h.8, h.9, h.10, sequentialPairs_range _ _ _ _ _ h.11⟩⟩
  case h_21 => exact ⟨_, rfl, ⟨h.1, h.2, h.3, h.4, h.5, h.6, h.7, h.8, h.9, h.10, h.11⟩⟩

theorem loop_total (i : TickInput) (s : State) (h : StepsInRange s) :
    ∃ s', loop i s = some s' ∧ StepsInRange s' ∧ s'.globals = rotate i s.globals := by
  have h' : StepsInRange { s with globals := rotate i s.globals } :=
    ⟨h.1, h.2, h.3, h.4, h.5, h.6, h.7, h.8, h.9, h.10, h.11⟩
  obtain ⟨s', hs', hr⟩ := runPattern_total i.pat _ h'
  exact ⟨s', hs', hr, runPattern_globals _ _ _ hs'⟩

theorem loop_globals (i : TickInput) (s s' : State) (h : loop i s = some s') :
    s'.globals = rotate i s.globals :=
  runPattern_globals _ _ _ h

theorem runLoop_total (is : List TickInput) (s : State) (h : StepsInRange s) :
    ∃ s', runLoop is s = some s' ∧ StepsInRange s' ∧ s'.globals = runRotate is s.globals := by
  induction is generalizing s with
  | nil => exact ⟨s, rfl, h, rfl⟩
  | cons i is ih =>
    obtain ⟨s1, h1, hr1, hg1⟩ := loop_total i s h
    obtain ⟨s2, h2, hr2, hg2⟩ := ih s1 hr1
    refine ⟨s2, ?_, hr2, ?_⟩
    · simp only [runLoop, h1, Option.some_bind, h2]
    · simp only [runRotate, hg2, hg1]

theorem reachable_stepsInRange (s : State) (h : Reachable s) : StepsInRange s := by
  induction h with
  | init t0 => exact stepsInRange_init t0
  | step i s s' _ hl ih =>
    obtain ⟨s1, h1, hr1, -⟩ := loop_total i s ih
    rw [hl] at h1
    cases h1
    exact hr1

theorem checkButton_pattern_range (reading : Level) (tReset tCheck tPress : Nat) (g : Globals)
    (h : 0 ≤ g.currentPattern ∧ g.currentPattern < 20) :
    0 ≤ (checkButtonForPatternChange reading tReset tCheck tPress g).currentPattern ∧
      (checkButtonForPatternChange reading tReset tCheck tPress g).currentPattern < 20 := by
  rw [checkButton_eq]
  split_ifs
  · exact tmod_succ_range _ 20 (by decide) h
  · exact h
  · exact h

theorem rotate_pattern_range (i : TickInput) (g : Globals)
    (h : 0 ≤ g.currentPattern ∧ g.currentPattern < 20) :
    0 ≤ (rotate i g).currentPattern ∧ (rotate i g).currentPattern < 20 := by
  have hc := checkButton_pattern_range i.reading i.tReset i.tCheck i.tPress g h
  unfold rotate
  rw [rotation_eq]
  split_ifs
  · exact tmod_succ_range _ 20 (by decide) hc
  · exact hc

theorem reachable_pattern_range (s : State) (h : Reachable s) :
    0 ≤ s.globals.currentPattern ∧ s.globals.currentPattern < 20 := by
  induction h with
  | init t0 => simp [initState, initGlobals]
  | step i s s' _ hl ih =>
    rw [loop_globals i s s' hl]
    exact rotate_pattern_range i _ ih

theorem runRotate_pattern (is : List TickInput) (g : Globals)
    (h : 0 ≤ g.currentPattern ∧ g.currentPattern < 20) (hq : quickTicks is g) :
    (runRotate is g).currentPattern = (g.currentPattern + triggerCount is g) % 20 := by
  induction is generalizing g with
  | nil =>
    simp only [runRotate, triggerCount, Nat.cast_zero, add_zero]
    exact (Int.emod_eq_of_lt h.1 h.2).symm
  | cons i is ih =>
    obtain ⟨hq1, hq2⟩ := hq
    have hr := rotate_pattern_range i g h
    simp only [runRotate, triggerCount]
    rw [ih (rotate i g) hr hq2]
    by_cases ht : isTrigger i g
    · rw [rotate_trigger i g hq1 ht, if_pos ht, (tmod_succ _ 20 h.1 (by decide)).1]
      push_cast
      omega
    · rw [(rotate_noTrigger i g ht).1, if_neg ht]
      push_cast
      omega

/-- C1: with the current pattern `i` in `[0, 20)` and the clock advancing by
less than 20000 ms between the press handler and the timeout test, a tick in
which the button check confirms a press or the elapsed time has reached
20000 ms leaves `currentPattern = (i + 1) mod 20`, any other tick leaves it at
`i`, and no tick advances it by two; so a run of ticks with `k` trigger ticks
ends with `(i + k) mod 20`, and with 20 trigger ticks it ends with `i`. -/
theorem rotation_advances_by_one_per_trigger :
    (∀ (i : TickInput) (g : Globals), 0 ≤ g.currentPattern → g.currentPattern < 20 →
      pressThenTestQuick i g →
        (isTrigger i g → (rotate i g).currentPattern = (g.currentPattern + 1) % 20) ∧
        (¬ isTrigger i g → (rotate i g).currentPattern = g.currentPattern) ∧
        (rotate i g).currentPattern ≠ (g.currentPattern + 2) % 20) ∧
    (∀ (is : List TickInput) (s : State), StepsInRange s →
      0 ≤ s.globals.currentPattern → s.globals.currentPattern < 20 → quickTicks is s.globals →
        ∃ s', runLoop is s = some s' ∧
          s'.globals.currentPattern
            = (s.globals.currentPattern + triggerCount is s.globals) % 20 ∧
          (triggerCount is s.globals = 20 →
            s'.globals.currentPattern = s.globals.currentPattern)) := by
  refine ⟨?_, ?_⟩
  · intro i g h0 h20 hq
    have hmod := (tmod_succ g.currentPattern 20 h0 (by decide)).1
    refine ⟨fun ht => ?_, fun ht => (rotate_noTrigger i g ht).1, ?_⟩
    · rw [rotate_trigger i g hq ht, hmod]
    · by_cases ht : isTrigger i g
      · rw [rotate_trigger i g hq ht, hmod]; omega
      · rw [(rotate_noTrigger i g ht).1]; omega
  · intro is s hr h0 h20 hq
    obtain ⟨s', hs', -, hg⟩ := runLoop_total is s hr
    have hp := runRotate_pattern is s.globals ⟨h0, h20⟩ hq
    refine ⟨s', hs', ?_, ?_⟩
    · rw [hg, hp]
    · intro hk
      rw [hg, hp, hk]
      push_cast
      omega

theorem rotation_advances_by_one_per_trigger_witness :
    isTrigger pressAndTimeoutTick releasedGlobals ∧
    usub pressAndTimeoutTick.tLoop releasedGlobals.patternStartTime ≥ 20000 ∧
    confirmsPress LOW 30000 30000 30000 releasedGlobals ∧
    (rotate pressAndTimeoutTick releasedGlobals).currentPattern = (19 + 1) % 20 ∧
    (∃ s', runLoop [pressAndTimeoutTick, pressAndTimeoutTick] (initState 0) = some s' ∧
      s'.globals.currentPattern
        = ((initState 0).globals.currentPattern
            + triggerCount [pressAndTimeoutTick, pressAndTimeoutTick] (initState 0).globals) % 20 ∧
      (triggerCount [pressAndTimeoutTick, pressAndTimeoutTick] (initState 0).globals = 20 →
        s'.globals.currentPattern = (initState 0).globals.currentPattern)) :=
  ⟨by decide, by decide, by decide,
   (rotation_advances_by_one_per_trigger.1 pressAndTimeoutTick releasedGlobals
      (by decide) (by decide) (by decide)).1 (by decide),
   rotation_advances_by_one_per_trigger.2 [pressAndTimeoutTick, pressAndTimeoutTick]
      (initState 0) (stepsInRange_init 0) (by decide) (by decide)
      ⟨by decide, by decide, trivial⟩⟩

theorem rotate_timeout (i : TickInput) (g : Globals)
    (hp : ¬ confirmsPress i.reading i.tReset i.tCheck i.tPress g)
    (ht : usub i.tLoop g.patternStartTime ≥ 20000) :
    (rotate i g).currentPattern = (g.currentPattern + 1).tmod 20 ∧
    (rotate i g).patternStartTime = i.tSwitch := by
  unfold rotate
  rw [rotation_eq]
  obtain ⟨h1, h2, -⟩ := checkButton_noPress _ _ _ _ _ hp
  rw [h2, if_pos ht]
  simp only [h1, and_self]

/-- C2: the unsigned difference `now - s` of `now = (s + d) mod 2^32` and `s`
is the true elapsed time `d < 2^32`, also across a wrap of the clock; so a tick
without a confirmed press leaves `currentPattern` and `patternStartTime` as
they were when `d < 20000`, and moves to the next pattern (restarting the
timer) when `d ≥ 20000`. -/
theorem timeout_uses_true_elapsed_time :
    (∀ s d : Nat, d < 2 ^ 32 → usub ((s + d) % 2 ^ 32) s = d) ∧
    (∀ (i : TickInput) (g : Globals) (d : Nat), d < 2 ^ 32 →
      i.tLoop = (g.patternStartTime + d) % 2 ^ 32 →
      ¬ confirmsPress i.reading i.tReset i.tCheck i.tPress g →
        (d < 20000 →
          (rotate i g).currentPattern = g.currentPattern ∧
          (rotate i g).patternStartTime = g.patternStartTime) ∧
        (20000 ≤ d →
          (rotate i g).currentPattern = (g.currentPattern + 1).tmod 20 ∧
          (rotate i g).patternStartTime = i.tSwitch)) := by
  refine ⟨usub_add_mod, ?_⟩
  intro i g d hd hnow hp
  have he : usub i.tLoop g.patternStartTime = d := by rw [hnow]; exact usub_add_mod _ _ hd
  refine ⟨fun hlt => ?_, fun hge => ?_⟩
  · apply rotate_noTrigger
    intro ht
    rcases ht with ht | ht
    · exact hp ht
    · omega
  · exact rotate_timeout i g hp (by omega)

theorem timeout_uses_true_elapsed_time_witness :
    (afterWrapTick 20000).tLoop < nearWrapGlobals.patternStartTime ∧
    ((rotate (afterWrapTick 20000) nearWrapGlobals).currentPattern = (7 + 1 : Int).tmod 20 ∧
     (rotate (afterWrapTick 20000) nearWrapGlobals).patternStartTime = 19900) ∧
    ((rotate (afterWrapTick 19999) nearWrapGlobals).currentPattern = 7 ∧
     (rotate (afterWrapTick 19999) nearWrapGlobals).patternStartTime = 2 ^ 32 - 100) :=
  ⟨by decide,
   (timeout_uses_true_elapsed_time.2 (afterWrapTick 20000) nearWrapGlobals 20000
      (by decide) (by decide) (by decide)).2 (by decide),
   (timeout_uses_true_elapsed_time.2 (afterWrapTick 19999) nearWrapGlobals 19999
      (by decide) (by decide) (by decide)).1 (by decide)⟩

/-- C3: in every state reachable from the state after `setup()` by iterations
of `loop()`, whatever the button readings, clock values and random draws,
`0 ≤ currentPattern < 20`: the index is one of the 20 case labels of the
dispatch `switch`; and from such a state `loop()` runs again on any input. -/
theorem reachable_pattern_index_in_range (s : State) (h : Reachable s) :
    (0 ≤ s.globals.currentPattern ∧ s.globals.currentPattern < 20) ∧
    (∃ k : Nat, k < 20 ∧ s.globals.currentPattern = (k : Int)) ∧
    (∀ i : TickInput, ∃ s', loop i s = some s' ∧ Reachable s') := by
  have hr := reachable_pattern_range s h
  refine ⟨hr, ⟨s.globals.currentPattern.toNat, by omega, by omega⟩, fun i => ?_⟩
  obtain ⟨s', hs', -, -⟩ := loop_total i s (reachable_stepsInRange s h)
  exact ⟨s', hs', Reachable.step i s s' h hs'⟩

theorem reachable_pattern_index_in_range_witness :
    Reachable (initState 1234) ∧
    ((0 ≤ (initState 1234).globals.currentPattern ∧ (initState 1234).globals.currentPattern < 20) ∧
     (∃ k : Nat, k < 20 ∧ (initState 1234).globals.currentPattern = (k : Int)) ∧
     (∀ i : TickInput, ∃ s', loop i (initState 1234) = some s' ∧ Reachable s')) :=
  ⟨Reachable.init 1234, reachable_pattern_index_in_range (initState 1234) (Reachable.init 1234)⟩

theorem checkButton_eq' (b : ButtonRead) (g : Globals) :
    checkButton b g =
      if usub b.tCheck (debounceStart b.reading b.tReset g) > debounceDelay ∧
          b.reading ≠ g.buttonState then
        if b.reading = LOW then
          { patternStartTime := b.tPress
            currentPattern := (g.currentPattern + 1).tmod 20
            buttonState := LOW
            lastButtonState := b.reading
            lastDebounceTime := debounceStart b.reading b.tReset g
            serial := g.serial ++ [SerialLine.buttonPressed ((g.currentPattern + 1).tmod 20 + 1)] }
        else
          { g with buttonState := b.reading, lastButtonState := b.reading,
                   lastDebounceTime := debounceStart b.reading b.tReset g }
      else
        { g with lastButtonState := b.reading,
                 lastDebounceTime := debounceStart b.reading b.tReset g } :=
  checkButton_eq b.reading b.tReset b.tCheck b.tPress g

/-- A call that does not pass both tests of the button check only records the
reading and the debounce timer. -/
theorem checkButton_idle (b : ButtonRead) (g : Globals)
    (h : ¬ (usub b.tCheck (debounceStart b.reading b.tReset g) > debounceDelay ∧
            b.reading ≠ g.buttonState)) :
    checkButton b g =
      { g with lastButtonState := b.reading,
               lastDebounceTime := debounceStart b.reading b.tReset g } := by
  rw [checkButton_eq', if_neg h]

theorem debounceStart_same (x : Sample) (g : Globals) (h : x.reading = g.lastButtonState) :
    debounceStart x.read.reading x.read.tReset g = g.lastDebounceTime := by
  simp [debounceStart, Sample.read, h]

theorem debounceStart_diff (x : Sample) (g : Globals) (h : x.reading ≠ g.lastButtonState) :
    debounceStart x.read.reading x.read.tReset g = x.t % 2 ^ 32 := by
  simp [debounceStart, Sample.read, h]

theorem span_bound (w : Nat) (xs : List Sample) (first cur : Sample)
    (hs : timesAscend (cur :: xs)) (hr : runsSpanAtMost w first cur xs) :
    cur.t - first.t ≤ w := by
  induction xs generalizing cur with
  | nil => exact hr
  | cons x xs ih =>
    have hcx : cur.t ≤ x.t := (List.chain'_cons.mp hs).1
    have hs' : timesAscend (x :: xs) := (List.chain'_cons.mp hs).2
    unfold runsSpanAtMost at hr
    split_ifs at hr with hx
    · have := ih x hs' hr
      omega
    · exact hr.1

/-- While the stable state is LOW and every run is short, the button check
neither changes the stable state nor confirms a press. -/
theorem quiet_from (xs : List Sample) (g : Globals) (first cur : Sample)
    (hb : g.buttonState = LOW) (hl : g.lastButtonState = first.reading)
    (hd : first.reading = HIGH → g.lastDebounceTime = first.t % 2 ^ 32)
    (hfc : first.t ≤ cur.t) (hs : timesAscend (cur :: xs))
    (hr : runsSpanAtMost 50 first cur xs) :
    ∀ g' ∈ buttonTrace (xs.map Sample.read) g,
      g'.buttonState = LOW ∧ pressCount g' = pressCount g ∧
        g'.currentPattern = g.currentPattern := by
  induction xs generalizing g first cur with
  | nil => intro g' hg'; simp [buttonTrace] at hg'
  | cons x xs ih =>
    have hcx : cur.t ≤ x.t := (List.chain'_cons.mp hs).1
    have hs' : timesAscend (x :: xs) := (List.chain'_cons.mp hs).2
    have hidle : ¬ (usub x.read.tCheck (debounceStart x.read.reading x.read.tReset g)
        > debounceDelay ∧ x.read.reading ≠ g.buttonState) := by
      intro ⟨h1, h2⟩
      have hxH : x.reading = HIGH := by
        cases hx : x.reading
        · exact absurd (by rw [hb]; exact hx) h2
        · rfl
      unfold runsSpanAtMost at hr
      by_cases hxf : x.reading = first.reading
      · rw [if_pos hxf] at hr
        have hsp := span_bound 50 xs first x hs' hr
        have hdt := hd (hxf ▸ hxH)
        rw [debounceStart_same x g (by rw [hl, hxf]), hdt] at h1
        have hu : usub x.read.tCheck (first.t % 2 ^ 32) = x.t - first.t :=
          usub_mod_mod x.t first.t (by omega) (by omega)
        rw [hu] at h1
        simp only [debounceDelay] at h1
        omega
      · rw [debounceStart_diff x g (by rw [hl]; exact hxf)] at h1
        have hu : usub x.read.tCheck (x.t % 2 ^ 32) = 0 := usub_self _
        rw [hu] at h1
        simp only [debounceDelay] at h1
        omega
    have hstep := checkButton_idle x.read g hidle
    intro g' hg'
    simp only [List.map_cons, buttonTrace, List.mem_cons] at hg'
    have hb1 : (checkButton x.read g).buttonState = LOW := by rw [hstep]; exact hb
    have hp1 : pressCount (checkButton x.read g) = pressCount g := by rw [hstep]; rfl
    have hc1 : (checkButton x.read g).currentPattern = g.currentPattern := by rw [hstep]
    rcases hg' with rfl | hg'
    · exact ⟨hb1, hp1, hc1⟩
    · unfold runsSpanAtMost at hr
      by_cases hxf : x.reading = first.reading
      · rw [if_pos hxf] at hr
        have := ih (checkButton x.read g) first x hb1
          (by rw [hstep]; exact hxf) (by
            intro hf
            rw [hstep]
            simp only []
            rw [debounceStart_same x g (by rw [hl, hxf])]
            exact hd hf) (by omega) hs' hr g' hg'
        rw [hp1, hc1] at this
        exact this
      · rw [if_neg hxf] at hr
        have := ih (checkButton x.read g) x x hb1
          (by rw [hstep]; rfl) (by
            intro _
            rw [hstep]
            simp only []
            exact debounceStart_diff x g (by rw [hl]; exact hxf)) (le_refl _) hs' hr.2 g' hg'
        rw [hp1, hc1] at this
        exact this

theorem checkButton_changes (b : ButtonRead) (g : Globals)
    (h : (checkButton b g).buttonState ≠ g.buttonState) :
    usub b.tCheck (debounceStart b.reading b.tReset g) > debounceDelay ∧
      b.reading ≠ g.buttonState := by
  by_contra hc
  rw [checkButton_idle b g hc] at h
  exact h rfl

/-- C4: from the initial debounce state (stable LOW, previous reading LOW,
timer 0), over samples taken at non-decreasing times in which every maximal run
of equal consecutive readings spans at most 50 ms, the button check never
changes `buttonState` and never confirms a press (the press count and
`currentPattern` stay as they were after every sample). And in any state, when
the two clock reads of a tick are at most 50 ms apart, `buttonState` changes in
the tick only if the reading equals the previous reading and more than 50 ms
have passed since the debounce timer was last reset. -/
theorem debounce_rejects_chatter :
    (∀ (xs : List Sample) (g : Globals),
      g.buttonState = LOW → g.lastButtonState = LOW → g.lastDebounceTime = 0 →
      timesAscend xs → shortRuns 50 xs →
        ∀ g' ∈ buttonTrace (xs.map Sample.read) g,
          g'.buttonState = LOW ∧ pressCount g' = pressCount g ∧
            g'.currentPattern = g.currentPattern) ∧
    (∀ (b : ButtonRead) (g : Globals), usub b.tCheck b.tReset ≤ 50 →
      (checkButton b g).buttonState ≠ g.buttonState →
        b.reading = g.lastButtonState ∧ usub b.tCheck g.lastDebounceTime > 50) := by
  refine ⟨?_, ?_⟩
  · intro xs g hb hl hd hs hr
    cases xs with
    | nil => intro g' hg'; simp [buttonTrace] at hg'
    | cons x xs =>
      have hidle : ¬ (usub x.read.tCheck (debounceStart x.read.reading x.read.tReset g)
          > debounceDelay ∧ x.read.reading ≠ g.buttonState) := by
        intro ⟨h1, h2⟩
        have hxH : x.reading = HIGH := by
          cases hx : x.reading
          · exact absurd (by rw [hb]; exact hx) h2
          · rfl
        rw [debounceStart_diff x g (by rw [hl, hxH]; decide)] at h1
        have hu : usub x.read.tCheck (x.t % 2 ^ 32) = 0 := usub_self _
        rw [hu] at h1
        simp only [debounceDelay] at h1
        omega
      have hstep := checkButton_idle x.read g hidle
      have hb1 : (checkButton x.read g).buttonState = LOW := by rw [hstep]; exact hb
      have hp1 : pressCount (checkButton x.read g) = pressCount g := by rw [hstep]; rfl
      have hc1 : (checkButton x.read g).currentPattern = g.currentPattern := by rw [hstep]
      intro g' hg'
      simp only [List.map_cons, buttonTrace, List.mem_cons] at hg'
      rcases hg' with rfl | hg'
      · exact ⟨hb1, hp1, hc1⟩
      · have := quiet_from xs (checkButton x.read g) x x hb1 (by rw [hstep]; rfl) (by
          intro hxH
          rw [hstep]
          simp only []
          exact debounceStart_diff x g (by rw [hl, hxH]; decide)) (le_refl _) hs hr g' hg'
        rw [hp1, hc1] at this
        exact this
  · intro b g hq hch
    obtain ⟨h1, -⟩ := checkButton_changes b g hch
    by_cases hsame : b.reading = g.lastButtonState
    · refine ⟨hsame, ?_⟩
      simp only [debounceStart, hsame, ne_eq, not_true_eq_false, if_false, debounceDelay] at h1
      exact h1
    · simp only [debounceStart, ne_eq, hsame, not_false_eq_true, if_true, debounceDelay] at h1
      omega

theorem debounce_rejects_chatter_witness :
    (timesAscend chatter ∧ shortRuns 50 chatter ∧
      ∀ g' ∈ buttonTrace (chatter.map Sample.read) chatterStart,
        g'.buttonState = LOW ∧ pressCount g' = pressCount chatterStart ∧
          g'.currentPattern = chatterStart.currentPattern) ∧
    ((checkButton ⟨HIGH, 1151, 1151, 1151⟩
          (runButton ((chatter.take 5).map Sample.read) chatterStart)).buttonState
        ≠ (runButton ((chatter.take 5).map Sample.read) chatterStart).buttonState ∧
      HIGH = (runButton ((chatter.take 5).map Sample.read) chatterStart).lastButtonState ∧
      usub 1151 (runButton ((chatter.take 5).map Sample.read) chatterStart).lastDebounceTime
        > 50) :=
  ⟨⟨by simp [timesAscend, chatter], by simp [shortRuns, runsSpanAtMost, chatter],
    debounce_rejects_chatter.1 chatter chatterStart rfl rfl rfl
      (by simp [timesAscend, chatter]) (by simp [shortRuns, runsSpanAtMost, chatter])⟩,
   by decide,
   debounce_rejects_chatter.2 ⟨HIGH, 1151, 1151, 1151⟩
     (runButton ((chatter.take 5).map Sample.read) chatterStart) (by decide) (by decide)⟩

/-- With the stable state LOW and LOW readings only, the button check changes
neither the stable state nor the press count nor the pattern. -/
theorem stable_low (bs : List ButtonRead) (g : Globals) (hb : g.buttonState = LOW)
    (hl : ∀ b ∈ bs, b.reading = LOW) :
    (runButton bs g).buttonState = LOW ∧ pressCount (runButton bs g) = pressCount g ∧
      (runButton bs g).currentPattern = g.currentPattern := by
  induction bs generalizing g with
  | nil => exact ⟨hb, rfl, rfl⟩
  | cons b bs ih =>
    have hbl : b.reading = LOW := hl b (List.mem_cons_self _ _)
    have hidle : ¬ (usub b.tCheck (debounceStart b.reading b.tReset g) > debounceDelay ∧
        b.reading ≠ g.buttonState) := fun h => h.2 (by rw [hbl, hb])
    have hstep := checkButton_idle b g hidle
    have := ih (checkButton b g) (by rw [hstep]; exact hb)
      (fun b' hb' => hl b' (List.mem_cons_of_mem _ hb'))
    simp only [runButton]
    rw [hstep] at this ⊢
    exact this

/-- The button held down with the stable state still HIGH: the press is
confirmed at the first sample more than 50 ms after the timer was reset. -/
theorem held_low (rest : List Sample) (g : Globals) (t0 : Nat)
    (hb : g.buttonState = HIGH) (hl : g.lastButtonState = LOW)
    (hd : g.lastDebounceTime = t0 % 2 ^ 32) (hlow : lowRun rest)
    (ht : ∀ x ∈ rest, t0 ≤ x.t ∧ x.t - t0 < 2 ^ 32) (hex : ∃ x ∈ rest, 50 < x.t - t0) :
    (runButton (rest.map Sample.read) g).buttonState = LOW ∧
    pressCount (runButton (rest.map Sample.read) g) = pressCount g + 1 ∧
    (runButton (rest.map Sample.read) g).currentPattern = (g.currentPattern + 1).tmod 20 := by
  induction rest generalizing g with
  | nil => obtain ⟨x, hx, -⟩ := hex; simp at hx
  | cons x rest ih =>
    have hxl : x.reading = LOW := hlow x (List.mem_cons_self _ _)
    have hxt := ht x (List.mem_cons_self _ _)
    have hds : debounceStart x.read.reading x.read.tReset g = t0 % 2 ^ 32 := by
      rw [debounceStart_same x g (by rw [hl, hxl]), hd]
    have hu : usub x.read.tCheck (t0 % 2 ^ 32) = x.t - t0 :=
      usub_mod_mod x.t t0 hxt.1 hxt.2
    have hrl : x.read.reading = LOW := hxl
    simp only [List.map_cons, runButton]
    by_cases hgt : 50 < x.t - t0
    · have hc : usub x.read.tCheck (debounceStart x.read.reading x.read.tReset g) > debounceDelay ∧
          x.read.reading ≠ g.buttonState := by
        rw [hds, hu, hrl, hb]
        exact ⟨hgt, by decide⟩
      have hstep : checkButton x.read g = _ := checkButton_eq' x.read g
      rw [if_pos hc, if_pos hrl] at hstep
      have := stable_low (rest.map Sample.read) (checkButton x.read g) (by rw [hstep])
        (by
          intro b hb'
          obtain ⟨y, hy, rfl⟩ := List.mem_map.mp hb'
          exact hlow y (List.mem_cons_of_mem _ hy))
      refine ⟨this.1, ?_, ?_⟩
      · rw [this.2.1, hstep]
        simp [pressCount, List.countP_append, SerialLine.isPress]
      · rw [this.2.2, hstep]
    · have hidle : ¬ (usub x.read.tCheck (debounceStart x.read.reading x.read.tReset g)
          > debounceDelay ∧ x.read.reading ≠ g.buttonState) := by
        rw [hds, hu]
        intro h
        simp only [debounceDelay] at h
        omega
      have hstep := checkButton_idle x.read g hidle
      have hex' : ∃ y ∈ rest, 50 < y.t - t0 := by
        obtain ⟨y, hy, hy50⟩ := hex
        rcases List.mem_cons.mp hy with rfl | hy
        · exact absurd hy50 hgt
        · exact ⟨y, hy, hy50⟩
      have := ih (checkButton x.read g) (by rw [hstep]; exact hb) (by rw [hstep]; exact hxl)
        (by rw [hstep]; exact hds) (fun y hy => hlow y (List.mem_cons_of_mem _ hy))
        (fun y hy => ht y (List.mem_cons_of_mem _ hy)) hex'
      rw [hstep] at this ⊢
      exact this

theorem timesAscend_bounds (x0 : Sample) (rest : List Sample) (hne : rest ≠ [])
    (hs : timesAscend (x0 :: rest)) :
    ∀ x ∈ rest, x0.t ≤ x.t ∧ x.t ≤ (rest.getLast hne).t := by
  have hp : List.Pairwise (fun a b : Sample => a.t ≤ b.t) (x0 :: rest) := by
    have htrans : IsTrans Sample (fun a b => a.t ≤ b.t) := ⟨fun _ _ _ h1 h2 => le_trans h1 h2⟩
    exact List.chain'_iff_pairwise.mp hs
  obtain ⟨h0, hrest⟩ := List.pairwise_cons.mp hp
  intro x hx
  refine ⟨h0 x hx, ?_⟩
  rw [← List.dropLast_append_getLast hne] at hrest hx
  rcases List.mem_append.mp hx with hx | hx
  · exact (List.pairwise_append.mp hrest).2.2 x hx _ (List.mem_singleton_self _)
  · rw [List.mem_singleton.mp hx]

/-- C5, as the code has it: from a stable released state (`buttonState` and
the previous reading HIGH), when the reading is LOW over consecutive samples
taken at non-decreasing times whose first and last are more than 50 ms apart
(and less than one period of the 32-bit clock), the button check confirms
exactly one press during the run: the press count grows by one, the pattern
advances once and the stable state ends LOW. -/
theorem clean_press_confirms_once (xs : List Sample) (g : Globals)
    (hb : g.buttonState = HIGH) (hl : g.lastButtonState = HIGH)
    (hlow : lowRun xs) (hs : timesAscend xs)
    (h50 : 50 < spanOf xs) (hwrap : spanOf xs < 2 ^ 32) :
    pressCount (runButton (xs.map Sample.read) g) = pressCount g + 1 ∧
    (runButton (xs.map Sample.read) g).currentPattern = (g.currentPattern + 1).tmod 20 ∧
    (runButton (xs.map Sample.read) g).buttonState = LOW := by
  cases xs with
  | nil => simp [spanOf] at h50
  | cons x0 rest =>
    by_cases hne : rest = []
    · subst hne; simp [spanOf] at h50
    have hspan : spanOf (x0 :: rest) = (rest.getLast hne).t - x0.t := by
      simp [spanOf, List.getLast?_eq_getLast, List.getLast_cons hne]
    rw [hspan] at h50 hwrap
    have hbd := timesAscend_bounds x0 rest hne hs
    have hx0l : x0.reading = LOW := hlow x0 (List.mem_cons_self _ _)
    have hidle : ¬ (usub x0.read.tCheck (debounceStart x0.read.reading x0.read.tReset g)
        > debounceDelay ∧ x0.read.reading ≠ g.buttonState) := by
      rw [debounceStart_diff x0 g (by rw [hl, hx0l]; decide)]
      have hu : usub x0.read.tCheck (x0.t % 2 ^ 32) = 0 := usub_self _
      rw [hu]
      intro h
      simp only [debounceDelay] at h
      omega
    have hstep := checkButton_idle x0.read g hidle
    have := held_low rest (checkButton x0.read g) x0.t (by rw [hstep]; exact hb)
      (by rw [hstep]; exact hx0l)
      (by rw [hstep]; exact debounceStart_diff x0 g (by rw [hl, hx0l]; decide))
      (fun y hy => hlow y (List.mem_cons_of_mem _ hy))
      (fun y hy => ⟨(hbd y hy).1, by have := (hbd y hy).2; omega⟩)
      ⟨rest.getLast hne, List.getLast_mem hne, h50⟩
    simp only [List.map_cons, runButton]
    rw [hstep] at this ⊢
    exact ⟨this.2.1, this.2.2, this.1⟩

theorem clean_press_confirms_once_witness :
    releasedStable.buttonState = HIGH ∧ lowRun press51 ∧ spanOf press51 = 51 ∧
    pressCount (runButton (press51.map Sample.read) releasedStable)
      = pressCount releasedStable + 1 ∧
    (runButton (press51.map Sample.read) releasedStable).currentPattern
      = (releasedStable.currentPattern + 1).tmod 20 ∧
    (runButton (press51.map Sample.read) releasedStable).buttonState = LOW :=
  ⟨rfl, by simp [lowRun, press51], by decide,
   clean_press_confirms_once press51 releasedStable rfl rfl (by simp [lowRun, press51])
     (by simp [timesAscend, press51]) (by decide) (by decide)⟩

/-- C5 as stated fails at the boundary: the button held down over two samples
exactly 50 ms apart, from a stable released state, confirms no press (the
elapsed time must exceed 50 ms). -/
theorem clean_press_50ms_counterexample :
    ¬ (∀ (xs : List Sample) (g : Globals),
        g.buttonState = HIGH → g.lastButtonState = HIGH → lowRun xs → timesAscend xs →
        50 ≤ spanOf xs → spanOf xs < 2 ^ 32 →
          pressCount (runButton (xs.map Sample.read) g) = pressCount g + 1) := by
  intro h
  have := h press50 releasedStable rfl rfl (by simp [lowRun, press50])
    (by simp [timesAscend, press50]) (by decide) (by decide)
  revert this
  decide

theorem sequentialOnOff_idle (sp : Int) (n n2 : Nat) (r : Relays) (st : SequentialOnOffStatics)
    (h : usub n st.lastChange < toULong sp) : sequentialOnOff sp n n2 r st = (r, st) := by
  unfold sequentialOnOff
  rw [if_neg (Nat.not_le.mpr h)]

theorem sequentialOnOff_lastChange (sp : Int) (n n2 : Nat) (r : Relays) (st : SequentialOnOffStatics)
    (h : usub n st.lastChange ≥ toULong sp) : (sequentialOnOff sp n n2 r st).2.lastChange = n2 := by
  unfold sequentialOnOff
  rw [if_pos h]


theorem alternating12_3_idle (sp : Int) (n n2 : Nat) (r : Relays) (st : ToggleStatics)
    (h : usub n st.lastChange < toULong sp) : alternating12_3 sp n n2 r st = (r, st) := by
  unfold alternating12_3
  rw [if_neg (Nat.not_le.mpr h)]

theorem alternating12_3_lastChange (sp : Int) (n n2 : Nat) (r : Relays) (st : ToggleStatics)
    (h : usub n st.lastChange ≥ toULong sp) : (alternating12_3 sp n n2 r st).2.lastChange = n2 := by
  unfold alternating12_3
  rw [if_pos h]
  simp only []
  split_ifs <;> rfl

theorem chase_idle (sp : Int) (n n2 : Nat) (r : Relays) (st : ChaseStatics)
    (h : usub n st.lastChange < toULong sp) : chase sp n n2 r st = (r, st) := by
  unfold chase
  rw [if_neg (Nat.not_le.mpr h)]

theorem chase_lastChange (sp : Int) (n n2 : Nat) (r : Relays) (st : ChaseStatics)
    (h : usub n st.lastChange ≥ toULong sp) : (chase sp n n2 r st).2.lastChange = n2 := by
  unfold chase
  rw [if_pos h]


theorem binaryCount_idle (sp : Int) (n n2 : Nat) (r : Relays) (st : BinaryCountStatics)
    (h : usub n st.lastChange < toULong sp) : binaryCount sp n n2 r st = (r, st) := by
  unfold binaryCount
  rw [if_neg (Nat.not_le.mpr h)]

theorem binaryCount_lastChange (sp : Int) (n n2 : Nat) (r : Relays) (st : BinaryCountStatics)
    (h : usub n st.lastChange ≥ toULong sp) : (binaryCount sp n n2 r st).2.lastChange = n2 := by
  unfold binaryCount
  rw [if_pos h]


theorem fadeSimulation_idle (sp : Int) (n n2 : Nat) (r : Relays) (st : FadeStatics)
    (h : usub n st.lastChange < toULong sp) : fadeSimulation sp n n2 r st = (r, st) := by
  unfold fadeSimulation
  rw [if_neg (Nat.not_le.mpr h)]

theorem fadeSimulation_lastChange (sp : Int) (n n2 : Nat) (r : Relays) (st : FadeStatics)
    (h : usub n st.lastChange ≥ toULong sp) : (fadeSimulation sp n n2 r st).2.lastChange = n2 := by
  unfold fadeSimulation
  rw [if_pos h]
  simp only []
  split_ifs <;> rfl

theorem alternating1_23_idle (sp : Int) (n n2 : Nat) (r : Relays) (st : ToggleStatics)
    (h : usub n st.lastChange < toULong sp) : alternating1_23 sp n n2 r st = (r, st) := by
  unfold alternating1_23
  rw [if_neg (Nat.not_le.mpr h)]

theorem alternating1_23_lastChange (sp : Int) (n n2 : Nat) (r : Relays) (st : ToggleStatics)
    (h : usub n st.lastChange ≥ toULong sp) : (alternating1_23 sp n n2 r st).2.lastChange = n2 := by
  unfold alternating1_23
  rw [if_pos h]
  simp only []
  split_ifs <;> rfl

theorem wavePattern_idle (sp : Int) (n n2 : Nat) (r : Relays) (st : WaveStatics)
    (h : usub n st.lastChange < toULong sp) : wavePattern sp n n2 r st = (r, st) := by
  unfold wavePattern
  rw [if_neg (Nat.not_le.mpr h)]

theorem wavePattern_lastChange (sp : Int) (n n2 : Nat) (r : Relays) (st : WaveStatics)
    (h : usub n st.lastChange ≥ toULong sp) : (wavePattern sp n n2 r st).2.lastChange = n2 := by
  unfold wavePattern
  rw [if_pos h]


theorem strobe_idle (sp : Int) (n n2 : Nat) (r : Relays) (st : ToggleStatics)
    (h : usub n st.lastChange < toULong sp) : strobe sp n n2 r st = (r, st) := by
  unfold strobe
  rw [if_neg (Nat.not_le.mpr h)]

theorem strobe_lastChange (sp : Int) (n n2 : Nat) (r : Relays) (st : ToggleStatics)
    (h : usub n st.lastChange ≥ toULong sp) : (strobe sp n n2 r st).2.lastChange = n2 := by
  unfold strobe
  rw [if_pos h]
  simp only []
  split_ifs <;> rfl

theorem cascade_idle (sp : Int) (n n2 : Nat) (r : Relays) (st : CascadeStatics)
    (h : usub n st.lastChange < toULong sp) : cascade sp n n2 r st = (r, st) := by
  unfold cascade
  rw [if_neg (Nat.not_le.mpr h)]

theorem cascade_lastChange (sp : Int) (n n2 : Nat) (r : Relays) (st : CascadeStatics)
    (h : usub n st.lastChange ≥ toULong sp) : (cascade sp n n2 r st).2.lastChange = n2 := by
  unfold cascade
  rw [if_pos h]


theorem alternatingPairs_idle (sp : Int) (n n2 : Nat) (r : Relays) (st : AlternatingPairsStatics)
    (h : usub n st.lastChange < toULong sp) : alternatingPairs sp n n2 r st = (r, st) := by
  unfold alternatingPairs
  rw [if_neg (Nat.not_le.mpr h)]

theorem alternatingPairs_lastChange (sp : Int) (n n2 : Nat) (r : Relays) (st : AlternatingPairsStatics)
    (h : usub n st.lastChange ≥ toULong sp) : (alternatingPairs sp n n2 r st).2.lastChange = n2 := by
  unfold alternatingPairs
  rw [if_pos h]


theorem sequentialPairs_idle (sp : Int) (n n2 : Nat) (r : Relays) (st : SequentialPairsStatics)
    (h : usub n st.lastChange < toULong sp) : sequentialPairs sp n n2 r st = (r, st) := by
  unfold sequentialPairs
  rw [if_neg (Nat.not_le.mpr h)]

theorem sequentialPairs_lastChange (sp : Int) (n n2 : Nat) (r : Relays) (st : SequentialPairsStatics)
    (h : usub n st.lastChange ≥ toULong sp) : (sequentialPairs sp n n2 r st).2.lastChange = n2 := by
  unfold sequentialPairs
  rw [if_pos h]


theorem randomBlink_idle (sp : Int) (n n2 : Nat) (r1 r2 r3 : Int) (r : Relays)
    (st : RandomBlinkStatics) (h : usub n st.lastChange < toULong sp) :
    randomBlink sp n n2 r1 r2 r3 r st = (r, st) := by
  unfold randomBlink
  rw [if_neg (Nat.not_le.mpr h)]

theorem randomBlink_lastChange (sp : Int) (n n2 : Nat) (r1 r2 r3 : Int) (r : Relays)
    (st : RandomBlinkStatics) (h : usub n st.lastChange ≥ toULong sp) :
    (randomBlink sp n n2 r1 r2 r3 r st).2.lastChange = n2 := by
  unfold randomBlink
  rw [if_pos h]

theorem heartbeat_idle (b : Int) (n n2 : Nat) (r : Relays) (st : HeartbeatStatics)
    (h : usub n st.lastChange < toULong st.currentDelay) : heartbeat b n n2 r st = (r, st) := by
  unfold heartbeat
  rw [if_neg (Nat.not_le.mpr h)]

theorem heartbeat_lastChange (b : Int) (n n2 : Nat) (r : Relays) (st : HeartbeatStatics)
    (h : usub n st.lastChange ≥ toULong st.currentDelay) :
    (heartbeat b n n2 r st).2.lastChange = n2 := by
  unfold heartbeat
  rw [if_pos h]
  simp only []
  split <;> rfl

theorem heartbeat60_delay_pos (n n2 : Nat) (r : Relays) (st : HeartbeatStatics)
    (h : 0 < toULong st.currentDelay) : 0 < toULong (heartbeat 60 n n2 r st).2.currentDelay := by
  unfold heartbeat
  split_ifs
  · simp only []
    split <;> first | exact h | (simp only []; decide)
  · exact h

theorem sameTwice_of {σ : Type} (step : Nat → Nat → Relays → σ → Relays × σ)
    (lastChange : σ → Nat) (interval : σ → Nat) (hidle : NoFlicker step lastChange interval)
    (hfire : ∀ (t : Nat) (r : Relays) (st : σ), 0 < interval st →
      usub t (lastChange st) ≥ interval st →
        lastChange (step t t r st).2 = t ∧ 0 < interval (step t t r st).2) :
    SameTwice step interval := by
  intro t r st hpos
  by_cases h : usub t (lastChange st) < interval st
  · rw [hidle t t r st h]
    exact hidle t t r st h
  · obtain ⟨h1, h2⟩ := hfire t r st hpos (Nat.le_of_not_lt h)
    exact hidle t t _ _ (by rw [h1, usub_self]; exact h2)

theorem lookup_sosStates_of_durations (i d : Int) (h : lookup sosDurations i = some d) :
    ∃ l, lookup sosStates i = some l := by
  apply lookup_some
  unfold lookup at h
  split_ifs at h with h0
  have := List.get?_eq_some.mp h
  obtain ⟨hlt, -⟩ := this
  have h18 : sosDurations.length = 18 := rfl
  have h18' : sosStates.length = 18 := rfl
  omega

theorem lookup_thunderSequence_of_timing (i d : Int) (h : lookup thunderTiming i = some d) :
    ∃ l, lookup thunderSequence i = some l := by
  apply lookup_some
  unfold lookup at h
  split_ifs at h with h0
  have := List.get?_eq_some.mp h
  obtain ⟨hlt, -⟩ := this
  have h13 : thunderTiming.length = 13 := rfl
  have h13' : thunderSequence.length = 13 := rfl
  omega

theorem lookup_range {α : Type} (tbl : List α) (i : Int) (v : α) (h : lookup tbl i = some v) :
    0 ≤ i ∧ i < tbl.length := by
  unfold lookup at h
  split_ifs at h with h0
  obtain ⟨hlt, -⟩ := List.get?_eq_some.mp h
  omega

theorem sosDurations_pos (i d : Int) (h : lookup sosDurations i = some d) : 0 < toULong d := by
  obtain ⟨h0, h1⟩ := lookup_range _ _ _ h
  have h18 : sosDurations.length = 18 := rfl
  rw [h18] at h1
  have h1' : i < 18 := by exact_mod_cast h1
  interval_cases i <;> (cases h; decide)

theorem thunderTiming_pos (i d : Int) (h : lookup thunderTiming i = some d) : 0 < toULong d := by
  obtain ⟨h0, h1⟩ := lookup_range _ _ _ h
  have h13 : thunderTiming.length = 13 := rfl
  rw [h13] at h1
  have h1' : i < 13 := by exact_mod_cast h1
  interval_cases i <;> (cases h; decide)

theorem morseCodeSOS_idle (n n2 : Nat) (r : Relays) (st : SosStatics) (d : Int)
    (hd : lookup sosDurations st.sosStep = some d) (h : usub n st.lastChange < toULong d) :
    morseCodeSOS n n2 r st = some (r, st) := by
  obtain ⟨l, hl⟩ := lookup_sosStates_of_durations _ _ hd
  rw [morseCodeSOS_eq n n2 r st d l hd hl, if_neg (Nat.not_le.mpr h)]

theorem thunderEffect_idle (n n2 : Nat) (r : Relays) (st : ThunderStatics) (d : Int)
    (hd : lookup thunderTiming st.thunderStep = some d) (h : usub n st.lastChange < toULong d) :
    thunderEffect n n2 r st = some (r, st) := by
  obtain ⟨l, hl⟩ := lookup_thunderSequence_of_timing _ _ hd
  rw [thunderEffect_eq n n2 r st d l hd hl, if_neg (Nat.not_le.mpr h)]

theorem morseCodeSOS_twice :
    SameTwiceTable morseCodeSOS (fun st => lookup sosDurations st.sosStep) := by
  intro t r st d hd
  have hd : lookup sosDurations st.sosStep = some d := hd
  obtain ⟨l, hl⟩ := lookup_sosStates_of_durations _ _ hd
  by_cases h : usub t st.lastChange < toULong d
  · exact ⟨(r, st), morseCodeSOS_idle t t r st d hd h, morseCodeSOS_idle t t r st d hd h⟩
  · have hrange := lookup_range _ _ _ hd
    have h18 : (sosDurations.length : Int) = 18 := rfl
    rw [h18] at hrange
    have hnext := tmod_succ_range st.sosStep 18 (by decide) hrange
    obtain ⟨d', hd'⟩ := lookup_some sosDurations ((st.sosStep + 1).tmod 18)
      (by rw [h18]; exact hnext)
    refine ⟨(if l then allOn r else allOff r,
      { lastChange := t, sosStep := (st.sosStep + 1).tmod 18 }), ?_, ?_⟩
    · rw [morseCodeSOS_eq t t r st d l hd hl, if_pos (Nat.le_of_not_lt h)]
    · exact morseCodeSOS_idle t t _ _ d' hd' (by
        simp only [usub_self]; exact sosDurations_pos _ _ hd')

theorem thunderEffect_twice :
    SameTwiceTable thunderEffect (fun st => lookup thunderTiming st.thunderStep) := by
  intro t r st d hd
  have hd : lookup thunderTiming st.thunderStep = some d := hd
  obtain ⟨l, hl⟩ := lookup_thunderSequence_of_timing _ _ hd
  by_cases h : usub t st.lastChange < toULong d
  · exact ⟨(r, st), thunderEffect_idle t t r st d hd h, thunderEffect_idle t t r st d hd h⟩
  · have hrange := lookup_range _ _ _ hd
    have h13 : (thunderTiming.length : Int) = 13 := rfl
    rw [h13] at hrange
    have hnext := tmod_succ_range st.thunderStep 13 (by decide) hrange
    obtain ⟨d', hd'⟩ := lookup_some thunderTiming ((st.thunderStep + 1).tmod 13)
      (by rw [h13]; exact hnext)
    refine ⟨(if l = 1 then allOn r else allOff r,
      { lastChange := t, thunderStep := (st.thunderStep + 1).tmod 13 }), ?_, ?_⟩
    · rw [thunderEffect_eq t t r st d l hd hl, if_pos (Nat.le_of_not_lt h)]
    · exact thunderEffect_idle t t _ _ d' hd' (by
        simp only [usub_self]; exact thunderTiming_pos _ _ hd')

/-- C7: each interval-gated step function (`sequentialOnOff`,
`alternating12_3`, `chase`, `binaryCount`, `fadeSimulation`, `alternating1_23`,
`wavePattern`, `strobe`, `cascade`, `alternatingPairs`, `sequentialPairs`,
`randomBlink`, `heartbeat`, `morseCodeSOS`, `thunderEffect`), called in any
state at a clock value whose unsigned elapsed time since its `lastChange` is
below its current interval, returns the relay pins and its statics unchanged;
and calling it twice at the same clock value gives what one call gives, the
interval being positive (`heartbeat` with the base 60 of the sketch). -/
theorem no_flicker_inside_interval :
    ((∀ sp : Int, NoFlicker (sequentialOnOff sp) (fun st => st.lastChange) (fun _ => toULong sp)) ∧
      (∀ sp : Int, NoFlicker (alternating12_3 sp) (fun st => st.lastChange) (fun _ => toULong sp)) ∧
      (∀ sp : Int, NoFlicker (chase sp) (fun st => st.lastChange) (fun _ => toULong sp)) ∧
      (∀ sp : Int, NoFlicker (binaryCount sp) (fun st => st.lastChange) (fun _ => toULong sp)) ∧
      (∀ sp : Int, NoFlicker (fadeSimulation sp) (fun st => st.lastChange) (fun _ => toULong sp)) ∧
      (∀ sp : Int, NoFlicker (alternating1_23 sp) (fun st => st.lastChange) (fun _ => toULong sp)) ∧
      (∀ sp : Int, NoFlicker (wavePattern sp) (fun st => st.lastChange) (fun _ => toULong sp)) ∧
      (∀ sp : Int, NoFlicker (strobe sp) (fun st => st.lastChange) (fun _ => toULong sp)) ∧
      (∀ sp : Int, NoFlicker (cascade sp) (fun st => st.lastChange) (fun _ => toULong sp)) ∧
      (∀ sp : Int, NoFlicker (alternatingPairs sp) (fun st => st.lastChange) (fun _ => toULong sp)) ∧
      (∀ sp : Int, NoFlicker (sequentialPairs sp) (fun st => st.lastChange) (fun _ => toULong sp)) ∧
      (∀ (sp r1 r2 r3 : Int),
        NoFlicker (fun now now2 => randomBlink sp now now2 r1 r2 r3) (fun st => st.lastChange)
          (fun _ => toULong sp)) ∧
      (∀ b : Int,
        NoFlicker (heartbeat b) (fun st => st.lastChange) (fun st => toULong st.currentDelay)) ∧
      NoFlickerTable morseCodeSOS (fun st => st.lastChange)
        (fun st => lookup sosDurations st.sosStep) ∧
      NoFlickerTable thunderEffect (fun st => st.lastChange)
        (fun st => lookup thunderTiming st.thunderStep)) ∧
    ((∀ sp : Int, SameTwice (sequentialOnOff sp) (fun _ => toULong sp)) ∧
      (∀ sp : Int, SameTwice (alternating12_3 sp) (fun _ => toULong sp)) ∧
      (∀ sp : Int, SameTwice (chase sp) (fun _ => toULong sp)) ∧
      (∀ sp : Int, SameTwice (binaryCount sp) (fun _ => toULong sp)) ∧
      (∀ sp : Int, SameTwice (fadeSimulation sp) (fun _ => toULong sp)) ∧
      (∀ sp : Int, SameTwice (alternating1_23 sp) (fun _ => toULong sp)) ∧
      (∀ sp : Int, SameTwice (wavePattern sp) (fun _ => toULong sp)) ∧
      (∀ sp : Int, SameTwice (strobe sp) (fun _ => toULong sp)) ∧
      (∀ sp : Int, SameTwice (cascade sp) (fun _ => toULong sp)) ∧
      (∀ sp : Int, SameTwice (alternatingPairs sp) (fun _ => toULong sp)) ∧
      (∀ sp : Int, SameTwice (sequentialPairs sp) (fun _ => toULong sp)) ∧
      (∀ (sp r1 r2 r3 : Int),
        SameTwice (fun now now2 => randomBlink sp now now2 r1 r2 r3) (fun _ => toULong sp)) ∧
      SameTwice (heartbeat 60) (fun st => toULong st.currentDelay) ∧
      SameTwiceTable morseCodeSOS (fun st => lookup sosDurations st.sosStep) ∧
      SameTwiceTable thunderEffect (fun st => lookup thunderTiming st.thunderStep)) :=
  ⟨⟨fun sp n n2 r st h => sequentialOnOff_idle sp n n2 r st h,
    fun sp n n2 r st h => alternating12_3_idle sp n n2 r st h,
    fun sp n n2 r st h => chase_idle sp n n2 r st h,
    fun sp n n2 r st h => binaryCount_idle sp n n2 r st h,
    fun sp n n2 r st h => fadeSimulation_idle sp n n2 r st h,
    fun sp n n2 r st h => alternating1_23_idle sp n n2 r st h,
    fun sp n n2 r st h => wavePattern_idle sp n n2 r st h,
    fun sp n n2 r st h => strobe_idle sp n n2 r st h,
    fun sp n n2 r st h => cascade_idle sp n n2 r st h,
    fun sp n n2 r st h => alternatingPairs_idle sp n n2 r st h,
    fun sp n n2 r st h => sequentialPairs_idle sp n n2 r st h,
    fun sp r1 r2 r3 n n2 r st h => randomBlink_idle sp n n2 r1 r2 r3 r st h,
    fun b n n2 r st h => heartbeat_idle b n n2 r st h,
    fun n n2 r st d hd h => morseCodeSOS_idle n n2 r st d hd h,
    fun n n2 r st d hd h => thunderEffect_idle n n2 r st d hd h⟩,
   ⟨fun sp => sameTwice_of _ (fun st => st.lastChange) _
        (fun n n2 r st h => sequentialOnOff_idle sp n n2 r st h)
        (fun t r st hp h => ⟨sequentialOnOff_lastChange sp t t r st h, hp⟩),
    fun sp => sameTwice_of _ (fun st => st.lastChange) _
        (fun n n2 r st h => alternating12_3_idle sp n n2 r st h)
        (fun t r st hp h => ⟨alternating12_3_lastChange sp t t r st h, hp⟩),
    fun sp => sameTwice_of _ (fun st => st.lastChange) _
        (fun n n2 r st h => chase_idle sp n n2 r st h)
        (fun t r st hp h => ⟨chase_lastChange sp t t r st h, hp⟩),
    fun sp => sameTwice_of _ (fun st => st.lastChange) _
        (fun n n2 r st h => binaryCount_idle sp n n2 r st h)
        (fun t r st hp h => ⟨binaryCount_lastChange sp t t r st h, hp⟩),
    fun sp => sameTwice_of _ (fun st => st.lastChange) _
        (fun n n2 r st h => fadeSimulation_idle sp n n2 r st h)
        (fun t r st hp h => ⟨fadeSimulation_lastChange sp t t r st h, hp⟩),
    fun sp => sameTwice_of _ (fun st => st.lastChange) _
        (fun n n2 r st h => alternating1_23_idle sp n n2 r st h)
        (fun t r st hp h => ⟨alternating1_23_lastChange sp t t r st h, hp⟩),
    fun sp => sameTwice_of _ (fun st => st.lastChange) _
        (fun n n2 r st h => wavePattern_idle sp n n2 r st h)
        (fun t r st hp h => ⟨wavePattern_lastChange sp t t r st h, hp⟩),
    fun sp => sameTwice_of _ (fun st => st.lastChange) _
        (fun n n2 r st h => strobe_idle sp n n2 r st h)
        (fun t r st hp h => ⟨strobe_lastChange sp t t r st h, hp⟩),
    fun sp => sameTwice_of _ (fun st => st.lastChange) _
        (fun n n2 r st h => cascade_idle sp n n2 r st h)
        (fun t r st hp h => ⟨cascade_lastChange sp t t r st h, hp⟩),
    fun sp => sameTwice_of _ (fun st => st.lastChange) _
        (fun n n2 r st h => alternatingPairs_idle sp n n2 r st h)
        (fun t r st hp h => ⟨alternatingPairs_lastChange sp t t r st h, hp⟩),
    fun sp => sameTwice_of _ (fun st => st.lastChange) _
        (fun n n2 r st h => sequentialPairs_idle sp n n2 r st h)
        (fun t r st hp h => ⟨sequentialPairs_lastChange sp t t r st h, hp⟩),
    fun sp r1 r2 r3 => sameTwice_of _ (fun st => st.lastChange) _
        (fun n n2 r st h => randomBlink_idle sp n n2 r1 r2 r3 r st h)
        (fun t r st hp h => ⟨randomBlink_lastChange sp t t r1 r2 r3 r st h, hp⟩),
    sameTwice_of _ (fun st => st.lastChange) _
        (fun n n2 r st h => heartbeat_idle 60 n n2 r st h)
        (fun t r st hp h => ⟨heartbeat_lastChange 60 t t r st h, heartbeat60_delay_pos t t r st hp⟩),
    morseCodeSOS_twice,
    thunderEffect_twice⟩⟩

theorem no_flicker_inside_interval_witness :
    usub 1499 1000 < toULong 500 ∧
    sequentialOnOff 500 1499 1499 onlyRelay2 { lastChange := 1000, sequence := 2 }
      = (onlyRelay2, { lastChange := 1000, sequence := 2 }) ∧
    morseCodeSOS 1199 1199 onlyRelay2 { lastChange := 1000, sosStep := 1 }
      = some (onlyRelay2, { lastChange := 1000, sosStep := 1 }) ∧
    heartbeat 60 5000 5000
        (heartbeat 60 5000 5000 onlyRelay2 { lastChange := 0, beatStep := 1, currentDelay := 60 }).1
        (heartbeat 60 5000 5000 onlyRelay2 { lastChange := 0, beatStep := 1, currentDelay := 60 }).2
      = heartbeat 60 5000 5000 onlyRelay2 { lastChange := 0, beatStep := 1, currentDelay := 60 } :=
  ⟨by decide,
   no_flicker_inside_interval.1.1 500 1499 1499 onlyRelay2 { lastChange := 1000, sequence := 2 }
     (by decide),
   no_flicker_inside_interval.1.2.2.2.2.2.2.2.2.2.2.2.2.2.1 1199 1199 onlyRelay2
     { lastChange := 1000, sosStep := 1 } 200 (by decide) (by decide),
   no_flicker_inside_interval.2.2.2.2.2.2.2.2.2.2.2.2.2.1 5000 onlyRelay2
     { lastChange := 0, beatStep := 1, currentDelay := 60 } (by decide)⟩

theorem sequentialOnOff_rewrites (sp : Int) (n n2 : Nat) (r r' : Relays)
    (st : SequentialOnOffStatics) (h : usub n st.lastChange ≥ toULong sp) :
    sequentialOnOff sp n n2 r st = sequentialOnOff sp n n2 r' st := by
  unfold sequentialOnOff
  rw [if_pos h, if_pos h]
  simp only []
  split <;> rfl

theorem chase_rewrites (sp : Int) (n n2 : Nat) (r r' : Relays)
    (st : ChaseStatics) (h : usub n st.lastChange ≥ toULong sp) :
    chase sp n n2 r st = chase sp n n2 r' st := by
  unfold chase
  rw [if_pos h, if_pos h]
  simp only []
  split <;> rfl

theorem alternating12_3_rewrites (sp : Int) (n n2 : Nat) (r r' : Relays)
    (st : ToggleStatics) (h : usub n st.lastChange ≥ toULong sp) :
    alternating12_3 sp n n2 r st = alternating12_3 sp n n2 r' st := by
  unfold alternating12_3
  rw [if_pos h, if_pos h]
  simp only []
  split <;> rfl

theorem alternating1_23_rewrites (sp : Int) (n n2 : Nat) (r r' : Relays)
    (st : ToggleStatics) (h : usub n st.lastChange ≥ toULong sp) :
    alternating1_23 sp n n2 r st = alternating1_23 sp n n2 r' st := by
  unfold alternating1_23
  rw [if_pos h, if_pos h]
  simp only []
  split <;> rfl

theorem strobe_rewrites (sp : Int) (n n2 : Nat) (r r' : Relays)
    (st : ToggleStatics) (h : usub n st.lastChange ≥ toULong sp) :
    strobe sp n n2 r st = strobe sp n n2 r' st := by
  unfold strobe
  rw [if_pos h, if_pos h]
  simp only []
  split <;> rfl

theorem randomBlink_rewrites (sp : Int) (n n2 : Nat) (r1 r2 r3 : Int) (r r' : Relays)
    (st : RandomBlinkStatics) (h : usub n st.lastChange ≥ toULong sp) :
    randomBlink sp n n2 r1 r2 r3 r st = randomBlink sp n n2 r1 r2 r3 r' st := by
  unfold randomBlink
  rw [if_pos h, if_pos h]
  rfl

theorem binaryCount_rewrites (sp : Int) (n n2 : Nat) (r r' : Relays)
    (st : BinaryCountStatics) (h : usub n st.lastChange ≥ toULong sp) :
    binaryCount sp n n2 r st = binaryCount sp n n2 r' st := by
  unfold binaryCount
  rw [if_pos h, if_pos h]
  rfl

theorem heartbeat_rewrites (b : Int) (n n2 : Nat) (r r' : Relays)
    (st : HeartbeatStatics) (h : usub n st.lastChange ≥ toULong st.currentDelay)
    (hr : 0 ≤ st.beatStep ∧ st.beatStep < 4) :
    heartbeat b n n2 r st = heartbeat b n n2 r' st := by
  unfold heartbeat
  rw [if_pos h, if_pos h]
  have : st.beatStep = 0 ∨ st.beatStep = 1 ∨ st.beatStep = 2 ∨ st.beatStep = 3 := by omega
  rcases this with h | h | h | h <;> simp only [h] <;> rfl

theorem fadeSimulation_rewrites (sp : Int) (n n2 : Nat) (r r' : Relays)
    (st : FadeStatics) (h : usub n st.lastChange ≥ toULong sp)
    (hr : 0 ≤ st.fadeStep ∧ st.fadeStep ≤ 2) :
    fadeSimulation sp n n2 r st = fadeSimulation sp n n2 r' st := by
  unfold fadeSimulation
  rw [if_pos h, if_pos h]
  have : st.fadeStep = 0 ∨ st.fadeStep = 1 ∨ st.fadeStep = 2 := by omega
  rcases this with h | h | h <;> simp only [h] <;> rfl

theorem wavePattern_rewrites (sp : Int) (n n2 : Nat) (r r' : Relays)
    (st : WaveStatics) (h : usub n st.lastChange ≥ toULong sp)
    (hr : 0 ≤ st.waveStep ∧ st.waveStep < 6) :
    wavePattern sp n n2 r st = wavePattern sp n n2 r' st := by
  unfold wavePattern
  rw [if_pos h, if_pos h]
  have : st.waveStep = 0 ∨ st.waveStep = 1 ∨ st.waveStep = 2 ∨ st.waveStep = 3 ∨
      st.waveStep = 4 ∨ st.waveStep = 5 := by omega
  rcases this with h | h | h | h | h | h <;> simp only [h] <;> rfl

theorem cascade_rewrites (sp : Int) (n n2 : Nat) (r r' : Relays)
    (st : CascadeStatics) (h : usub n st.lastChange ≥ toULong sp)
    (hr : 0 ≤ st.step ∧ st.step < 6) :
    cascade sp n n2 r st = cascade sp n n2 r' st := by
  unfold cascade
  rw [if_pos h, if_pos h]
  have : st.step = 0 ∨ st.step = 1 ∨ st.step = 2 ∨ st.step = 3 ∨
      st.step = 4 ∨ st.step = 5 := by omega
  rcases this with h | h | h | h | h | h <;> simp only [h] <;> rfl

theorem alternatingPairs_rewrites (sp : Int) (n n2 : Nat) (r r' : Relays)
    (st : AlternatingPairsStatics) (h : usub n st.lastChange ≥ toULong sp)
    (hr : 0 ≤ st.pairStep ∧ st.pairStep < 3) :
    alternatingPairs sp n n2 r st = alternatingPairs sp n n2 r' st := by
  unfold alternatingPairs
  rw [if_pos h, if_pos h]
  have : st.pairStep = 0 ∨ st.pairStep = 1 ∨ st.pairStep = 2 := by omega
  rcases this with h | h | h <;> simp only [h] <;> rfl

theorem sequentialPairs_rewrites (sp : Int) (n n2 : Nat) (r r' : Relays)
    (st : SequentialPairsStatics) (h : usub n st.lastChange ≥ toULong sp)
    (hr : 0 ≤ st.seqStep ∧ st.seqStep < 3) :
    sequentialPairs sp n n2 r st = sequentialPairs sp n n2 r' st := by
  unfold sequentialPairs
  rw [if_pos h, if_pos h]
  have : st.seqStep = 0 ∨ st.seqStep = 1 ∨ st.seqStep = 2 := by omega
  rcases this with h | h | h <;> simp only [h] <;> rfl

theorem fireflyEffect_rewrites (a b c d : Arr3 Nat) (r r' : Relays) (st : FireflyStatics) :
    fireflyEffect a b c d r st = fireflyEffect a b c d r' st := rfl

theorem morseCodeSOS_rewrites (n n2 : Nat) (r r' : Relays) (st : SosStatics) (d : Int)
    (hd : lookup sosDurations st.sosStep = some d) (h : usub n st.lastChange ≥ toULong d) :
    ∃ x, morseCodeSOS n n2 r st = some x ∧ morseCodeSOS n n2 r' st = some x := by
  obtain ⟨l, hl⟩ := lookup_sosStates_of_durations _ _ hd
  rw [morseCodeSOS_eq n n2 r st d l hd hl, morseCodeSOS_eq n n2 r' st d l hd hl,
    if_pos h, if_pos h]
  cases l <;> exact ⟨_, rfl, rfl⟩

theorem thunderEffect_rewrites (n n2 : Nat) (r r' : Relays) (st : ThunderStatics) (d : Int)
    (hd : lookup thunderTiming st.thunderStep = some d) (h : usub n st.lastChange ≥ toULong d) :
    ∃ x, thunderEffect n n2 r st = some x ∧ thunderEffect n n2 r' st = some x := by
  obtain ⟨l, hl⟩ := lookup_thunderSequence_of_timing _ _ hd
  rw [thunderEffect_eq n n2 r st d l hd hl, thunderEffect_eq n n2 r' st d l hd hl,
    if_pos h, if_pos h]
  by_cases h1 : l = 1
  · rw [if_pos h1, if_pos h1]; exact ⟨_, rfl, rfl⟩
  · rw [if_neg h1, if_neg h1]; exact ⟨_, rfl, rfl⟩

/-- C8: in a state whose step counters are in range (every reachable state is
one), when the step of the current pattern fires, the resulting state does not
depend on the relay outputs before the step: the same step from the state with
any other relay outputs returns the same state, relay outputs included. -/
theorem fired_step_rewrites_all_relays :
    (∀ (s : State) (p : PatternInput) (rel : Relays), StepsInRange s → patternDue p s →
      ∃ s1, runPattern p s = some s1 ∧ runPattern p { s with relays := rel } = some s1) ∧
    (∀ s : State, Reachable s → StepsInRange s) := by
  refine ⟨?_, reachable_stepsInRange⟩
  intro s p rel hr hdue
  unfold patternDue at hdue
  unfold runPattern
  split at hdue <;> first | exact absurd hdue id | (rename_i hc; simp only [hc])
  · exact ⟨_, rfl, rfl⟩
  · exact ⟨_, rfl, rfl⟩
  · exact ⟨_, rfl, by rw [sequentialOnOff_rewrites 500 p.now p.now2 rel s.relays _ hdue]⟩
  · exact ⟨_, rfl, by rw [alternating12_3_rewrites 800 p.now p.now2 rel s.relays _ hdue]⟩
  · exact ⟨_, rfl, by rw [chase_rewrites 1000 p.now p.now2 rel s.relays _ hdue]⟩
  · exact ⟨_, rfl, by rw [chase_rewrites 250 p.now p.now2 rel s.relays _ hdue]⟩
  · exact ⟨_, rfl, by rw [randomBlink_rewrites 300 p.now p.now2 p.r1 p.r2 p.r3 rel s.relays _ hdue]⟩
  · exact ⟨_, rfl, by rw [heartbeat_rewrites 60 p.now p.now2 rel s.relays _ hdue hr.beatStep]⟩
  · exact ⟨_, rfl, by rw [binaryCount_rewrites 500 p.now p.now2 rel s.relays _ hdue]⟩
  · exact ⟨_, rfl, by rw [fadeSimulation_rewrites 100 p.now p.now2 rel s.relays _ hdue hr.fadeStep]⟩
  · exact ⟨_, rfl, by rw [alternating1_23_rewrites 700 p.now p.now2 rel s.relays _ hdue]⟩
  · exact ⟨_, rfl, by rw [wavePattern_rewrites 300 p.now p.now2 rel s.relays _ hdue hr.waveStep]⟩
  · obtain ⟨d, hd, hge⟩ := hdue
    obtain ⟨x, h1, h2⟩ := morseCodeSOS_rewrites p.now p.now2 s.relays rel _ d hd hge
    exact ⟨_, by rw [h1]; rfl, by rw [h2]; rfl⟩
  · exact ⟨_, rfl, by rw [strobe_rewrites 400 p.now p.now2 rel s.relays _ hdue]⟩
  · exact ⟨_, rfl, by rw [strobe_rewrites 100 p.now p.now2 rel s.relays _ hdue]⟩
  · exact ⟨_, rfl, by rw [cascade_rewrites 300 p.now p.now2 rel s.relays _ hdue hr.step]⟩
  · exact ⟨_, rfl, rfl⟩
  · exact ⟨_, rfl, by rw [alternatingPairs_rewrites 600 p.now p.now2 rel s.relays _ hdue hr.pairStep]⟩
  · obtain ⟨d, hd, hge⟩ := hdue
    obtain ⟨x, h1, h2⟩ := thunderEffect_rewrites p.now p.now2 s.relays rel _ d hd hge
    exact ⟨_, by rw [h1]; rfl, by rw [h2]; rfl⟩
  · exact ⟨_, rfl, by rw [sequentialPairs_rewrites 500 p.now p.now2 rel s.relays _ hdue hr.seqStep]⟩

theorem fired_step_rewrites_all_relays_witness :
    patternDue (patternAt 700) (atPattern 11) ∧
    (∃ s1, runPattern (patternAt 700) (atPattern 11) = some s1 ∧
      runPattern (patternAt 700) { atPattern 11 with relays := onlyRelay2 } = some s1) ∧
    StepsInRange (initState 0) :=
  ⟨by show usub 700 0 ≥ toULong 300; decide,
   fired_step_rewrites_all_relays.1 (atPattern 11) (patternAt 700) onlyRelay2
     (by constructor <;> decide) (by show usub 700 0 ≥ toULong 300; decide),
   fired_step_rewrites_all_relays.2 (initState 0) (Reachable.init 0)⟩

/-- C9, as the code has it: from the initial statics (`lastChange = 0`,
`sequence = 0`) and any relay outputs, of the calls `sequentialOnOff(500)` at
clock values 0, 500, 1000, 1500, 2000 the one at 0 does not fire (elapsed 0 is
below 500) and leaves the relays as they were; after each of the calls at 500,
1000, 1500, 2000 exactly one relay is on, with index 0, 1, 2, 0. -/
theorem sequentialOnOff_samples_from_500 (r : Relays) :
    sequentialOnOff 500 0 0 r { lastChange := 0, sequence := 0 }
      = (r, { lastChange := 0, sequence := 0 }) ∧
    (sampleSequentialOnOff [0, 500, 1000, 1500, 2000] r { lastChange := 0, sequence := 0 }).tail.map
      relaysOn = [[0], [1], [2], [0]] := by
  refine ⟨rfl, ?_⟩
  rcases r with ⟨a, b, c⟩
  cases a <;> cases b <;> cases c <;> decide

/-- C9 as stated fails: from the state after `setup()` the call at clock value
0 does not fire, so sampling at 0, 500, 1000, 1500 shows no relay on, then
relay index 0, 1, 2, not 0, 1, 2, 0. -/
theorem sequentialOnOff_samples_counterexample :
    (sampleSequentialOnOff [0, 500, 1000, 1500] (initState 0).relays
        (initState 0).sequentialOnOffS).map relaysOn = [[], [0], [1], [2]] ∧
    (sampleSequentialOnOff [0, 500, 1000, 1500] (initState 0).relays
        (initState 0).sequentialOnOffS).map relaysOn ≠ [[0], [1], [2], [0]] := by
  constructor <;> decide

theorem binaryCount_fired (sp : Int) (n n2 : Nat) (r : Relays) (st : BinaryCountStatics)
    (h : usub n st.lastChange ≥ toULong sp) :
    binaryCount sp n n2 r st =
      ({ out1 := if Int.land st.counter 1 ≠ 0 then LOW else HIGH
         out2 := if Int.land st.counter 2 ≠ 0 then LOW else HIGH
         out3 := if Int.land st.counter 4 ≠ 0 then LOW else HIGH },
       { lastChange := n2, counter := (st.counter + 1).tmod 8 }) := by
  unfold binaryCount
  rw [if_pos h]
  rfl

theorem land_bits (k : Int) (h : 0 ≤ k ∧ k ≤ 7) :
    (Int.land k 1 ≠ 0 ↔ k % 2 = 1) ∧ (Int.land k 2 ≠ 0 ↔ k / 2 % 2 = 1) ∧
      (Int.land k 4 ≠ 0 ↔ k / 4 % 2 = 1) := by
  obtain ⟨h0, h7⟩ := h
  interval_cases k <;> decide

theorem shownValue_bits (k : Int) (h : 0 ≤ k ∧ k ≤ 7) :
    shownValue { out1 := if Int.land k 1 ≠ 0 then LOW else HIGH
                 out2 := if Int.land k 2 ≠ 0 then LOW else HIGH
                 out3 := if Int.land k 4 ≠ 0 then LOW else HIGH } = k.toNat := by
  obtain ⟨h0, h7⟩ := h
  interval_cases k <;> decide

theorem sampleBinaryCount_shows (sp : Int) (ts : List (Nat × Nat)) (r : Relays)
    (st : BinaryCountStatics) (hk : 0 ≤ st.counter ∧ st.counter ≤ 7)
    (hf : binaryCountFires sp ts st) :
    (sampleBinaryCount sp ts r st).map shownValue =
      (List.range ts.length).map (fun j => (st.counter.toNat + j) % 8) := by
  induction ts generalizing r st with
  | nil => rfl
  | cons t ts ih =>
    obtain ⟨h1, h2⟩ := hf
    have hr1 := binaryCount_fired sp t.1 t.2 r st h1
    have hr2 := binaryCount_fired sp t.1 t.2 onlyRelay2 st h1
    rw [hr2] at h2
    have hnext := tmod_succ st.counter 8 hk.1 (by decide)
    simp only [sampleBinaryCount, List.map_cons, List.length_cons, List.range_succ_eq_map]
    rw [hr1]
    simp only []
    rw [shownValue_bits st.counter hk, ih _ _ (by simp only []; omega) h2]
    simp only [List.map_map, add_zero]
    refine congrArg₂ _ ?_ ?_
    · omega
    · apply List.map_congr_left
      intro j _
      simp only [Function.comp]
      have : ((st.counter + 1).tmod 8).toNat = (st.counter.toNat + 1) % 8 := by
        rw [hnext.1]; omega
      rw [this]
      omega

/-- C10: when `binaryCount` fires with `counter = k`, `0 ≤ k ≤ 7`, it leaves
relay 1 on (output LOW) iff bit 0 of `k` is set, relay 2 on iff bit 1 is set,
relay 3 on iff bit 2 is set, every other output HIGH, and `counter = (k + 1)
mod 8`; so consecutive fired steps show `k, k + 1, …` modulo 8, and 8 of them
from `counter = 0` show 0, 1, …, 7 in this order. -/
theorem binaryCount_shows_counter :
    (∀ (sp : Int) (n n2 : Nat) (r : Relays) (st : BinaryCountStatics),
      usub n st.lastChange ≥ toULong sp → 0 ≤ st.counter → st.counter ≤ 7 →
        ((binaryCount sp n n2 r st).1.out1 = LOW ↔ st.counter % 2 = 1) ∧
        ((binaryCount sp n n2 r st).1.out2 = LOW ↔ st.counter / 2 % 2 = 1) ∧
        ((binaryCount sp n n2 r st).1.out3 = LOW ↔ st.counter / 4 % 2 = 1) ∧
        shownValue (binaryCount sp n n2 r st).1 = st.counter.toNat ∧
        (binaryCount sp n n2 r st).2.counter = (st.counter + 1) % 8) ∧
    (∀ (sp : Int) (ts : List (Nat × Nat)) (r : Relays) (st : BinaryCountStatics),
      st.counter = 0 → ts.length = 8 → binaryCountFires sp ts st →
        (sampleBinaryCount sp ts r st).map shownValue = [0, 1, 2, 3, 4, 5, 6, 7]) := by
  refine ⟨?_, ?_⟩
  · intro sp n n2 r st hf h0 h7
    rw [binaryCount_fired sp n n2 r st hf]
    obtain ⟨b0, b1, b2⟩ := land_bits st.counter ⟨h0, h7⟩
    refine ⟨?_, ?_, ?_, shownValue_bits st.counter ⟨h0, h7⟩, (tmod_succ _ 8 h0 (by decide)).1⟩
    · rw [← b0]; simp only []; split_ifs <;> simp_all
    · rw [← b1]; simp only []; split_ifs <;> simp_all
    · rw [← b2]; simp only []; split_ifs <;> simp_all
  · intro sp ts r st hc hlen hf
    rw [sampleBinaryCount_shows sp ts r st (by omega) hf, hlen, hc]
    rfl

theorem binaryCount_shows_counter_witness :
    binaryCountFires 500
      [(500, 500), (1000, 1000), (1500, 1500), (2000, 2000), (2500, 2501), (3001, 3001),
       (3501, 3501), (4001, 4001)] (initState 0).binaryCountS ∧
    (sampleBinaryCount 500
      [(500, 500), (1000, 1000), (1500, 1500), (2000, 2000), (2500, 2501), (3001, 3001),
       (3501, 3501), (4001, 4001)] (initState 0).relays (initState 0).binaryCountS).map shownValue
      = [0, 1, 2, 3, 4, 5, 6, 7] ∧
    (((binaryCount 500 700 700 onlyRelay2 { lastChange := 100, counter := 5 }).1.out1 = LOW
        ↔ (5 : Int) % 2 = 1) ∧
     ((binaryCount 500 700 700 onlyRelay2 { lastChange := 100, counter := 5 }).1.out2 = LOW
        ↔ (5 : Int) / 2 % 2 = 1) ∧
     ((binaryCount 500 700 700 onlyRelay2 { lastChange := 100, counter := 5 }).1.out3 = LOW
        ↔ (5 : Int) / 4 % 2 = 1) ∧
     shownValue (binaryCount 500 700 700 onlyRelay2 { lastChange := 100, counter := 5 }).1
        = (5 : Int).toNat ∧
     (binaryCount 500 700 700 onlyRelay2 { lastChange := 100, counter := 5 }).2.counter
        = (5 + 1) % 8) :=
  ⟨by simp only [binaryCountFires, and_true]; decide,
   binaryCount_shows_counter.2 500 _ _ _ rfl rfl (by simp only [binaryCountFires, and_true]; decide),
   binaryCount_shows_counter.1 500 700 700 onlyRelay2 { lastChange := 100, counter := 5 }
     (by decide) (by decide) (by decide)⟩

theorem allOn_eq (r : Relays) : allOn r = allRelaysOn := rfl

theorem allOff_eq (r : Relays) : allOff r = allRelaysOff := rfl

theorem morseCodeSOS_fired (n n2 : Nat) (r : Relays) (st : SosStatics) (d : Int) (lit : Bool)
    (hd : lookup sosDurations st.sosStep = some d) (hl : lookup sosStates st.sosStep = some lit)
    (h : usub n st.lastChange ≥ toULong d) :
    morseCodeSOS n n2 r st =
      some (if lit then allRelaysOn else allRelaysOff,
            { lastChange := n2, sosStep := (st.sosStep + 1).tmod 18 }) := by
  rw [morseCodeSOS_eq n n2 r st d lit hd hl, if_pos h]
  cases lit <;> rfl

theorem sosStates_alternate (i : Int) (h : 0 ≤ i ∧ i < 18) :
    ∃ b, lookup sosStates i = some b ∧ lookup sosStates ((i + 1).tmod 18) = some (!b) := by
  obtain ⟨h0, h1⟩ := h
  interval_cases i <;> exact ⟨_, rfl, rfl⟩

theorem sosGates_cycle (i : Int) (h : 0 ≤ i ∧ i < 18) :
    sumEntries (sosGates 18 i) = some 6800 := by
  obtain ⟨h0, h1⟩ := h
  interval_cases i <;> rfl


theorem toULong_lt (x : Int) : toULong x < 2 ^ 32 := by
  unfold toULong ulongRange
  have h := Int.emod_lt_of_pos x (show (0 : Int) < ((2 ^ 32 : Nat) : Int) by decide)
  have h0 := Int.emod_nonneg x (show (((2 ^ 32 : Nat) : Int)) ≠ 0 by decide)
  omega

theorem sosDurations_le (i d : Int) (h : lookup sosDurations i = some d) : toULong d ≤ 1400 := by
  obtain ⟨h0, h1⟩ := lookup_range _ _ _ h
  have h18 : sosDurations.length = 18 := rfl
  rw [h18] at h1
  have h1' : i < 18 := by exact_mod_cast h1
  interval_cases i <;> (cases h; decide)

/-- Polling from `e` ms after `lastChange` finds the step firing exactly when
the elapsed time reaches the entry of `durations` at the current step. -/
theorem sosEarliestFire_eq (fuel e : Nat) (r : Relays) (st : SosStatics) (d : Int) (lit : Bool)
    (hd : lookup sosDurations st.sosStep = some d) (hl : lookup sosStates st.sosStep = some lit)
    (he : e ≤ toULong d) (hfuel : toULong d < e + fuel) :
    sosEarliestFire fuel e r st =
      some (toULong d, if lit then allRelaysOn else allRelaysOff,
            { lastChange := (st.lastChange + toULong d) % 2 ^ 32
              sosStep := (st.sosStep + 1).tmod 18 }) := by
  induction fuel generalizing e with
  | zero => omega
  | succ fuel ih =>
    have hrange := lookup_range _ _ _ hd
    have h18 : (sosDurations.length : Int) = 18 := rfl
    rw [h18] at hrange
    have hlt := toULong_lt d
    unfold sosEarliestFire
    by_cases hed : e = toULong d
    · have hu : usub ((st.lastChange + e) % 2 ^ 32) st.lastChange ≥ toULong d := by
        rw [usub_add_mod _ _ (by omega)]; omega
      rw [morseCodeSOS_fired _ _ r st d lit hd hl hu]
      have hne : (st.sosStep + 1).tmod 18 ≠ st.sosStep := by
        rw [(tmod_succ st.sosStep 18 hrange.1 (by decide)).1]; omega
      simp only [ne_eq, hne, not_false_eq_true, if_true, hed]
    · have hu : usub ((st.lastChange + e) % 2 ^ 32) st.lastChange < toULong d := by
        rw [usub_add_mod _ _ (by omega)]; omega
      rw [morseCodeSOS_idle _ _ r st d hd hu]
      simp only [ne_eq, not_true_eq_false, if_false]
      exact ih (e + 1) (by omega) (by omega)

theorem sosCycleTime_eq (k : Nat) (r : Relays) (st : SosStatics)
    (h : 0 ≤ st.sosStep ∧ st.sosStep < 18) :
    ∃ r' st', sosCycleTime k r st = some (sosGateSum k st.sosStep, r', st') ∧
      st'.sosStep = sosStepAfter k st.sosStep ∧
      st'.lastChange % 2 ^ 32 = (st.lastChange + sosGateSum k st.sosStep) % 2 ^ 32 := by
  induction k generalizing r st with
  | zero => exact ⟨r, st, rfl, rfl, rfl⟩
  | succ k ih =>
    obtain ⟨d, hd⟩ := lookup_some sosDurations st.sosStep h
    obtain ⟨lit, hl⟩ := lookup_some sosStates st.sosStep h
    have hle := sosDurations_le _ _ hd
    have hfire := sosEarliestFire_eq 2000 0 r st d lit hd hl (Nat.zero_le _) (by omega)
    have hnext := tmod_succ_range st.sosStep 18 (by decide) h
    obtain ⟨r', st', hrun, hstep, hlc⟩ := ih (if lit then allRelaysOn else allRelaysOff)
      { lastChange := (st.lastChange + toULong d) % 2 ^ 32
        sosStep := (st.sosStep + 1).tmod 18 } hnext
    refine ⟨r', st', ?_, ?_, ?_⟩
    · simp only [sosCycleTime, hfire, hrun, sosGateSum, hd]
    · simp only [sosStepAfter]; exact hstep
    · simp only [sosGateSum, hd]
      rw [hlc]
      simp only []
      omega

theorem sosGateSum_cycle (i : Int) (h : 0 ≤ i ∧ i < 18) :
    sosGateSum 18 i = 6800 ∧ sosStepAfter 18 i = i := by
  obtain ⟨h0, h1⟩ := h
  interval_cases i <;> exact ⟨by decide, by decide⟩

/-- C11: a fired step of `morseCodeSOS` at step `i` leaves the three relays all
on when `states[i]` is true and all off otherwise, never a partial
combination, and moves to step `(i + 1) mod 18`; two consecutive fired steps
write opposite states, also from step 17 to step 0. The step at `i` fires
exactly when the elapsed time has reached `durations[i]`: below it the call
changes nothing, and polling the function every millisecond finds it firing
after `durations[i]` ms; so 18 consecutive steps, polled this way from any
step, take 6800 ms in total, the sum of the table `durations`, and end at the
step they started from. -/
theorem sos_all_on_all_off_alternating :
    (∀ (n n2 : Nat) (r : Relays) (st : SosStatics) (d : Int) (lit : Bool),
      lookup sosDurations st.sosStep = some d → lookup sosStates st.sosStep = some lit →
      usub n st.lastChange ≥ toULong d →
        morseCodeSOS n n2 r st =
          some (if lit then allRelaysOn else allRelaysOff,
                { lastChange := n2, sosStep := (st.sosStep + 1).tmod 18 })) ∧
    (∀ (n n2 m m2 : Nat) (r : Relays) (st : SosStatics) (d e : Int),
      lookup sosDurations st.sosStep = some d → usub n st.lastChange ≥ toULong d →
      lookup sosDurations ((st.sosStep + 1).tmod 18) = some e → usub m n2 ≥ toULong e →
        ∃ x y, morseCodeSOS n n2 r st = some x ∧ morseCodeSOS m m2 x.1 x.2 = some y ∧
          ((x.1 = allRelaysOn ∧ y.1 = allRelaysOff) ∨
           (x.1 = allRelaysOff ∧ y.1 = allRelaysOn))) ∧
    (lookup sosStates 17 = some false ∧ lookup sosStates 0 = some true) ∧
    (∀ i : Int, 0 ≤ i → i < 18 → sumEntries (sosGates 18 i) = some 6800) ∧
    sosDurations.sum = 6800 ∧
    (∀ (n n2 : Nat) (r : Relays) (st : SosStatics) (d : Int),
      lookup sosDurations st.sosStep = some d → usub n st.lastChange < toULong d →
        morseCodeSOS n n2 r st = some (r, st)) ∧
    (∀ (r : Relays) (st : SosStatics) (d : Int) (lit : Bool),
      lookup sosDurations st.sosStep = some d → lookup sosStates st.sosStep = some lit →
        sosEarliestFire 2000 0 r st =
          some (toULong d, if lit then allRelaysOn else allRelaysOff,
                { lastChange := (st.lastChange + toULong d) % 2 ^ 32
                  sosStep := (st.sosStep + 1).tmod 18 })) ∧
    (∀ (r : Relays) (st : SosStatics), 0 ≤ st.sosStep → st.sosStep < 18 →
      ∃ r' st', sosCycleTime 18 r st = some (6800, r', st') ∧
        st'.sosStep = st.sosStep ∧
        st'.lastChange % 2 ^ 32 = (st.lastChange + 6800) % 2 ^ 32) := by
  refine ⟨morseCodeSOS_fired, ?_, ⟨rfl, rfl⟩, fun i h0 h1 => sosGates_cycle i ⟨h0, h1⟩, rfl,
    morseCodeSOS_idle, ?_, ?_⟩
  · intro n n2 m m2 r st d e hd hf he hf2
    have hrange := lookup_range _ _ _ hd
    have h18 : (sosDurations.length : Int) = 18 := rfl
    rw [h18] at hrange
    obtain ⟨b, hb, hb'⟩ := sosStates_alternate st.sosStep hrange
    refine ⟨_, _, morseCodeSOS_fired n n2 r st d b hd hb hf,
      morseCodeSOS_fired m m2 _ _ e (!b) he hb' hf2, ?_⟩
    cases b
    · exact Or.inr ⟨rfl, rfl⟩
    · exact Or.inl ⟨rfl, rfl⟩
  · intro r st d lit hd hl
    have hle := sosDurations_le _ _ hd
    exact sosEarliestFire_eq 2000 0 r st d lit hd hl (Nat.zero_le _) (by omega)
  · intro r st h0 h1
    obtain ⟨r', st', hrun, hstep, hlc⟩ := sosCycleTime_eq 18 r st ⟨h0, h1⟩
    obtain ⟨hsum, hafter⟩ := sosGateSum_cycle st.sosStep ⟨h0, h1⟩
    rw [hsum] at hrun hlc
    rw [hafter] at hstep
    exact ⟨r', st', hrun, hstep, hlc⟩

theorem sos_all_on_all_off_alternating_witness :
    (morseCodeSOS 9000 9000 onlyRelay2 { lastChange := 7000, sosStep := 17 }
        = some (if false then allRelaysOn else allRelaysOff,
                { lastChange := 9000, sosStep := ((17 : Int) + 1).tmod 18 })) ∧
    (∃ x y, morseCodeSOS 9000 9000 onlyRelay2 { lastChange := 7000, sosStep := 17 } = some x ∧
        morseCodeSOS 9200 9200 x.1 x.2 = some y ∧
        ((x.1 = allRelaysOn ∧ y.1 = allRelaysOff) ∨
         (x.1 = allRelaysOff ∧ y.1 = allRelaysOn))) ∧
    sumEntries (sosGates 18 5) = some 6800 ∧
    morseCodeSOS 8399 8399 onlyRelay2 { lastChange := 7000, sosStep := 17 }
      = some (onlyRelay2, { lastChange := 7000, sosStep := 17 }) ∧
    sosEarliestFire 2000 0 onlyRelay2 { lastChange := 7000, sosStep := 17 }
      = some (toULong 1400, if false then allRelaysOn else allRelaysOff,
              { lastChange := (7000 + toULong 1400) % 2 ^ 32
                sosStep := ((17 : Int) + 1).tmod 18 }) ∧
    (∃ r' st', sosCycleTime 18 (initState 0).relays (initState 0).morseCodeSOSS
        = some (6800, r', st') ∧
      st'.sosStep = (initState 0).morseCodeSOSS.sosStep ∧
      st'.lastChange % 2 ^ 32 = ((initState 0).morseCodeSOSS.lastChange + 6800) % 2 ^ 32) :=
  ⟨sos_all_on_all_off_alternating.1 9000 9000 onlyRelay2 { lastChange := 7000, sosStep := 17 }
      1400 false (by decide) (by decide) (by decide),
   sos_all_on_all_off_alternating.2.1 9000 9000 9200 9200 onlyRelay2
      { lastChange := 7000, sosStep := 17 } 1400 200 (by decide) (by decide) (by decide)
      (by decide),
   sos_all_on_all_off_alternating.2.2.2.1 5 (by decide) (by decide),
   sos_all_on_all_off_alternating.2.2.2.2.2.1 8399 8399 onlyRelay2
      { lastChange := 7000, sosStep := 17 } 1400 (by decide) (by decide),
   sos_all_on_all_off_alternating.2.2.2.2.2.2.1 onlyRelay2
      { lastChange := 7000, sosStep := 17 } 1400 false (by decide) (by decide),
   sos_all_on_all_off_alternating.2.2.2.2.2.2.2 (initState 0).relays
      (initState 0).morseCodeSOSS (by decide) (by decide)⟩


/-- A pattern step leaves alone the statics of every function but the one it
calls. -/
theorem runPattern_frame (p : PatternInput) (s s' : State) (h : runPattern p s = some s') :
    (s.globals.currentPattern ≠ 2 → s'.sequentialOnOffS = s.sequentialOnOffS) ∧
    (s.globals.currentPattern ≠ 3 → s'.alternating12_3S = s.alternating12_3S) ∧
    (s.globals.currentPattern ≠ 4 → s.globals.currentPattern ≠ 5 → s'.chaseS = s.chaseS) ∧
    (s.globals.currentPattern ≠ 6 → s'.randomBlinkS = s.randomBlinkS) ∧
    (s.globals.currentPattern ≠ 7 → s'.heartbeatS = s.heartbeatS) ∧
    (s.globals.currentPattern ≠ 8 → s'.binaryCountS = s.binaryCountS) ∧
    (s.globals.currentPattern ≠ 9 → s'.fadeSimulationS = s.fadeSimulationS) ∧
    (s.globals.currentPattern ≠ 10 → s'.alternating1_23S = s.alternating1_23S) ∧
    (s.globals.currentPattern ≠ 11 → s'.wavePatternS = s.wavePatternS) ∧
    (s.globals.currentPattern ≠ 12 → s'.morseCodeSOSS = s.morseCodeSOSS) ∧
    (s.globals.currentPattern ≠ 13 → s.globals.currentPattern ≠ 14 → s'.strobeS = s.strobeS) ∧
    (s.globals.currentPattern ≠ 15 → s'.cascadeS = s.cascadeS) ∧
    (s.globals.currentPattern ≠ 16 → s'.fireflyEffectS = s.fireflyEffectS) ∧
    (s.globals.currentPattern ≠ 17 → s'.alternatingPairsS = s.alternatingPairsS) ∧
    (s.globals.currentPattern ≠ 18 → s'.thunderEffectS = s.thunderEffectS) ∧
    (s.globals.currentPattern ≠ 19 → s'.sequentialPairsS = s.sequentialPairsS) := by
  unfold runPattern at h
  split at h <;> rename_i hc <;>
    simp only [Option.some.injEq, Option.map_eq_some'] at h <;>
    (first
      | subst h
      | (obtain ⟨x, -, rfl⟩ := h)) <;>
    refine ⟨?_, ?_, ?_, ?_, ?_, ?_, ?_, ?_, ?_, ?_, ?_, ?_, ?_, ?_, ?_, ?_⟩ <;>
    intros <;> first | rfl | (exfalso; omega)

theorem staticsOf_frame (p : PatternInput) (s s' : State) (h : runPattern p s = some s')
    (j : Int) (hj : ¬ sameStepFunction s.globals.currentPattern j) :
    staticsOf j s' = staticsOf j s := by
  obtain ⟨f2, f3, f4, f6, f7, f8, f9, f10, f11, f12, f13, f15, f16, f17, f18, f19⟩ :=
    runPattern_frame p s s' h
  unfold sameStepFunction at hj
  unfold staticsOf
  split
  · rw [f2 (by omega)]
  · rw [f3 (by omega)]
  · rw [f4 (by omega) (by omega)]
  · rw [f4 (by omega) (by omega)]
  · rw [f6 (by omega)]
  · rw [f7 (by omega)]
  · rw [f8 (by omega)]
  · rw [f9 (by omega)]
  · rw [f10 (by omega)]
  · rw [f11 (by omega)]
  · rw [f12 (by omega)]
  · rw [f13 (by omega) (by omega)]
  · rw [f13 (by omega) (by omega)]
  · rw [f15 (by omega)]
  · rw [f16 (by omega)]
  · rw [f17 (by omega)]
  · rw [f18 (by omega)]
  · rw [f19 (by omega)]
  · rfl

theorem rotate_startTime (i : TickInput) (g : Globals)
    (h : (rotate i g).currentPattern ≠ g.currentPattern) :
    (rotate i g).patternStartTime = i.tPress ∨ (rotate i g).patternStartTime = i.tSwitch := by
  unfold rotate at h ⊢
  rw [rotation_eq] at h ⊢
  split_ifs at h ⊢ with ht
  · exact Or.inr rfl
  · by_cases hp : confirmsPress i.reading i.tReset i.tCheck i.tPress g
    · rw [checkButton_press _ _ _ _ _ hp]
      exact Or.inl rfl
    · exact absurd (checkButton_noPress _ _ _ _ _ hp).1 h

theorem staticsOf_afterRotation (i : TickInput) (s : State) (j : Int) :
    staticsOf j (afterRotation i s) = staticsOf j s := by
  unfold staticsOf
  split <;> rfl

theorem neverCalls_keeps (j : Int) (is : List TickInput) (s s' : State)
    (h : runLoop is s = some s') (hn : neverCalls j is s.globals) :
    staticsOf j s' = staticsOf j s := by
  induction is generalizing s with
  | nil =>
    simp only [runLoop, Option.some.injEq] at h
    rw [h]
  | cons i is ih =>
    obtain ⟨hn1, hn2⟩ := hn
    simp only [runLoop] at h
    cases hl : loop i s with
    | none => rw [hl] at h; simp at h
    | some s1 =>
      rw [hl, Option.some_bind] at h
      have hg : s1.globals = rotate i s.globals := loop_globals i s s1 hl
      have h1 : staticsOf j s1 = staticsOf j (afterRotation i s) :=
        staticsOf_frame i.pat (afterRotation i s) s1 hl j hn1
      rw [ih s1 h (by rw [hg]; exact hn2), h1, staticsOf_afterRotation]

/-- C12, as the code has it: in a tick in which `currentPattern` changes,
`patternStartTime` is set to a clock value read in that tick (in the press
handler or in the timeout branch); the rotation part of a tick changes only
the globals (`currentPattern`, `patternStartTime`, the debounce variables, and
the serial log), never the relay outputs or the statics of a pattern function;
`loop()` then runs the pattern `switch` on that state; and over a run of ticks
in which the step function of pattern `j` is never called, the statics that
pattern `j` reads stay as they were, so `j` resumes from there. -/
theorem rotation_touches_only_rotation_state :
    (∀ (i : TickInput) (g : Globals), (rotate i g).currentPattern ≠ g.currentPattern →
      (rotate i g).patternStartTime = i.tPress ∨ (rotate i g).patternStartTime = i.tSwitch) ∧
    (∀ (i : TickInput) (s : State),
      (afterRotation i s).relays = s.relays ∧
      (∀ j : Int, staticsOf j (afterRotation i s) = staticsOf j s) ∧
      (afterRotation i s).globals = rotate i s.globals ∧
      loop i s = runPattern i.pat (afterRotation i s)) ∧
    (∀ (j : Int) (is : List TickInput) (s s' : State), runLoop is s = some s' →
      neverCalls j is s.globals → staticsOf j s' = staticsOf j s) :=
  ⟨rotate_startTime,
   fun i s => ⟨rfl, fun j => staticsOf_afterRotation i s j, rfl, rfl⟩,
   neverCalls_keeps⟩

theorem rotation_touches_only_rotation_state_witness :
    ((rotate (timeoutTick 1) (atPattern 3).globals).patternStartTime = (timeoutTick 1).tPress ∨
      (rotate (timeoutTick 1) (atPattern 3).globals).patternStartTime
        = (timeoutTick 1).tSwitch) ∧
    (rotate (timeoutTick 1) (atPattern 3).globals).patternStartTime = 20000 ∧
    (∀ s', runLoop (timeoutTicks 3) (atPattern 3) = some s' →
      staticsOf 9 s' = staticsOf 9 (atPattern 3)) ∧
    (∃ s', runLoop (timeoutTicks 3) (atPattern 3) = some s') :=
  ⟨rotation_touches_only_rotation_state.1 (timeoutTick 1) (atPattern 3).globals (by decide),
   by decide,
   fun s' h => rotation_touches_only_rotation_state.2.2 9 (timeoutTicks 3) (atPattern 3) s' h
     (by
       simp only [timeoutTicks, List.range, List.range.loop, List.map, neverCalls, and_true]
       decide),
   by
     cases h : runLoop (timeoutTicks 3) (atPattern 3) with
     | none => exact absurd h (by decide)
     | some s' => exact ⟨s', rfl⟩⟩

/-- C12 as stated fails in its last clause: Slow Chase (4) steps `chase` to
position 1, Fast Chase (5) runs next and steps the same statics to position 2,
and when pattern 4 is entered again 19 switches later (it was never the
current pattern in between) it continues from position 2 and lights relay 3,
not from the step it had when it was last active. -/
theorem pattern4_resume_counterexample :
    (runLoop (timeoutTicks 1) (atPattern 3)).map
        (fun s => (s.globals.currentPattern, s.chaseS.position)) = some (4, 1) ∧
    (List.range 22).map (fun n => (runLoop (timeoutTicks n) (atPattern 3)).map
        (fun s => s.globals.currentPattern))
      = [some 3, some 4, some 5, some 6, some 7, some 8, some 9, some 10, some 11, some 12,
         some 13, some 14, some 15, some 16, some 17, some 18, some 19, some 0, some 1, some 2,
         some 3, some 4] ∧
    (runLoop (timeoutTicks 20) (atPattern 3)).map
        (fun s => (s.globals.currentPattern, s.chaseS.position)) = some (3, 2) ∧
    (runLoop (timeoutTicks 21) (atPattern 3)).map
        (fun s => (s.globals.currentPattern, relaysOn s.relays)) = some (4, [2]) := by
  refine ⟨?_, ?_, ?_, ?_⟩ <;> decide

/-- C13, as the code has it: statics are per step function. For pattern
indices `i` and `j` that call different step functions (all pairs of different
indices but 4, 5 and 13, 14), the step of pattern `i` leaves the statics that
the step of pattern `j` reads as they were; Slow Chase (4) and Fast Chase (5)
read the same statics, those of `chase`, and Slow Strobe (13) and Fast Strobe
(14) those of `strobe`. -/
theorem statics_independent_per_function :
    (∀ (i j : Int) (p : PatternInput) (s s' : State), i ≠ j →
      ¬ (i = 4 ∧ j = 5) → ¬ (i = 5 ∧ j = 4) → ¬ (i = 13 ∧ j = 14) → ¬ (i = 14 ∧ j = 13) →
      s.globals.currentPattern = i → runPattern p s = some s' →
        staticsOf j s' = staticsOf j s) ∧
    (∀ s : State, staticsOf 4 s = staticsOf 5 s ∧ staticsOf 13 s = staticsOf 14 s) := by
  refine ⟨?_, fun s => ⟨rfl, rfl⟩⟩
  intro i j p s s' hij h1 h2 h3 h4 hc hrun
  refine staticsOf_frame p s s' hrun j ?_
  rw [hc]
  unfold sameStepFunction
  tauto

theorem statics_independent_per_function_witness :
    (∀ s', runPattern (patternAt 1000) (atPattern 4) = some s' →
      staticsOf 6 s' = staticsOf 6 (atPattern 4)) ∧
    (∃ s', runPattern (patternAt 1000) (atPattern 4) = some s') :=
  ⟨fun s' h => statics_independent_per_function.1 4 6 (patternAt 1000) (atPattern 4) s'
     (by decide) (by decide) (by decide) (by decide) (by decide) rfl h,
   ⟨_, rfl⟩⟩

/-- C13 as stated fails for Slow Chase (4) and Fast Chase (5): a fired step of
pattern 4 changes `lastChange` and `position` of `chase`, the statics that the
step of pattern 5 reads. -/
theorem chase_statics_shared_counterexample :
    ¬ (∀ (i j : Int) (p : PatternInput) (s s' : State),
        0 ≤ i → i < 20 → 0 ≤ j → j < 20 → i ≠ j →
        s.globals.currentPattern = i → runPattern p s = some s' →
          staticsOf j s' = staticsOf j s) := by
  intro h
  have h45 := h 4 5 (patternAt 1000) (atPattern 4)
    { atPattern 4 with
      relays := { out1 := LOW, out2 := HIGH, out3 := HIGH }
      chaseS := { lastChange := 1000, position := 1 } }
    (by decide) (by decide) (by decide) (by decide) (by decide) rfl (by decide)
  revert h45
  decide

/-- After a fired step of `morseCodeSOS` the state it wrote stays until the
elapsed time reaches the entry of `durations` at the next step, and is then
replaced by the opposite state. -/
theorem morseCodeSOS_hold (n n2 m m2 : Nat) (r : Relays) (st : SosStatics) (d e : Int)
    (hd : lookup sosDurations st.sosStep = some d) (hf : usub n st.lastChange ≥ toULong d)
    (he : lookup sosDurations ((st.sosStep + 1).tmod 18) = some e) :
    ∃ x, morseCodeSOS n n2 r st = some x ∧
      (usub m n2 < toULong e → morseCodeSOS m m2 x.1 x.2 = some x) ∧
      (usub m n2 ≥ toULong e → ∃ y, morseCodeSOS m m2 x.1 x.2 = some y ∧ y.1 ≠ x.1) := by
  have hrange := lookup_range _ _ _ hd
  have h18 : (sosDurations.length : Int) = 18 := rfl
  rw [h18] at hrange
  obtain ⟨b, hb, hb'⟩ := sosStates_alternate st.sosStep hrange
  refine ⟨_, morseCodeSOS_fired n n2 r st d b hd hb hf, ?_, ?_⟩
  · intro hlt
    exact morseCodeSOS_idle m m2 _ _ e he hlt
  · intro hge
    refine ⟨_, morseCodeSOS_fired m m2 _ _ e (!b) he hb' hge, ?_⟩
    cases b <;> simp [allRelaysOn, allRelaysOff]

/-- C14 on the code: called from its initial statics at 200, 400, 600, 800,
1000, 1200, 1599, 1600, 2200, 2399, 2400 ms, `morseCodeSOS` keeps the third dot
of the first S on from 1000 to 1600 ms (600 ms, not 200) and the first dash of
the O on from 2200 to 2400 ms (200 ms, not 600): the state written at step `i`
is held for `durations[(i + 1) mod 18]`, not for `durations[i]`. -/
theorem sos_hold_times_shifted_by_one :
    sampleMorseCodeSOS [200, 400, 600, 800, 1000, 1200, 1599, 1600, 2200, 2399, 2400]
        (initState 0).relays (initState 0).morseCodeSOSS
      = some [allRelaysOn, allRelaysOff, allRelaysOn, allRelaysOff, allRelaysOn, allRelaysOn,
              allRelaysOn, allRelaysOff, allRelaysOn, allRelaysOn, allRelaysOff] ∧
    sosHoldTimes
      = [some 200, some 200, some 200, some 200, some 600, some 600,
         some 200, some 600, some 200, some 600, some 600, some 200,
         some 200, some 200, some 200, some 200, some 1400, some 200] ∧
    sosDurations
      = [200, 200, 200, 200, 200, 600, 600, 200, 600, 200, 600, 600,
         200, 200, 200, 200, 200, 1400] := by
  refine ⟨by decide, by decide, by decide⟩

/-- C15 on the code: nine fired steps of `fadeSimulation(100)` from its initial
statics, at 100, 200, …, 900 ms, read `fadeStep` 0, 1, 2, 2, 1, 0, 0, 1, 2 and
leave 1, 2, 3, 0, 0, 0, 1, 2, 3 relays on: the first fade-out step switches
all three relays off at once. -/
theorem fade_out_switches_all_off_at_once :
    (sampleFadeSimulation [100, 200, 300, 400, 500, 600, 700, 800, 900]
        (initState 0).relays (initState 0).fadeSimulationS).map
      (fun x => (x.1, (relaysOn x.2).length))
      = [(0, 1), (1, 2), (2, 3), (2, 0), (1, 0), (0, 0), (0, 1), (1, 2), (2, 3)] ∧
    (sampleFadeSimulation [100, 200, 300, 400, 500, 600, 700, 800, 900]
        (initState 0).relays (initState 0).fadeSimulationS).map (fun x => relaysOn x.2)
      = [[0], [0, 1], [0, 1, 2], [], [], [], [0], [0, 1], [0, 1, 2]] := by
  constructor <;> decide

theorem heartbeat60_fired (k : Int) (n n2 : Nat) (r : Relays) (st : HeartbeatStatics)
    (hk : 0 ≤ k ∧ k < 4) (hs : st.beatStep = k)
    (h : usub n st.lastChange ≥ toULong st.currentDelay) :
    ∃ hold rel, lookup beatHold k = some hold ∧ lookup beatRelays k = some rel ∧
      heartbeat 60 n n2 r st =
        (rel, { lastChange := n2, beatStep := (k + 1) % 4, currentDelay := hold }) := by
  unfold heartbeat
  rw [if_pos h]
  obtain ⟨h0, h4⟩ := hk
  interval_cases k <;> simp only [hs] <;> exact ⟨_, _, rfl, rfl, rfl⟩

/-- C16: a fired step of `heartbeat(60)` in phase `k` (0 to 3) writes all on,
all off, all on, all off for `k` = 0, 1, 2, 3, moves to phase `(k + 1) mod 4`
and sets `currentDelay` to 60, 30, 60, 240 ms; the state it wrote then stays
while the elapsed time is below that delay, and the next phase is written once
it is reached. The statics start in phase 0 with the delay 60, and one cycle
gates 60 + 30 + 60 + 240 = 390 ms. -/
theorem heartbeat_double_pulse :
    (∀ (k : Int) (n n2 : Nat) (r : Relays) (st : HeartbeatStatics),
      0 ≤ k → k < 4 → st.beatStep = k → usub n st.lastChange ≥ toULong st.currentDelay →
        ∃ hold rel, lookup beatHold k = some hold ∧ lookup beatRelays k = some rel ∧
          heartbeat 60 n n2 r st =
            (rel, { lastChange := n2, beatStep := (k + 1) % 4, currentDelay := hold }) ∧
          (∀ m m2 : Nat, usub m n2 < toULong hold →
            heartbeat 60 m m2 (heartbeat 60 n n2 r st).1 (heartbeat 60 n n2 r st).2
              = heartbeat 60 n n2 r st) ∧
          (∀ m m2 : Nat, usub m n2 ≥ toULong hold →
            ∃ hold' rel', lookup beatHold ((k + 1) % 4) = some hold' ∧
              lookup beatRelays ((k + 1) % 4) = some rel' ∧
              heartbeat 60 m m2 (heartbeat 60 n n2 r st).1 (heartbeat 60 n n2 r st).2 =
                (rel', { lastChange := m2, beatStep := ((k + 1) % 4 + 1) % 4,
                         currentDelay := hold' }))) ∧
    (initState 0).heartbeatS = { lastChange := 0, beatStep := 0, currentDelay := 60 } ∧
    beatHold = [60, 30, 60, 240] ∧
    beatRelays = [allRelaysOn, allRelaysOff, allRelaysOn, allRelaysOff] ∧
    beatHold.sum = 390 := by
  refine ⟨?_, rfl, rfl, rfl, rfl⟩
  intro k n n2 r st h0 h4 hs hf
  obtain ⟨hold, rel, hh, hr, heq⟩ := heartbeat60_fired k n n2 r st ⟨h0, h4⟩ hs hf
  refine ⟨hold, rel, hh, hr, heq, ?_, ?_⟩
  · intro m m2 hlt
    rw [heq]
    exact heartbeat_idle 60 m m2 _ _ hlt
  · intro m m2 hge
    rw [heq]
    exact heartbeat60_fired ((k + 1) % 4) m m2 _ _ (by omega) rfl hge

theorem heartbeat_double_pulse_witness :
    ∃ hold rel, lookup beatHold 0 = some hold ∧ lookup beatRelays 0 = some rel ∧
      heartbeat 60 60 60 (initState 0).relays (initState 0).heartbeatS =
        (rel, { lastChange := 60, beatStep := (0 + 1) % 4, currentDelay := hold }) ∧
      (∀ m m2 : Nat, usub m 60 < toULong hold →
        heartbeat 60 m m2
            (heartbeat 60 60 60 (initState 0).relays (initState 0).heartbeatS).1
            (heartbeat 60 60 60 (initState 0).relays (initState 0).heartbeatS).2
          = heartbeat 60 60 60 (initState 0).relays (initState 0).heartbeatS) ∧
      (∀ m m2 : Nat, usub m 60 ≥ toULong hold →
        ∃ hold' rel', lookup beatHold ((0 + 1) % 4) = some hold' ∧
          lookup beatRelays ((0 + 1) % 4) = some rel' ∧
          heartbeat 60 m m2
              (heartbeat 60 60 60 (initState 0).relays (initState 0).heartbeatS).1
              (heartbeat 60 60 60 (initState 0).relays (initState 0).heartbeatS).2 =
            (rel', { lastChange := m2, beatStep := ((0 + 1) % 4 + 1) % 4,
                     currentDelay := hold' })) :=
  heartbeat_double_pulse.1 0 60 60 (initState 0).relays (initState 0).heartbeatS
    (by decide) (by decide) rfl (by decide)

theorem alternatingPairs_fired (k : Int) (sp : Int) (n n2 : Nat) (r : Relays)
    (st : AlternatingPairsStatics) (hk : 0 ≤ k ∧ k < 3) (hs : st.pairStep = k)
    (h : usub n st.lastChange ≥ toULong sp) :
    ∃ rel, lookup alternatingPairsTable k = some rel ∧
      alternatingPairs sp n n2 r st = (rel, { lastChange := n2, pairStep := (k + 1) % 3 }) := by
  unfold alternatingPairs
  rw [if_pos h]
  obtain ⟨h0, h3⟩ := hk
  interval_cases k <;> simp only [hs] <;> exact ⟨_, rfl, rfl⟩

theorem sequentialPairs_fired (k : Int) (sp : Int) (n n2 : Nat) (r : Relays)
    (st : SequentialPairsStatics) (hk : 0 ≤ k ∧ k < 3) (hs : st.seqStep = k)
    (h : usub n st.lastChange ≥ toULong sp) :
    ∃ rel, lookup sequentialPairsTable k = some rel ∧
      sequentialPairs sp n n2 r st = (rel, { lastChange := n2, seqStep := (k + 1) % 3 }) := by
  unfold sequentialPairs
  rw [if_pos h]
  obtain ⟨h0, h3⟩ := hk
  interval_cases k <;> simp only [hs] <;> exact ⟨_, rfl, rfl⟩

theorem alternatingPairs_rotating (sp : Int) :
    TwoOnRotating (alternatingPairs sp) (fun now st => usub now st.lastChange ≥ toULong sp)
      (fun st => 0 ≤ st.pairStep ∧ st.pairStep < 3) := by
  intro t1 u1 t2 u2 t3 u3 r st hr f1 f2 f3
  obtain ⟨r1, hl1, e1⟩ := alternatingPairs_fired st.pairStep sp t1 u1 r st hr rfl f1
  rw [e1] at f2 f3 ⊢
  obtain ⟨r2, hl2, e2⟩ := alternatingPairs_fired ((st.pairStep + 1) % 3) sp t2 u2 r1
    { lastChange := u1, pairStep := (st.pairStep + 1) % 3 } (by omega) rfl f2
  rw [e2] at f3 ⊢
  obtain ⟨r3, hl3, e3⟩ := alternatingPairs_fired (((st.pairStep + 1) % 3 + 1) % 3) sp t3 u3 r2
    { lastChange := u2, pairStep := ((st.pairStep + 1) % 3 + 1) % 3 } (by omega) rfl f3
  rw [e3]
  obtain ⟨h0, h3⟩ := hr
  generalize st.pairStep = k at *
  interval_cases k <;> (cases hl1; cases hl2; cases hl3; simp only []; decide)

theorem sequentialPairs_rotating (sp : Int) :
    TwoOnRotating (sequentialPairs sp) (fun now st => usub now st.lastChange ≥ toULong sp)
      (fun st => 0 ≤ st.seqStep ∧ st.seqStep < 3) := by
  intro t1 u1 t2 u2 t3 u3 r st hr f1 f2 f3
  obtain ⟨r1, hl1, e1⟩ := sequentialPairs_fired st.seqStep sp t1 u1 r st hr rfl f1
  rw [e1] at f2 f3 ⊢
  obtain ⟨r2, hl2, e2⟩ := sequentialPairs_fired ((st.seqStep + 1) % 3) sp t2 u2 r1
    { lastChange := u1, seqStep := (st.seqStep + 1) % 3 } (by omega) rfl f2
  rw [e2] at f3 ⊢
  obtain ⟨r3, hl3, e3⟩ := sequentialPairs_fired (((st.seqStep + 1) % 3 + 1) % 3) sp t3 u3 r2
    { lastChange := u2, seqStep := ((st.seqStep + 1) % 3 + 1) % 3 } (by omega) rfl f3
  rw [e3]
  obtain ⟨h0, h3⟩ := hr
  generalize st.seqStep = k at *
  interval_cases k <;> (cases hl1; cases hl2; cases hl3; simp only []; decide)

/-- C17: with the phase counter inside its `switch` (as in every reachable
state), every fired step of `alternatingPairs` and of `sequentialPairs` leaves
exactly two of the three relays on, and over any three consecutive fired steps
of one of them each relay is the one that is off exactly once. -/
theorem pairs_two_on_off_relay_rotates :
    (∀ sp : Int,
      TwoOnRotating (alternatingPairs sp) (fun now st => usub now st.lastChange ≥ toULong sp)
        (fun st => 0 ≤ st.pairStep ∧ st.pairStep < 3)) ∧
    (∀ sp : Int,
      TwoOnRotating (sequentialPairs sp) (fun now st => usub now st.lastChange ≥ toULong sp)
        (fun st => 0 ≤ st.seqStep ∧ st.seqStep < 3)) ∧
    (∀ s : State, Reachable s →
      (0 ≤ s.alternatingPairsS.pairStep ∧ s.alternatingPairsS.pairStep < 3) ∧
      (0 ≤ s.sequentialPairsS.seqStep ∧ s.sequentialPairsS.seqStep < 3)) :=
  ⟨alternatingPairs_rotating, sequentialPairs_rotating,
   fun s h => ⟨(reachable_stepsInRange s h).pairStep, (reachable_stepsInRange s h).seqStep⟩⟩

theorem pairs_two_on_off_relay_rotates_witness :
    (relaysOn (alternatingPairs 600 600 600 (initState 0).relays
        (initState 0).alternatingPairsS).1).length = 2 ∧
    (relaysOff (sequentialPairs 500 500 500 (initState 0).relays
          (initState 0).sequentialPairsS).1 ++
      relaysOff (sequentialPairs 500 1000 1000
          (sequentialPairs 500 500 500 (initState 0).relays (initState 0).sequentialPairsS).1
          (sequentialPairs 500 500 500 (initState 0).relays (initState 0).sequentialPairsS).2).1 ++
      relaysOff (sequentialPairs 500 1500 1500
          (sequentialPairs 500 1000 1000
            (sequentialPairs 500 500 500 (initState 0).relays (initState 0).sequentialPairsS).1
            (sequentialPairs 500 500 500 (initState 0).relays (initState 0).sequentialPairsS).2).1
          (sequentialPairs 500 1000 1000
            (sequentialPairs 500 500 500 (initState 0).relays (initState 0).sequentialPairsS).1
            (sequentialPairs 500 500 500 (initState 0).relays
              (initState 0).sequentialPairsS).2).2).1).Perm [0, 1, 2] :=
  ⟨(pairs_two_on_off_relay_rotates.1 600 600 600 1200 1200 1800 1800 (initState 0).relays
      (initState 0).alternatingPairsS (by decide) (by decide) (by decide) (by decide)).1,
   (pairs_two_on_off_relay_rotates.2.1 500 500 500 1000 1000 1500 1500 (initState 0).relays
      (initState 0).sequentialPairsS (by decide) (by decide) (by decide) (by decide)).2.2.2⟩

/-- C18, as the code has it: `sequentialPairs` writes the same three on-pairs
as `alternatingPairs` (relays 1+2, 1+3 and 2+3, the only pairs there are), in
another order: `alternatingPairs` writes 1+2, 1+3, 2+3 in its phases 0, 1, 2
and `sequentialPairs` writes 1+2, 2+3, 1+3. -/
theorem pairs_same_combinations_other_order :
    (∀ (k sp : Int) (n n2 : Nat) (r : Relays) (st : AlternatingPairsStatics),
      0 ≤ k → k < 3 → st.pairStep = k → usub n st.lastChange ≥ toULong sp →
        ∃ rel, lookup alternatingPairsTable k = some rel ∧
          (alternatingPairs sp n n2 r st).1 = rel) ∧
    (∀ (k sp : Int) (n n2 : Nat) (r : Relays) (st : SequentialPairsStatics),
      0 ≤ k → k < 3 → st.seqStep = k → usub n st.lastChange ≥ toULong sp →
        ∃ rel, lookup sequentialPairsTable k = some rel ∧
          (sequentialPairs sp n n2 r st).1 = rel) ∧
    alternatingPairsTable.map relaysOn = [[0, 1], [0, 2], [1, 2]] ∧
    sequentialPairsTable.map relaysOn = [[0, 1], [1, 2], [0, 2]] ∧
    (∀ p : List Nat,
      p ∈ alternatingPairsTable.map relaysOn ↔ p ∈ sequentialPairsTable.map relaysOn) ∧
    alternatingPairsTable.map relaysOn ≠ sequentialPairsTable.map relaysOn := by
  refine ⟨?_, ?_, by decide, by decide, ?_, by decide⟩
  · intro k sp n n2 r st h0 h3 hs hf
    obtain ⟨rel, hl, he⟩ := alternatingPairs_fired k sp n n2 r st ⟨h0, h3⟩ hs hf
    exact ⟨rel, hl, by rw [he]⟩
  · intro k sp n n2 r st h0 h3 hs hf
    obtain ⟨rel, hl, he⟩ := sequentialPairs_fired k sp n n2 r st ⟨h0, h3⟩ hs hf
    exact ⟨rel, hl, by rw [he]⟩
  · intro p
    have ha : alternatingPairsTable.map relaysOn = [[0, 1], [0, 2], [1, 2]] := by decide
    have hb : sequentialPairsTable.map relaysOn = [[0, 1], [1, 2], [0, 2]] := by decide
    rw [ha, hb]
    simp only [List.mem_cons, List.mem_singleton, List.not_mem_nil, or_false]
    tauto

theorem pairs_same_combinations_other_order_witness :
    (∃ rel, lookup alternatingPairsTable 1 = some rel ∧
      (alternatingPairs 600 1200 1200 allRelaysOff { lastChange := 600, pairStep := 1 }).1
        = rel) ∧
    (∃ rel, lookup sequentialPairsTable 1 = some rel ∧
      (sequentialPairs 500 1000 1000 allRelaysOff { lastChange := 500, seqStep := 1 }).1
        = rel) :=
  ⟨pairs_same_combinations_other_order.1 1 600 1200 1200 allRelaysOff
      { lastChange := 600, pairStep := 1 } (by decide) (by decide) rfl (by decide),
   pairs_same_combinations_other_order.2.1 1 500 1000 1000 allRelaysOff
      { lastChange := 500, seqStep := 1 } (by decide) (by decide) rfl (by decide)⟩

/-- C18 as stated fails: the on-pairs `sequentialPairs` writes over its three
phases are the on-pairs `alternatingPairs` writes over its three phases; no
pair is written by one and not by the other. -/
theorem pairs_sets_equal_counterexample :
    alternatingPairsWrites = [[0, 1], [0, 2], [1, 2]] ∧
    sequentialPairsWrites = [[0, 1], [1, 2], [0, 2]] ∧
    ¬ (∃ p : List Nat,
        (p ∈ alternatingPairsWrites ∧ p ∉ sequentialPairsWrites) ∨
        (p ∈ sequentialPairsWrites ∧ p ∉ alternatingPairsWrites)) := by
  have ha : alternatingPairsWrites = [[0, 1], [0, 2], [1, 2]] := by decide
  have hb : sequentialPairsWrites = [[0, 1], [1, 2], [0, 2]] := by decide
  refine ⟨ha, hb, ?_⟩
  rw [ha, hb]
  simp only [List.mem_cons, List.mem_singleton, List.not_mem_nil, or_false]
  rintro ⟨p, h⟩
  tauto

theorem fireflyIter_idle (i : Nat) (n n2 a b : Nat) (st : FireflyStatics)
    (h : usub n (st.lastChange.get i) < st.durations.get i) : fireflyIter i n n2 a b st = st := by
  unfold fireflyIter
  rw [if_neg (Nat.not_le.mpr h)]

theorem fireflyEffect_writes (now now2 rOn rOff : Arr3 Nat) (r : Relays) (st : FireflyStatics) :
    (fireflyEffect now now2 rOn rOff r st).1 =
      { out1 := levelOf ((fireflyEffect now now2 rOn rOff r st).2.states.get 0)
        out2 := levelOf ((fireflyEffect now now2 rOn rOff r st).2.states.get 1)
        out3 := levelOf ((fireflyEffect now now2 rOn rOff r st).2.states.get 2) } := rfl

theorem fireflyEffect_quiet (now now2 rOn rOff : Arr3 Nat) (r : Relays) (st : FireflyStatics)
    (h : fireflyQuiet now st) :
    fireflyEffect now now2 rOn rOff r st =
      ({ out1 := levelOf (st.states.get 0), out2 := levelOf (st.states.get 1)
         out3 := levelOf (st.states.get 2) }, st) := by
  unfold fireflyEffect
  simp only []
  rw [fireflyIter_idle 0 _ _ _ _ st (h 0 (by decide)),
    fireflyIter_idle 1 _ _ _ _ st (h 1 (by decide)),
    fireflyIter_idle 2 _ _ _ _ st (h 2 (by decide))]
  rfl

theorem runPattern_notDue (p : PatternInput) (s : State) (hr : StepsInRange s)
    (hdue : ¬ patternDue p s) : runPattern p s = some s := by
  unfold patternDue at hdue
  unfold runPattern
  split at hdue <;> first | exact absurd trivial hdue | skip
  all_goals rename_i hc
  all_goals try simp only [hc]
  · rw [sequentialOnOff_idle 500 _ _ _ _ (Nat.lt_of_not_le hdue)]
  · rw [alternating12_3_idle 800 _ _ _ _ (Nat.lt_of_not_le hdue)]
  · rw [chase_idle 1000 _ _ _ _ (Nat.lt_of_not_le hdue)]
  · rw [chase_idle 250 _ _ _ _ (Nat.lt_of_not_le hdue)]
  · rw [randomBlink_idle 300 _ _ _ _ _ _ _ (Nat.lt_of_not_le hdue)]
  · rw [heartbeat_idle 60 _ _ _ _ (Nat.lt_of_not_le hdue)]
  · rw [binaryCount_idle 500 _ _ _ _ (Nat.lt_of_not_le hdue)]
  · rw [fadeSimulation_idle 100 _ _ _ _ (Nat.lt_of_not_le hdue)]
  · rw [alternating1_23_idle 700 _ _ _ _ (Nat.lt_of_not_le hdue)]
  · rw [wavePattern_idle 300 _ _ _ _ (Nat.lt_of_not_le hdue)]
  · obtain ⟨d, hd⟩ := lookup_some sosDurations s.morseCodeSOSS.sosStep hr.sosStep
    have hlt : usub p.now s.morseCodeSOSS.lastChange < toULong d :=
      Nat.lt_of_not_le (fun hge => hdue ⟨d, hd, hge⟩)
    rw [morseCodeSOS_idle _ _ _ _ d hd hlt]
    rfl
  · rw [strobe_idle 400 _ _ _ _ (Nat.lt_of_not_le hdue)]
  · rw [strobe_idle 100 _ _ _ _ (Nat.lt_of_not_le hdue)]
  · rw [cascade_idle 300 _ _ _ _ (Nat.lt_of_not_le hdue)]
  · rw [alternatingPairs_idle 600 _ _ _ _ (Nat.lt_of_not_le hdue)]
  · obtain ⟨d, hd⟩ := lookup_some thunderTiming s.thunderEffectS.thunderStep hr.thunderStep
    have hlt : usub p.now s.thunderEffectS.lastChange < toULong d :=
      Nat.lt_of_not_le (fun hge => hdue ⟨d, hd, hge⟩)
    rw [thunderEffect_idle _ _ _ _ d hd hlt]
    rfl
  · rw [sequentialPairs_idle 500 _ _ _ _ (Nat.lt_of_not_le hdue)]

/-- C19, as the code has it: All On, All Off and Firefly write the three
outputs on every call; `fireflyEffect` writes them from its array `states`,
so when none of its intervals has elapsed it keeps its statics and leaves the
outputs at the levels of `states`. For every other pattern (step counters
inside their tables), a step taken when the interval has not elapsed returns
the state unchanged, relay outputs included. -/
theorem only_gated_patterns_skip_writes :
    (∀ (p : PatternInput) (s : State), StepsInRange s → ¬ patternDue p s →
      runPattern p s = some s) ∧
    (∀ (p : PatternInput) (s : State),
      (s.globals.currentPattern = 0 ∨ s.globals.currentPattern = 1 ∨
        s.globals.currentPattern = 16) → patternDue p s) ∧
    (∀ r : Relays, allOn r = allRelaysOn ∧ allOff r = allRelaysOff) ∧
    (∀ (now now2 rOn rOff : Arr3 Nat) (r : Relays) (st : FireflyStatics),
      (fireflyEffect now now2 rOn rOff r st).1 =
        { out1 := levelOf ((fireflyEffect now now2 rOn rOff r st).2.states.get 0)
          out2 := levelOf ((fireflyEffect now now2 rOn rOff r st).2.states.get 1)
          out3 := levelOf ((fireflyEffect now now2 rOn rOff r st).2.states.get 2) }) ∧
    (∀ (now now2 rOn rOff : Arr3 Nat) (r : Relays) (st : FireflyStatics),
      fireflyQuiet now st →
        fireflyEffect now now2 rOn rOff r st =
          ({ out1 := levelOf (st.states.get 0), out2 := levelOf (st.states.get 1)
             out3 := levelOf (st.states.get 2) }, st)) := by
  refine ⟨runPattern_notDue, ?_, fun r => ⟨rfl, rfl⟩, fireflyEffect_writes, fireflyEffect_quiet⟩
  intro p s h
  unfold patternDue
  rcases h with h | h | h <;> simp only [h]

theorem only_gated_patterns_skip_writes_witness :
    ¬ patternDue (patternAt 499) (atPattern 8) ∧
    runPattern (patternAt 499) (atPattern 8) = some (atPattern 8) ∧
    fireflyEffect ⟨10, 10, 10⟩ ⟨10, 10, 10⟩ ⟨150, 200, 250⟩ ⟨1500, 2000, 2500⟩ allRelaysOff
        fireflyDark
      = ({ out1 := levelOf (fireflyDark.states.get 0), out2 := levelOf (fireflyDark.states.get 1)
           out3 := levelOf (fireflyDark.states.get 2) }, fireflyDark) :=
  ⟨by show ¬ (usub 499 0 ≥ toULong 500); decide,
   only_gated_patterns_skip_writes.1 (patternAt 499) (atPattern 8)
     (by constructor <;> decide) (by show ¬ (usub 499 0 ≥ toULong 500); decide),
   only_gated_patterns_skip_writes.2.2.2.2 ⟨10, 10, 10⟩ ⟨10, 10, 10⟩ ⟨150, 200, 250⟩
     ⟨1500, 2000, 2500⟩ allRelaysOff fireflyDark
     (by
       intro i hi
       interval_cases i <;> decide)⟩

/-- C19 as stated fails for Firefly: with the three relays on, the three
lights of `fireflyEffect` off and none of its intervals elapsed (10 ms of
1000), the call switches the three relays off. -/
theorem firefly_writes_unconditionally_counterexample :
    fireflyQuiet ⟨10, 10, 10⟩ fireflyDark ∧
    (fireflyEffect ⟨10, 10, 10⟩ ⟨10, 10, 10⟩ ⟨150, 200, 250⟩ ⟨1500, 2000, 2500⟩ allRelaysOn
        fireflyDark).1 = allRelaysOff ∧
    (fireflyEffect ⟨10, 10, 10⟩ ⟨10, 10, 10⟩ ⟨150, 200, 250⟩ ⟨1500, 2000, 2500⟩ allRelaysOn
        fireflyDark).1 ≠ allRelaysOn := by
  refine ⟨?_, by decide, by decide⟩
  intro i hi
  interval_cases i <;> decide

/-- C20: in every state reachable from the state after `setup()` by iterations
of `loop()`, on any inputs, every step counter is inside the range its table
or `switch` covers: `sosStep < 18`, `thunderStep < 13`, `sequence`, `position`,
`pairStep`, `seqStep < 3`, `beatStep < 4`, `waveStep`, `step < 6`,
`counter < 8`, `0 ≤ fadeStep ≤ 2`, none negative. So the four table reads of
`morseCodeSOS` and `thunderEffect` are inside their tables, and `loop()` runs
on any input and ends in such a state again. -/
theorem step_counters_stay_in_range (s : State) (h : Reachable s) :
    ((0 ≤ s.morseCodeSOSS.sosStep ∧ s.morseCodeSOSS.sosStep < 18) ∧
     (0 ≤ s.thunderEffectS.thunderStep ∧ s.thunderEffectS.thunderStep < 13) ∧
     (0 ≤ s.sequentialOnOffS.sequence ∧ s.sequentialOnOffS.sequence < 3) ∧
     (0 ≤ s.chaseS.position ∧ s.chaseS.position < 3) ∧
     (0 ≤ s.alternatingPairsS.pairStep ∧ s.alternatingPairsS.pairStep < 3) ∧
     (0 ≤ s.sequentialPairsS.seqStep ∧ s.sequentialPairsS.seqStep < 3) ∧
     (0 ≤ s.heartbeatS.beatStep ∧ s.heartbeatS.beatStep < 4) ∧
     (0 ≤ s.wavePatternS.waveStep ∧ s.wavePatternS.waveStep < 6) ∧
     (0 ≤ s.cascadeS.step ∧ s.cascadeS.step < 6) ∧
     (0 ≤ s.binaryCountS.counter ∧ s.binaryCountS.counter < 8) ∧
     (0 ≤ s.fadeSimulationS.fadeStep ∧ s.fadeSimulationS.fadeStep ≤ 2)) ∧
    ((∃ d, lookup sosDurations s.morseCodeSOSS.sosStep = some d) ∧
     (∃ b, lookup sosStates s.morseCodeSOSS.sosStep = some b) ∧
     (∃ d, lookup thunderTiming s.thunderEffectS.thunderStep = some d) ∧
     (∃ v, lookup thunderSequence s.thunderEffectS.thunderStep = some v)) ∧
    (∀ i : TickInput, ∃ s', loop i s = some s' ∧ Reachable s' ∧ StepsInRange s') := by
  have hr := reachable_stepsInRange s h
  refine ⟨⟨hr.sosStep, hr.thunderStep, hr.sequence, hr.position, hr.pairStep, hr.seqStep,
    hr.beatStep, hr.waveStep, hr.step, hr.counter, hr.fadeStep⟩,
    ⟨lookup_some _ _ hr.sosStep, lookup_some _ _ hr.sosStep, lookup_some _ _ hr.thunderStep,
     lookup_some _ _ hr.thunderStep⟩, fun i => ?_⟩
  obtain ⟨s', hs', hr', -⟩ := loop_total i s hr
  exact ⟨s', hs', Reachable.step i s s' h hs', hr'⟩

theorem step_counters_stay_in_range_witness :
    Reachable (initState 0) ∧
    (∀ i : TickInput,
      ∃ s', loop i (initState 0) = some s' ∧ Reachable s' ∧ StepsInRange s') :=
  ⟨Reachable.init 0, (step_counters_stay_in_range (initState 0) (Reachable.init 0)).2.2⟩

end RelayLights
